import Mathlib

/-!
# Congestion-control strategies of the datagram sender

A shallow embedding of the three window-adaptation strategies of the repository:

* `MeanVar`  : `controller-meanvar.cc` (running RTT statistics, threshold gate),
* `LossRate` : `controller.cc` (timeout-frequency gate),
* `Copa`     : `sender-copa.cc` (delay-gradient rule with velocity hysteresis).

Floating-point members are taken exactly, over the rationals, and the special IEEE values
that a division by zero produces are kept (`XFloat`).  The pacing computation of
`send_datagram`, whose result is truncated to whole microseconds, is the exception: there
every operation is rounded to single precision (`XFloat.round32`).  Values of type
`uint64_t` are naturals with arithmetic modulo `2 ^ 64`.  The `debug_` flag only prints and
is left out.
-/

/-! ## Machine arithmetic -/

/-- Modulus of `uint64_t` arithmetic. -/
def UINT64 : Nat := 2 ^ 64

/-- Difference `a - b` of two `uint64_t` values, wrapping modulo `2 ^ 64`. -/
def sub64 (a b : Nat) : Nat := (a % UINT64 + (UINT64 - b % UINT64)) % UINT64

/-- Sum `a + b` of two `uint64_t` values, wrapping modulo `2 ^ 64`. -/
def add64 (a b : Nat) : Nat := (a + b) % UINT64

/-- Values of a floating-point variable with exact finite arithmetic: a rational, or one of
the IEEE special values that a division by zero or an operation on them produces. All zeros
that arise in the embedded code are positive zeros, so the sign of zero is not recorded. -/
inductive XFloat where
  | nan : XFloat
  | ninf : XFloat
  | pinf : XFloat
  | fin (q : ℚ) : XFloat
  deriving DecidableEq

namespace XFloat

/-- Negation. -/
def neg : XFloat → XFloat
  | nan => nan
  | ninf => pinf
  | pinf => ninf
  | fin a => fin (-a)

/-- Addition: opposite infinities give NaN. -/
def add : XFloat → XFloat → XFloat
  | nan, _ => nan
  | _, nan => nan
  | pinf, ninf => nan
  | ninf, pinf => nan
  | pinf, _ => pinf
  | _, pinf => pinf
  | ninf, _ => ninf
  | _, ninf => ninf
  | fin a, fin b => fin (a + b)

/-- Subtraction. -/
def sub (a b : XFloat) : XFloat := add a (neg b)

/-- Product of an infinity with a finite factor `b`. -/
def mul_inf (positive : Bool) (b : ℚ) : XFloat :=
  if b = 0 then nan else if decide (0 < b) = positive then pinf else ninf

/-- Multiplication: zero times infinity gives NaN. -/
def mul : XFloat → XFloat → XFloat
  | nan, _ => nan
  | _, nan => nan
  | pinf, pinf => pinf
  | pinf, ninf => ninf
  | ninf, pinf => ninf
  | ninf, ninf => pinf
  | pinf, fin b => mul_inf true b
  | ninf, fin b => mul_inf false b
  | fin a, pinf => mul_inf true a
  | fin a, ninf => mul_inf false a
  | fin a, fin b => fin (a * b)

/-- Division: a finite nonzero value over zero is an infinity of its sign, zero over zero and
infinity over infinity are NaN, a finite value over an infinity is zero. -/
def div : XFloat → XFloat → XFloat
  | nan, _ => nan
  | _, nan => nan
  | pinf, pinf => nan
  | pinf, ninf => nan
  | ninf, pinf => nan
  | ninf, ninf => nan
  | pinf, fin b => if 0 ≤ b then pinf else ninf
  | ninf, fin b => if 0 ≤ b then ninf else pinf
  | fin _, pinf => fin 0
  | fin _, ninf => fin 0
  | fin a, fin b =>
    if b = 0 then (if a = 0 then nan else if 0 < a then pinf else ninf) else fin (a / b)

/-- Comparison `a <= b`; false as soon as one side is NaN. -/
def le : XFloat → XFloat → Bool
  | nan, _ => false
  | _, nan => false
  | ninf, _ => true
  | _, pinf => true
  | pinf, _ => false
  | _, ninf => false
  | fin a, fin b => decide (a ≤ b)

/-- Comparison `a < b`; false as soon as one side is NaN. -/
def lt : XFloat → XFloat → Bool
  | nan, _ => false
  | _, nan => false
  | pinf, _ => false
  | _, ninf => false
  | ninf, _ => true
  | _, pinf => true
  | fin a, fin b => decide (a < b)

/-- Conversion of a floating-point value to `uint64_t`, as in
`old_window_size_ = cur_window_size_`: a value in the range is truncated toward zero. For a
value outside the range the code has no check and no error path, and the language does not
fix the result; the definition gives the result of the x86-64 conversion, which goes through
a signed 64-bit integer: a negative value above `-2^63 - 1` gives `2^64` less its truncated
magnitude (so -1.14 gives `2^64 - 1`), a NaN and every value below give `2^63`, and values
of `2^64` and above give 0. -/
def toUInt64 : XFloat → Nat
  | fin q =>
    if 0 ≤ q then (if q < (UINT64 : ℚ) then Int.toNat ⌊q⌋ else 0)
    else if -(2 ^ 63 : ℚ) - 1 < q then (UINT64 - Int.toNat ⌊-q⌋) % UINT64
    else 2 ^ 63
  | pinf => 0
  | _ => 2 ^ 63

end XFloat

/-! ## MeanVariance strategy (`controller-meanvar.cc`) -/

namespace MeanVar

/-- Modelled from the spec: the member declarations of `controller.hh` are not among the
sources. The spec gives `packet_counter` and `num_acks` as integers without a width and the
window as an unsigned count, so they are naturals here; `rtt_mean` and `rtt_std_dev` are the
two floating-point accumulators, taken exactly. -/
structure Controller where
  cur_window_size : Nat
  packet_counter : Nat
  rtt_mean : ℚ
  rtt_std_dev : ℚ
  num_acks : Nat
  deriving DecidableEq

/-- State set up by the constructor. -/
def Controller.init : Controller :=
  { cur_window_size := 10, packet_counter := 0, rtt_mean := 0, rtt_std_dev := 0, num_acks := 0 }

/-- Current window size, in datagrams. The member is returned as it is, the conversion to
`unsigned int` of a window in range being the identity. -/
def window_size (c : Controller) : Nat := c.cur_window_size

/-- A datagram was sent. -/
def datagram_was_sent (c : Controller) (_sequence_number _send_timestamp : Nat)
    (after_timeout : Bool) : Controller :=
  if after_timeout then { c with cur_window_size := c.cur_window_size / 3 } else c

/-- An ack was received. -/
def ack_received (c : Controller) (_sequence_number_acked send_timestamp_acked
    _recv_timestamp_acked timestamp_ack_received : Nat) : Controller :=
  let cur_rtt : Nat := sub64 timestamp_ack_received send_timestamp_acked
  let num_acks := c.num_acks + 1
  let prev_rtt_mean := c.rtt_mean
  let rtt_mean := c.rtt_mean + ((cur_rtt : ℚ) - c.rtt_mean) / (num_acks : ℚ)
  let rtt_std_dev := c.rtt_std_dev + ((cur_rtt : ℚ) - rtt_mean) * ((cur_rtt : ℚ) - prev_rtt_mean)
  if c.packet_counter ≥ c.cur_window_size then
    if cur_rtt ≥ 130 then
      { cur_window_size := c.cur_window_size * 2 / 3, packet_counter := 0,
        rtt_mean := rtt_mean, rtt_std_dev := rtt_std_dev, num_acks := num_acks }
    else if (cur_rtt : ℚ) ≤ rtt_mean + 2 * rtt_std_dev then
      { cur_window_size := c.cur_window_size + 1, packet_counter := 0,
        rtt_mean := rtt_mean, rtt_std_dev := rtt_std_dev, num_acks := num_acks }
    else
      { cur_window_size := c.cur_window_size, packet_counter := 0,
        rtt_mean := rtt_mean, rtt_std_dev := rtt_std_dev, num_acks := num_acks }
  else
    { cur_window_size := c.cur_window_size, packet_counter := c.packet_counter + 1,
      rtt_mean := rtt_mean, rtt_std_dev := rtt_std_dev, num_acks := num_acks }

/-- How long to wait (in milliseconds) if there are no acks. -/
def timeout_ms (_c : Controller) : Nat := 250

/-- The two calls the sender makes on the controller. -/
inductive Event where
  | sent (sequence_number send_timestamp : Nat) (after_timeout : Bool)
  | ack (sequence_number_acked send_timestamp_acked recv_timestamp_acked
      timestamp_ack_received : Nat)
  deriving DecidableEq

/-- Effect of one call. -/
def step (c : Controller) : Event → Controller
  | .sent n t b => datagram_was_sent c n t b
  | .ack n s r t => ack_received c n s r t

/-- Effect of a finite sequence of calls, oldest first. -/
def run (c : Controller) (es : List Event) : Controller := es.foldl step c

/-- RTT sample that an event delivers to the running statistics, if any. -/
def Event.sample : Event → Option ℚ
  | .sent _ _ _ => none
  | .ack _ s _ t => some ((sub64 t s : Nat) : ℚ)

/-- The RTT samples of a sequence of calls, oldest first. -/
def samples (es : List Event) : List ℚ := es.filterMap Event.sample

/-- Arithmetic mean of a list of samples. -/
def mean (xs : List ℚ) : ℚ := xs.sum / (xs.length : ℚ)

/-- Two-pass sum of squared deviations from the mean. -/
def sq_dev (xs : List ℚ) : ℚ := (xs.map (fun x => (x - mean xs) ^ 2)).sum

/-- An event that takes the window to zero from a state with a positive window: a
timeout-triggered send at a window below 3, or an epoch shrink at a window below 2. -/
def collapses (c : Controller) : Event → Prop
  | .sent _ _ b => b = true ∧ c.cur_window_size < 3
  | .ack _ s _ t =>
    c.packet_counter ≥ c.cur_window_size ∧ sub64 t s ≥ 130 ∧ c.cur_window_size < 2

/-- No event of the sequence, met in the state it is applied to, collapses the window. -/
def never_collapses : Controller → List Event → Prop
  | _, [] => True
  | c, e :: es => ¬ collapses c e ∧ never_collapses (step c e) es

/-- The Welford invariant: count, scaled mean and accumulator after the samples `xs`. -/
def welford_inv (c : Controller) (xs : List ℚ) : Prop :=
  c.num_acks = xs.length ∧ (c.num_acks : ℚ) * c.rtt_mean = xs.sum ∧
    c.rtt_std_dev = (xs.map (fun x => x ^ 2)).sum - (c.num_acks : ℚ) * c.rtt_mean ^ 2

end MeanVar

/-! ## LossRate strategy (`controller.cc`) -/

namespace LossRate

/-- Modelled from the spec: the member declarations of `controller.hh` are not among the
sources. The spec gives the two counters and `packet_counter` as integers without a width and
the window as an unsigned count, so they are naturals here. -/
structure Controller where
  cur_window_size : Nat
  packet_counter : Nat
  timeouts : Nat
  num_datagrams_sent : Nat
  deriving DecidableEq

/-- State set up by the constructor. -/
def Controller.init : Controller :=
  { cur_window_size := 10, packet_counter := 0, timeouts := 0, num_datagrams_sent := 0 }

/-- Current window size, in datagrams. The member is returned as it is, the conversion to
`unsigned int` of a window in range being the identity. -/
def window_size (c : Controller) : Nat := c.cur_window_size

/-- A datagram was sent. -/
def datagram_was_sent (c : Controller) (_sequence_number _send_timestamp : Nat)
    (after_timeout : Bool) : Controller :=
  if after_timeout then
    { c with num_datagrams_sent := c.num_datagrams_sent + 1, timeouts := c.timeouts + 1 }
  else
    { c with num_datagrams_sent := c.num_datagrams_sent + 1 }

/-- The loss estimate `(float) timeouts / num_datagrams_sent * 100`. -/
def lambda (c : Controller) : XFloat :=
  XFloat.mul (XFloat.div (.fin (c.timeouts : ℚ)) (.fin (c.num_datagrams_sent : ℚ))) (.fin 100)

/-- The test `1 - exp(-lambda) > 0.01` with the exponential of the reals. On the special
values: a NaN compares false, `exp(-inf) = 0` gives `1 > 0.01`, and `exp(+inf) = inf`
gives `-inf > 0.01`. The code evaluates the test in single precision with the exponential
of the C library, which is not among the sources; the two can differ for a loss estimate
within rounding distance of the threshold (about 1.005), so nothing below decides the test
there: it is used at the estimates 100 and 0, at a NaN, and as an undecided condition. -/
def exp_test : XFloat → Prop
  | .nan => False
  | .pinf => True
  | .ninf => False
  | .fin q => 1 - Real.exp (-(q : ℝ)) > 1 / 100

/-- An ack was received. The outcome of the exponential test is read from whatever
procedure decides it. -/
def ack_received [DecidablePred exp_test] (c : Controller) (_sequence_number_acked
    _send_timestamp_acked _recv_timestamp_acked _timestamp_ack_received : Nat) : Controller :=
  if exp_test (lambda c) then
    { c with cur_window_size := c.cur_window_size / 2, packet_counter := 0 }
  else if c.packet_counter ≥ c.cur_window_size then
    { c with cur_window_size := c.cur_window_size + 1, packet_counter := 0 }
  else
    { c with packet_counter := c.packet_counter + 1 }

/-- How long to wait (in milliseconds) if there are no acks. -/
def timeout_ms (_c : Controller) : Nat := 1000

/-- The two calls the sender makes on the controller. -/
inductive Event where
  | sent (sequence_number send_timestamp : Nat) (after_timeout : Bool)
  | ack (sequence_number_acked send_timestamp_acked recv_timestamp_acked
      timestamp_ack_received : Nat)
  deriving DecidableEq

/-- Effect of one call. -/
def step [DecidablePred exp_test] (c : Controller) : Event → Controller
  | .sent n t b => datagram_was_sent c n t b
  | .ack n s r t => ack_received c n s r t

/-- Effect of a finite sequence of calls, oldest first. -/
def run [DecidablePred exp_test] (c : Controller) (es : List Event) : Controller :=
  es.foldl step c

/-- An event that takes the window to zero from a state with a positive window: an ack
that backs off at a window below 2. -/
def collapses (c : Controller) : Event → Prop
  | .sent _ _ _ => False
  | .ack _ _ _ _ => exp_test (lambda c) ∧ c.cur_window_size < 2

/-- No event of the sequence, met in the state it is applied to, collapses the window. -/
def never_collapses [DecidablePred exp_test] : Controller → List Event → Prop
  | _, [] => True
  | c, e :: es => ¬ collapses c e ∧ never_collapses (step c e) es

end LossRate

/-! ## Copa sender (`sender-copa.cc`) -/

namespace Copa

/-- Modelled from the spec: `contest_message.hh` is not among the sources. Of the wire
message the sender reads the discriminator between data and ack and the three ack fields of
the header. -/
structure ContestMessage where
  is_ack : Bool
  ack_sequence_number : Nat
  ack_send_timestamp : Nat
  ack_recv_timestamp : Nat
  deriving DecidableEq

/-- Accounting state of the sender. The socket and the forwarded controller, whose state
the sender never reads back, are left out. The two `int` members are integers: signed
overflow, which `direction_` would need more than `2 ^ 31` epochs to reach, is not
modelled. -/
structure DatagrumpSender where
  sequence_number_ : Nat
  next_ack_expected_ : Nat
  cur_window_size_ : XFloat
  dq_ : ℚ
  srtt_ : ℚ
  rtt_standing_ : Nat
  tau_start_ : Nat
  rtt_min_ : Nat
  epsilon : ℚ
  v : ℚ
  last_sent_timestamp_ : Nat
  direction_ : Int
  packet_count_ : Nat
  old_window_size_ : Nat
  slow_start : Int
  deriving DecidableEq

/-- State set up by the constructor. -/
def DatagrumpSender.init : DatagrumpSender :=
  { sequence_number_ := 0, next_ack_expected_ := 0, cur_window_size_ := .fin 10, dq_ := 0,
    srtt_ := 130, rtt_standing_ := 10000, tau_start_ := 0, rtt_min_ := 10000,
    epsilon := 1 / 2, v := 1, last_sent_timestamp_ := 0, direction_ := 0, packet_count_ := 0,
    old_window_size_ := 10, slow_start := 0 }

/-- The one way in which `got_ack` does not return a state: the `runtime_error` it throws on
a message that is not an ack. -/
inductive Fault where
  | runtime_error
  deriving DecidableEq

/-- Standing-RTT interval update: the new `rtt_standing_` and `tau_start_`. -/
def standing_update (s : DatagrumpSender) (timestamp cur_rtt : Nat) : Nat × Nat :=
  if ((sub64 timestamp s.tau_start_ : Nat) : ℚ) ≥ s.srtt_ / 2 then (cur_rtt, timestamp)
  else if cur_rtt < s.rtt_standing_ then (cur_rtt, s.tau_start_)
  else (s.rtt_standing_, s.tau_start_)

/-- Target rate `1 / (epsilon * dq_)`. -/
def lambda_T (epsilon dq : ℚ) : XFloat :=
  XFloat.div (.fin 1) (XFloat.mul (.fin epsilon) (.fin dq))

/-- Current rate `cur_window_size_ / rtt_standing_`. -/
def lambda (w : XFloat) (rtt_standing : Nat) : XFloat :=
  XFloat.div w (.fin (rtt_standing : ℚ))

/-- The term `v / (epsilon * cur_window_size_)`. -/
def window_delta (w : XFloat) (v epsilon : ℚ) : XFloat :=
  XFloat.div (.fin v) (XFloat.mul (.fin epsilon) w)

/-- Per-ack window rule; `below` is the outcome of `lambda <= lambda_T`. -/
def window_step (w : XFloat) (v epsilon : ℚ) (below : Bool) : XFloat :=
  if below then XFloat.add w (window_delta w v epsilon)
  else if XFloat.lt (.fin 5) w then XFloat.sub w (window_delta w v epsilon)
  else w

/-- Slow-start part of the epoch block: the new window and `slow_start`. -/
def slow_start_update (w : XFloat) (slow_start : Int) (below : Bool) : XFloat × Int :=
  if slow_start = 0 then
    if below then (XFloat.mul w (.fin 2), slow_start) else (w, 1)
  else (w, slow_start)

/-- Direction and velocity part of the epoch block: the new `direction_` and `v`; `grew` is
the outcome of `cur_window_size_ > old_window_size_`. -/
def direction_update (grew : Bool) (direction_ : Int) (v : ℚ) : Int × ℚ :=
  if grew then
    if direction_ > 0 then (direction_ + 1, if direction_ ≥ 3 then v * 2 else v)
    else (1, 1)
  else
    if direction_ < 0 then (direction_ - 1, if direction_ ≤ -3 then v * 2 else v)
    else (-1, 1)

/-- An ack was received at time `timestamp`. -/
def got_ack (s : DatagrumpSender) (timestamp : Nat) (ack : ContestMessage) :
    Except Fault DatagrumpSender :=
  if ack.is_ack = false then .error .runtime_error else
  let next_ack_expected_ := max s.next_ack_expected_ (add64 ack.ack_sequence_number 1)
  let cur_rtt := sub64 timestamp ack.ack_send_timestamp
  let st := standing_update s timestamp cur_rtt
  let rtt_standing_ := st.1
  let tau_start_ := st.2
  let rtt_min_ := if cur_rtt < s.rtt_min_ then cur_rtt else s.rtt_min_
  let srtt_ := 4 / 5 * s.srtt_ + 1 / 5 * (cur_rtt : ℚ)
  let dq_ : ℚ := ((sub64 rtt_standing_ rtt_min_ : Nat) : ℚ)
  let below := XFloat.le (lambda s.cur_window_size_ rtt_standing_) (lambda_T s.epsilon dq_)
  let w1 := window_step s.cur_window_size_ s.v s.epsilon below
  let packet_count_ := add64 s.packet_count_ 1
  if XFloat.le w1 (.fin (packet_count_ : ℚ)) then
    let ss := slow_start_update w1 s.slow_start below
    let w2 := ss.1
    let dv := direction_update (XFloat.lt (.fin (s.old_window_size_ : ℚ)) w2) s.direction_ s.v
    .ok { s with next_ack_expected_ := next_ack_expected_, cur_window_size_ := w2,
                 dq_ := dq_, srtt_ := srtt_, rtt_standing_ := rtt_standing_,
                 tau_start_ := tau_start_, rtt_min_ := rtt_min_, v := dv.2,
                 direction_ := dv.1, packet_count_ := 0,
                 old_window_size_ := XFloat.toUInt64 w2, slow_start := ss.2 }
  else
    .ok { s with next_ack_expected_ := next_ack_expected_, cur_window_size_ := w1,
                 dq_ := dq_, srtt_ := srtt_, rtt_standing_ := rtt_standing_,
                 tau_start_ := tau_start_, rtt_min_ := rtt_min_,
                 packet_count_ := packet_count_ }

/-- A datagram is sent and stamped `send_timestamp`; the pacing sleep before it changes no
state. -/
def send_datagram (s : DatagrumpSender) (send_timestamp : Nat) (_after_timeout : Bool) :
    DatagrumpSender :=
  { s with sequence_number_ := add64 s.sequence_number_ 1,
           last_sent_timestamp_ := send_timestamp }

/-- The two things that happen to the sender. -/
inductive Event where
  | ack (timestamp : Nat) (msg : ContestMessage)
  | send (send_timestamp : Nat) (after_timeout : Bool)
  deriving DecidableEq

/-- Effect of one event. -/
def step (s : DatagrumpSender) : Event → Except Fault DatagrumpSender
  | .ack t m => got_ack s t m
  | .send t b => .ok (send_datagram s t b)

/-- Effect of a finite sequence of events, oldest first; stops when `got_ack` throws. -/
def run : DatagrumpSender → List Event → Except Fault DatagrumpSender
  | s, [] => .ok s
  | s, e :: es =>
    match step s e with
    | .ok s1 => run s1 es
    | .error f => .error f

/-- The `rtt_standing_` that `got_ack` computes for this ack. -/
def ack_standing (s : DatagrumpSender) (timestamp : Nat) (ack : ContestMessage) : Nat :=
  (standing_update s timestamp (sub64 timestamp ack.ack_send_timestamp)).1

/-- The `rtt_min_` that `got_ack` computes for this ack. -/
def ack_rtt_min (s : DatagrumpSender) (timestamp : Nat) (ack : ContestMessage) : Nat :=
  if sub64 timestamp ack.ack_send_timestamp < s.rtt_min_ then
    sub64 timestamp ack.ack_send_timestamp
  else s.rtt_min_

/-- The `dq_` that `got_ack` computes for this ack. -/
def ack_dq (s : DatagrumpSender) (timestamp : Nat) (ack : ContestMessage) : ℚ :=
  ((sub64 (ack_standing s timestamp ack) (ack_rtt_min s timestamp ack) : Nat) : ℚ)

/-- Outcome of `lambda <= lambda_T` on this ack. -/
def ack_below (s : DatagrumpSender) (timestamp : Nat) (ack : ContestMessage) : Bool :=
  XFloat.le (lambda s.cur_window_size_ (ack_standing s timestamp ack))
    (lambda_T s.epsilon (ack_dq s timestamp ack))

/-- Window after the per-ack rule on this ack. -/
def ack_window (s : DatagrumpSender) (timestamp : Nat) (ack : ContestMessage) : XFloat :=
  window_step s.cur_window_size_ s.v s.epsilon (ack_below s timestamp ack)

/-- Whether this ack ends an epoch: `packet_count_ >= cur_window_size_` after the per-ack
rule. -/
def epoch_fires (s : DatagrumpSender) (timestamp : Nat) (ack : ContestMessage) : Bool :=
  XFloat.le (ack_window s timestamp ack) (.fin ((add64 s.packet_count_ 1 : Nat) : ℚ))

/-- Window that the epoch block compares with `old_window_size_`: the per-ack window after
the slow-start doubling, if any. -/
def epoch_window (s : DatagrumpSender) (timestamp : Nat) (ack : ContestMessage) : XFloat :=
  (slow_start_update (ack_window s timestamp ack) s.slow_start (ack_below s timestamp ack)).1

/-- Outcome of `cur_window_size_ > old_window_size_` in the epoch block of this ack. -/
def epoch_grew (s : DatagrumpSender) (timestamp : Nat) (ack : ContestMessage) : Bool :=
  XFloat.lt (.fin (s.old_window_size_ : ℚ)) (epoch_window s timestamp ack)

/-- The `tau_start_` that `got_ack` computes for this ack. -/
def ack_tau (s : DatagrumpSender) (timestamp : Nat) (ack : ContestMessage) : Nat :=
  (standing_update s timestamp (sub64 timestamp ack.ack_send_timestamp)).2

/-- The `srtt_` that `got_ack` computes for this ack. -/
def ack_srtt (s : DatagrumpSender) (timestamp : Nat) (ack : ContestMessage) : ℚ :=
  4 / 5 * s.srtt_ + 1 / 5 * ((sub64 timestamp ack.ack_send_timestamp : Nat) : ℚ)

/-! ### Bracketing the window along a run

The exact window of a run has a numerator that squares at every ack. To follow a run of
some length the window is bracketed between two fixed-point bounds; every comparison
that `got_ack` makes is settled by the bracket or the bracketing stops. -/

/-- Fixed-point scale of the window bounds. -/
def SCALE : Int := 1000000

/-- Direction and velocity update on a velocity that is a natural number. -/
def direction_update_nat (grew : Bool) (direction_ : Int) (v : Nat) : Int × Nat :=
  if grew then
    if direction_ > 0 then (direction_ + 1, if direction_ ≥ 3 then v * 2 else v)
    else (1, 1)
  else
    if direction_ < 0 then (direction_ - 1, if direction_ ≤ -3 then v * 2 else v)
    else (-1, 1)

/-- A set of sender states with `epsilon = 1/2`: the window, times `SCALE`, lies between
`lo` and `hi`, `srtt_` is at most `srtt_hi`, and the other members are as given. -/
structure Bracket where
  lo : Int
  hi : Int
  v : Nat
  srtt_hi : Nat
  rtt_standing_ : Nat
  tau_start_ : Nat
  rtt_min_ : Nat
  direction_ : Int
  packet_count_ : Nat
  old_window_size_ : Nat
  slow_start : Int
  deriving DecidableEq

/-- The states that a bracket stands for. -/
def Bracket.holds (b : Bracket) (s : DatagrumpSender) : Prop :=
  ∃ q : ℚ, s.cur_window_size_ = .fin q ∧ (b.lo : ℚ) ≤ q * (SCALE : ℚ) ∧
    q * (SCALE : ℚ) ≤ (b.hi : ℚ) ∧ s.v = (b.v : ℚ) ∧ s.epsilon = 1 / 2 ∧
    s.srtt_ ≤ (b.srtt_hi : ℚ) ∧ s.rtt_standing_ = b.rtt_standing_ ∧
    s.tau_start_ = b.tau_start_ ∧ s.rtt_min_ = b.rtt_min_ ∧ s.direction_ = b.direction_ ∧
    s.packet_count_ = b.packet_count_ ∧ s.old_window_size_ = b.old_window_size_ ∧
    s.slow_start = b.slow_start

/-- The bracket of the constructor state. -/
def Bracket.init : Bracket :=
  { lo := 10 * SCALE, hi := 10 * SCALE, v := 1, srtt_hi := 130, rtt_standing_ := 10000,
    tau_start_ := 0, rtt_min_ := 10000, direction_ := 0, packet_count_ := 0,
    old_window_size_ := 10, slow_start := 0 }

/-- Outcome of `lambda <= lambda_T` when the bracket settles it. -/
def Bracket.below (b : Bracket) (rtt_standing dq : Nat) : Option Bool :=
  if dq = 0 then some true
  else if b.hi * (dq : Int) ≤ 2 * (rtt_standing : Int) * SCALE then some true
  else if 2 * (rtt_standing : Int) * SCALE < b.lo * (dq : Int) then some false
  else none

/-- Bounds of the window after the per-ack rule when the bracket settles `> 5`. -/
def Bracket.window (b : Bracket) (below : Bool) : Option (Int × Int) :=
  if below then
    some (b.lo + 2 * (b.v : Int) * SCALE * SCALE / b.hi,
      b.hi + 2 * (b.v : Int) * SCALE * SCALE / b.lo + 1)
  else if 5 * SCALE < b.lo then
    some (b.lo - (2 * (b.v : Int) * SCALE * SCALE / b.lo + 1),
      b.hi - 2 * (b.v : Int) * SCALE * SCALE / b.hi)
  else if b.hi ≤ 5 * SCALE then some (b.lo, b.hi)
  else none

/-- Outcome of `packet_count_ >= cur_window_size_` when the bounds settle it. -/
def Bracket.epoch (lo hi : Int) (packet_count : Nat) : Option Bool :=
  if hi ≤ (packet_count : Int) * SCALE then some true
  else if (packet_count : Int) * SCALE < lo then some false
  else none

/-- Outcome of `cur_window_size_ > old_window_size_` when the bounds settle it. -/
def Bracket.grew (lo hi : Int) (old : Nat) : Option Bool :=
  if (old : Int) * SCALE < lo then some true
  else if hi ≤ (old : Int) * SCALE then some false
  else none

/-- The window truncated to `uint64_t` when the bounds settle it. -/
def Bracket.trunc (lo hi : Int) : Option Nat :=
  if 0 ≤ lo ∧ lo / SCALE = hi / SCALE ∧ hi / SCALE < (UINT64 : Int) then
    some (lo / SCALE).toNat
  else none

/-- Bracket after an ack that starts a new standing-RTT interval with a positive round
trip; `none` when the bracket does not settle a comparison of `got_ack`. -/
def Bracket.ack (b : Bracket) (timestamp : Nat) (m : ContestMessage) : Option Bracket :=
  let cur_rtt := sub64 timestamp m.ack_send_timestamp
  let rtt_min := if cur_rtt < b.rtt_min_ then cur_rtt else b.rtt_min_
  let packet_count := add64 b.packet_count_ 1
  if m.is_ack = true ∧ b.srtt_hi ≤ 2 * sub64 timestamp b.tau_start_ ∧ 0 < cur_rtt ∧
      0 < b.lo then
    match b.below cur_rtt (sub64 cur_rtt rtt_min) with
    | none => none
    | some below =>
      match b.window below with
      | none => none
      | some w1 =>
        match Bracket.epoch w1.1 w1.2 packet_count with
        | none => none
        | some false =>
          some { b with lo := w1.1, hi := w1.2, srtt_hi := max b.srtt_hi cur_rtt,
                        rtt_standing_ := cur_rtt, tau_start_ := timestamp,
                        rtt_min_ := rtt_min, packet_count_ := packet_count }
        | some true =>
          let w2 : Int × Int :=
            if b.slow_start = 0 ∧ below = true then (2 * w1.1, 2 * w1.2) else w1
          let slow_start : Int :=
            if b.slow_start = 0 ∧ below = false then 1 else b.slow_start
          match Bracket.grew w2.1 w2.2 b.old_window_size_, Bracket.trunc w2.1 w2.2 with
          | some grew, some old =>
            some { lo := w2.1, hi := w2.2,
                   v := (direction_update_nat grew b.direction_ b.v).2,
                   srtt_hi := max b.srtt_hi cur_rtt, rtt_standing_ := cur_rtt,
                   tau_start_ := timestamp, rtt_min_ := rtt_min,
                   direction_ := (direction_update_nat grew b.direction_ b.v).1,
                   packet_count_ := 0, old_window_size_ := old, slow_start := slow_start }
          | _, _ => none
  else none

/-- Bracket after a sequence of events; a send leaves the bracket as it is. -/
def Bracket.run : Bracket → List Event → Option Bracket
  | b, [] => some b
  | b, .ack t m :: es =>
    match b.ack t m with
    | some b1 => Bracket.run b1 es
    | none => none
  | b, .send _ _ :: es => Bracket.run b es

/-- The example run: 62 acks, 100 s apart. Acks 57 and 58 report the baseline round trip of
10 s, all others a round trip of 30 s. -/
def collapse_acks : List Event :=
  (List.range 62).map fun k =>
    Event.ack (100000 * (k + 1))
      { is_ack := true, ack_sequence_number := k,
        ack_send_timestamp := 100000 * (k + 1) - (if k = 56 ∨ k = 57 then 10000 else 30000),
        ack_recv_timestamp := 100000 * (k + 1) - 5000 }

/-- The shrink step of this ack overshoots: the rate is above the target, the window `q` is
above 5, and the window less the step `v / (epsilon * q)` is below 1. -/
def shrink_overshoots (s : DatagrumpSender) (timestamp : Nat) (ack : ContestMessage) : Prop :=
  ack_below s timestamp ack = false ∧
    ∃ q : ℚ, s.cur_window_size_ = .fin q ∧ 5 < q ∧ q - s.v / (s.epsilon * q) < 1

/-- No ack of the sequence, met in the state it is applied to, has a shrink step that
overshoots. -/
def never_overshoots : DatagrumpSender → List Event → Prop
  | _, [] => True
  | s, .send t b :: es => never_overshoots (send_datagram s t b) es
  | s, .ack t m :: es =>
    ¬ shrink_overshoots s t m ∧
      match got_ack s t m with
      | .ok s1 => never_overshoots s1 es
      | .error _ => True

/-- Invariant of the runs whose shrink steps do not overshoot: a finite window of at least
1, a nonnegative velocity and a positive `epsilon`. -/
def floor_inv (s : DatagrumpSender) : Prop :=
  (∃ q : ℚ, s.cur_window_size_ = .fin q ∧ 1 ≤ q) ∧ 0 ≤ s.v ∧ 0 < s.epsilon

end Copa


namespace MeanVar

/-- The event is an ack. -/
def Event.is_ack : Event → Bool
  | .sent _ _ _ => false
  | .ack _ _ _ _ => true

/-- Ten acks with a 10 ms round trip followed by one ack with a 120 ms round trip. -/
def gate_acks : List Event :=
  List.replicate 10 (Event.ack 0 1000 1005 1010) ++ [Event.ack 1 1000 1060 1120]

end MeanVar

namespace XFloat

/-- Conversion of a floating-point value to `useconds_t`, the 32-bit unsigned argument of
`usleep`: truncation toward zero; `none` for a value whose truncation is not representable,
which the argument of `usleep` in `send_datagram` never is (`Copa.pacing_total`). -/
def toUSeconds : XFloat → Option Nat
  | fin q => if -1 < q ∧ q < (4294967296 : ℚ) then some (Int.toNat ⌊q⌋) else none
  | _ => none

/-- Nearest integer, ties to the even one. -/
def roundEven (x : ℚ) : ℤ :=
  if 2 * (x - ⌊x⌋) < 1 then ⌊x⌋
  else if 1 < 2 * (x - ⌊x⌋) then ⌊x⌋ + 1
  else if ⌊x⌋ % 2 = 0 then ⌊x⌋ else ⌊x⌋ + 1

/-- Binary exponent of the single-precision binade of `q`: the `e` with
`2^e <= |q| < 2^(e+1)`, and -126 in the subnormal range. For 0, which every spacing
represents, the exponent does not matter. -/
def expo (q : ℚ) : ℤ := max (Int.log 2 |q|) (-126)

/-- The multiple of the spacing `2^(expo q - 23)` of single-precision values nearest to
`q`, ties to even. -/
def nearest32 (q : ℚ) : ℚ := (roundEven (q / 2 ^ (expo q - 23)) : ℚ) * 2 ^ (expo q - 23)

/-- Rounding of the exact result of an operation to single precision (IEEE binary32, round
to nearest, ties to even, gradual underflow; a result of magnitude `2^128` or more is an
infinity). -/
def round32 : XFloat → XFloat
  | fin q =>
    if (2 : ℚ) ^ 128 ≤ |nearest32 q| then (if 0 < q then pinf else ninf)
    else fin (nearest32 q)
  | x => x

end XFloat

namespace Copa

/-- The target gap `2 * cur_window_size_ / rtt_standing_` of `send_datagram`, a `float`:
the product, the conversion of `rtt_standing_` and the quotient are each rounded to single
precision. -/
def pace (s : DatagrumpSender) : XFloat :=
  XFloat.round32 (XFloat.div (XFloat.round32 (XFloat.mul (.fin 2) s.cur_window_size_))
    (XFloat.round32 (.fin (s.rtt_standing_ : ℚ))))

/-- The elapsed time `cur_pace` of `send_datagram` when the clock reads `cur_timestamp`,
converted to `float` as the comparison with `pace` and the subtraction from it do. -/
def cur_pace (s : DatagrumpSender) (cur_timestamp : Nat) : XFloat :=
  XFloat.round32 (.fin ((sub64 cur_timestamp s.last_sent_timestamp_ : Nat) : ℚ))

/-- The pacing sleep of `send_datagram` when the clock reads `cur_timestamp`: the number
of microseconds passed to `usleep`, and 0 when `usleep` is not called. The difference
`pace - cur_pace` and its product with 1000 are rounded to single precision; the product is
below a million, so its conversion is always `some` value (`pacing_total`). -/
def pacing_usec (s : DatagrumpSender) (cur_timestamp : Nat) : Option Nat :=
  let gap : XFloat := XFloat.round32 (XFloat.sub (pace s) (cur_pace s cur_timestamp))
  if XFloat.lt (cur_pace s cur_timestamp) (pace s) = true ∧
      XFloat.lt gap (.fin 1000) = true then
    XFloat.toUSeconds (XFloat.round32 (XFloat.mul gap (.fin 1000)))
  else some 0

/-- The state of the pacing example of the spec: window 20, standing RTT 100 ms. -/
def fast_link : DatagrumpSender :=
  { DatagrumpSender.init with cur_window_size_ := .fin 20, rtt_standing_ := 100 }

/-- The state of the slow-link scenario: window 2, standing RTT 1000 ms, previous send at
time 5000. -/
def slow_link : DatagrumpSender :=
  { DatagrumpSender.init with cur_window_size_ := .fin 2, rtt_standing_ := 1000,
                              last_sent_timestamp_ := 5000 }

/-- A state whose target gap is below a microsecond: window 1, standing RTT 4096 ms. -/
def short_gap : DatagrumpSender :=
  { DatagrumpSender.init with cur_window_size_ := .fin 1, rtt_standing_ := 4096 }

/-- A state whose target gap is not a single-precision value: window 7, standing RTT
10 ms. -/
def rounded_gap : DatagrumpSender :=
  { DatagrumpSender.init with cur_window_size_ := .fin 7, rtt_standing_ := 10 }

/-- The whole of `got_ack`: the accounting of the sender, then the call that forwards the
ack to the controller. The result is the sender and the controller as the call leaves them,
and the error if it throws. The controller linked into the sender is not fixed by the
sources, so its state type `C` and its `ack_received` are parameters. The `throw` is the
first statement, before every assignment and before the forwarding call, so a call that
throws leaves both as they were. -/
def got_ack_forward {C : Type} (ack_received : C → Nat → Nat → Nat → Nat → C)
    (s : DatagrumpSender) (c : C) (timestamp : Nat) (ack : ContestMessage) :
    (DatagrumpSender × C) × Option Fault :=
  match got_ack s timestamp ack with
  | .ok s1 =>
    ((s1, ack_received c ack.ack_sequence_number ack.ack_send_timestamp
      ack.ack_recv_timestamp timestamp), none)
  | .error f => ((s, c), some f)

/-- Whether every message of the sequence that reaches `got_ack` is an ack. -/
def all_acks : List Event → Bool
  | [] => true
  | .ack _ m :: es => m.is_ack && all_acks es
  | .send _ _ :: es => all_acks es

/-- Number of acks of the run that end an epoch. -/
def epochs : DatagrumpSender → List Event → Nat
  | _, [] => 0
  | s, .send t b :: es => epochs (send_datagram s t b) es
  | s, .ack t m :: es =>
    match got_ack s t m with
    | .ok s1 => (if epoch_fires s t m = true then 1 else 0) + epochs s1 es
    | .error _ => 0

/-- Every ack of the run that ends an epoch finds the window grown
(`cur_window_size_ > old_window_size_`). -/
def always_grows : DatagrumpSender → List Event → Prop
  | _, [] => True
  | s, .send t b :: es => always_grows (send_datagram s t b) es
  | s, .ack t m :: es =>
    (epoch_fires s t m = true → epoch_grew s t m = true) ∧
      match got_ack s t m with
      | .ok s1 => always_grows s1 es
      | .error _ => True

/-- The velocity after `k` growing epochs in a row from `direction_ = 0`, `v = 1`. -/
def velocity_after (k : Nat) : ℚ := if k ≤ 3 then 1 else 2 ^ (k - 3)

/-- Bracket after a run of acks and the number of epochs in it, when the bracket shows that
every epoch of the run found the window grown: an ack either adds one to `packet_count_`,
or resets it and moves `direction_` the way a growing epoch does. -/
def Bracket.run_growing : Bracket → List Event → Option (Bracket × Nat)
  | b, [] => some (b, 0)
  | b, .ack t m :: es =>
    match b.ack t m with
    | none => none
    | some b1 =>
      if b.packet_count_ + 1 < UINT64 then
        if b1.packet_count_ = b.packet_count_ + 1 then Bracket.run_growing b1 es
        else if b1.packet_count_ = 0 ∧
            b1.direction_ = (if 0 < b.direction_ then b.direction_ + 1 else 1) then
          match Bracket.run_growing b1 es with
          | some (b2, k) => some (b2, k + 1)
          | none => none
        else none
      else none
  | _, .send _ _ :: _ => none

/-- A run of 210 acks, 100 s apart, each reporting the baseline round trip of 10 s: the
queuing delay is 0 throughout, so every ack grows the window. -/
def growth_acks : List Event :=
  (List.range 210).map fun k =>
    Event.ack (100000 * (k + 1))
      { is_ack := true, ack_sequence_number := k,
        ack_send_timestamp := 100000 * (k + 1) - 10000,
        ack_recv_timestamp := 100000 * (k + 1) - 5000 }

/-- Whether the bracket shows that this ack, after slow start, ends an epoch with a window
above -2 and at most -1, which is outside the range of `old_window_size_`. -/
def Bracket.ack_negative (b : Bracket) (timestamp : Nat) (m : ContestMessage) : Bool :=
  let cur_rtt := sub64 timestamp m.ack_send_timestamp
  let rtt_min := if cur_rtt < b.rtt_min_ then cur_rtt else b.rtt_min_
  let packet_count := add64 b.packet_count_ 1
  if m.is_ack = true ∧ b.srtt_hi ≤ 2 * sub64 timestamp b.tau_start_ ∧ 0 < cur_rtt ∧
      0 < b.lo ∧ b.slow_start ≠ 0 then
    match b.below cur_rtt (sub64 cur_rtt rtt_min) with
    | none => false
    | some below =>
      match b.window below with
      | none => false
      | some w1 =>
        decide (Bracket.epoch w1.1 w1.2 packet_count = some true ∧ w1.2 ≤ -SCALE ∧
          -(2 * SCALE) < w1.1)
  else false

/-- Whether the bracket shows that this ack leaves the window as it is: the rate is above
the target and the window is at most 5. -/
def Bracket.stuck (b : Bracket) (timestamp : Nat) (m : ContestMessage) : Bool :=
  let cur_rtt := sub64 timestamp m.ack_send_timestamp
  let rtt_min := if cur_rtt < b.rtt_min_ then cur_rtt else b.rtt_min_
  decide (b.hi ≤ 5 * SCALE ∧ b.below cur_rtt (sub64 cur_rtt rtt_min) = some false)

/-- Bracket after a sequence of acks each of which leaves the window as it is. -/
def Bracket.run_stuck : Bracket → List Event → Option Bracket
  | b, [] => some b
  | b, .ack t m :: es =>
    if b.stuck t m = true then
      match b.ack t m with
      | some b1 => Bracket.run_stuck b1 es
      | none => none
    else none
  | _, .send _ _ :: _ => none

/-- A run of 60 acks, 100 s apart: ack 57 reports the baseline round trip of 10 s, all
others a round trip of 30 s. -/
def negative_acks : List Event :=
  (List.range 60).map fun k =>
    Event.ack (100000 * (k + 1))
      { is_ack := true, ack_sequence_number := k,
        ack_send_timestamp := 100000 * (k + 1) - (if k = 56 then 10000 else 30000),
        ack_recv_timestamp := 100000 * (k + 1) - 5000 }

/-- Invariant of the RTT signals: the all-time minimum is at most the standing RTT, the
standing RTT is a `uint64_t` value, and `dq_` is their difference. -/
def rtt_inv (s : DatagrumpSender) : Prop :=
  s.rtt_min_ ≤ s.rtt_standing_ ∧ s.rtt_standing_ < UINT64 ∧
    s.dq_ = ((s.rtt_standing_ - s.rtt_min_ : Nat) : ℚ)

end Copa
/-! # Proofs -/

/-! ## MeanVariance strategy: proofs -/

namespace MeanVar

theorem run_nil (c : Controller) : run c [] = c := rfl

theorem run_cons (c : Controller) (e : Event) (es : List Event) :
    run c (e :: es) = run (step c e) es := rfl

/-- One event keeps a positive window positive unless it collapses it. -/
theorem step_window_pos (c : Controller) (e : Event) (hw : 1 ≤ c.cur_window_size)
    (hsafe : ¬ collapses c e) : 1 ≤ (step c e).cur_window_size := by
  cases e with
  | sent n t b =>
    cases b with
    | false => simpa [step, datagram_was_sent] using hw
    | true =>
      have h3 : 3 ≤ c.cur_window_size := by
        by_contra h
        exact hsafe ⟨rfl, by omega⟩
      simp only [step, datagram_was_sent, if_true]
      omega
  | ack n s r t =>
    simp only [collapses, not_and, not_lt] at hsafe
    simp only [step, ack_received]
    split_ifs with h1 h2 h3
    · have := hsafe h1 h2
      show 1 ≤ c.cur_window_size * 2 / 3
      omega
    · show 1 ≤ c.cur_window_size + 1
      omega
    · exact hw
    · exact hw

theorem run_window_pos (es : List Event) : ∀ c : Controller, 1 ≤ c.cur_window_size →
    never_collapses c es → 1 ≤ (run c es).cur_window_size := by
  induction es with
  | nil => intro c hw _; simpa [run_nil] using hw
  | cons e es ih =>
    intro c hw hs
    rw [run_cons]
    exact ih (step c e) (step_window_pos c e hw hs.1) hs.2

/-- Claim C1 as stated fails: three timeout-triggered sends take the window of the
MeanVariance strategy from 10 through 3 and 1 to 0. -/
theorem c1_window_reaches_zero :
    ¬ 1 ≤ window_size (run Controller.init
      [Event.sent 0 1000 true, Event.sent 1 1250 true, Event.sent 2 1500 true]) := by
  decide

/-- Claim C1, amended: from the constructor state of the MeanVariance strategy, after every
finite sequence of sends and acks none of which collapses the window (no timeout-triggered
send at a window below 3, no epoch shrink at a window below 2), `window_size` is at least 1. -/
theorem c1_window_floor (es : List Event) (hsafe : never_collapses Controller.init es) :
    1 ≤ window_size (run Controller.init es) :=
  run_window_pos es Controller.init (by decide) hsafe

theorem c1_window_floor_witness :
    never_collapses Controller.init
        [Event.sent 0 1000 true, Event.ack 0 1000 1040 1200, Event.sent 1 1250 false] ∧
      1 ≤ window_size (run Controller.init
        [Event.sent 0 1000 true, Event.ack 0 1000 1040 1200, Event.sent 1 1250 false]) :=
  ⟨by simp [never_collapses, collapses, step, datagram_was_sent, ack_received,
      Controller.init], 
   c1_window_floor _ (by simp [never_collapses, collapses, step, datagram_was_sent,
      ack_received, Controller.init])⟩

/-- Effect of an ack on the running statistics. -/
theorem stats_ack (c : Controller) (n s r t : Nat) :
    (ack_received c n s r t).num_acks = c.num_acks + 1 ∧
    (ack_received c n s r t).rtt_mean =
      c.rtt_mean + (((sub64 t s : Nat) : ℚ) - c.rtt_mean) / ((c.num_acks + 1 : Nat) : ℚ) ∧
    (ack_received c n s r t).rtt_std_dev =
      c.rtt_std_dev + (((sub64 t s : Nat) : ℚ) -
        (c.rtt_mean + (((sub64 t s : Nat) : ℚ) - c.rtt_mean) / ((c.num_acks + 1 : Nat) : ℚ))) *
        (((sub64 t s : Nat) : ℚ) - c.rtt_mean) := by
  simp only [ack_received]
  split_ifs <;> exact ⟨rfl, rfl, rfl⟩

theorem stats_sent (c : Controller) (n t : Nat) (b : Bool) :
    (datagram_was_sent c n t b).num_acks = c.num_acks ∧
    (datagram_was_sent c n t b).rtt_mean = c.rtt_mean ∧
    (datagram_was_sent c n t b).rtt_std_dev = c.rtt_std_dev := by
  cases b <;> simp [datagram_was_sent]

/-- Sum of squared deviations from any centre, expanded. -/
theorem sum_sq_dev_expand (a : ℚ) (xs : List ℚ) :
    (xs.map (fun x => (x - a) ^ 2)).sum =
      (xs.map (fun x => x ^ 2)).sum - 2 * a * xs.sum + (xs.length : ℚ) * a ^ 2 := by
  induction xs with
  | nil => simp
  | cons x xs ih =>
    simp only [List.map_cons, List.sum_cons, List.length_cons, Nat.cast_add, Nat.cast_one, ih]
    ring

theorem welford_step (c : Controller) (xs : List ℚ) (e : Event) (h : welford_inv c xs) :
    welford_inv (step c e) (xs ++ (Event.sample e).toList) := by
  obtain ⟨h1, h2, h3⟩ := h
  cases e with
  | sent n t b =>
    obtain ⟨k1, k2, k3⟩ := stats_sent c n t b
    simp only [step, Event.sample, Option.toList, List.append_nil, welford_inv, k1, k2, k3]
    exact ⟨h1, h2, h3⟩
  | ack n s r t =>
    obtain ⟨k1, k2, k3⟩ := stats_ack c n s r t
    have hn : ((c.num_acks + 1 : Nat) : ℚ) ≠ 0 := by positivity
    have hm : ((c.num_acks + 1 : Nat) : ℚ) *
        (c.rtt_mean + (((sub64 t s : Nat) : ℚ) - c.rtt_mean) / ((c.num_acks + 1 : Nat) : ℚ)) =
        (c.num_acks : ℚ) * c.rtt_mean + ((sub64 t s : Nat) : ℚ) := by
      field_simp
      ring
    simp only [step, Event.sample, Option.toList, welford_inv, k1, k2, k3, List.length_append,
      List.length_singleton, List.sum_append, List.map_append, List.map_cons, List.map_nil,
      List.sum_cons, List.sum_nil, add_zero]
    refine ⟨by rw [h1], by rw [hm, h2], ?_⟩
    rw [h3]
    generalize c.rtt_mean + (((sub64 t s : Nat) : ℚ) - c.rtt_mean) /
      ((c.num_acks + 1 : Nat) : ℚ) = m1 at hm ⊢
    push_cast at hm ⊢
    linear_combination (c.rtt_mean + m1) * hm

theorem welford_run (es : List Event) : ∀ (c : Controller) (xs : List ℚ), welford_inv c xs →
    welford_inv (run c es) (xs ++ samples es) := by
  induction es with
  | nil => intro c xs h; simpa [run_nil, samples] using h
  | cons e es ih =>
    intro c xs h
    have := ih (step c e) _ (welford_step c xs e h)
    rw [run_cons]
    cases hs : Event.sample e with
    | none => simpa [samples, List.filterMap_cons, hs] using this
    | some x => simpa [samples, List.filterMap_cons, hs] using this

/-- Claim C4: after any sequence of calls from the constructor state that delivers at least
one RTT sample, whatever sends are interleaved, `num_acks` is the number of samples,
`rtt_mean` is their arithmetic mean and `rtt_std_dev` is the two-pass sum of squared
deviations from that mean (arithmetic taken exactly). -/
theorem c4_running_statistics (es : List Event) (hne : samples es ≠ []) :
    (run Controller.init es).num_acks = (samples es).length ∧
    (run Controller.init es).rtt_mean = mean (samples es) ∧
    (run Controller.init es).rtt_std_dev = sq_dev (samples es) := by
  have h0 : welford_inv Controller.init [] := by simp [welford_inv, Controller.init]
  obtain ⟨h1, h2, h3⟩ := by simpa using welford_run es Controller.init [] h0
  have hlen : ((samples es).length : ℚ) ≠ 0 := by
    have : (samples es).length ≠ 0 := by simpa [List.length_eq_zero] using hne
    exact_mod_cast this
  have hmean : (run Controller.init es).rtt_mean = mean (samples es) := by
    rw [mean, eq_div_iff hlen, ← h2, h1]; ring
  refine ⟨h1, hmean, ?_⟩
  rw [h3, sq_dev, sum_sq_dev_expand, ← hmean, ← h2, h1]
  ring

theorem c4_running_statistics_witness :
    samples [Event.ack 0 1000 1040 1100, Event.sent 1 1110 false, Event.ack 1 1110 1150 1310]
        ≠ [] ∧
      (run Controller.init
        [Event.ack 0 1000 1040 1100, Event.sent 1 1110 false, Event.ack 1 1110 1150 1310]).rtt_mean
        = mean (samples
        [Event.ack 0 1000 1040 1100, Event.sent 1 1110 false, Event.ack 1 1110 1150 1310]) :=
  ⟨by decide, (c4_running_statistics _ (by decide)).2.1⟩

/-- Claim C5: a timeout-triggered send replaces the window by its third, rounded down, and
changes nothing else; any other send leaves the state as it is; from the constructor state
one timeout-triggered send gives window 3. -/
theorem c5_timeout_send (c : Controller) (n t : Nat) :
    datagram_was_sent c n t true =
        { cur_window_size := c.cur_window_size / 3, packet_counter := c.packet_counter,
          rtt_mean := c.rtt_mean, rtt_std_dev := c.rtt_std_dev, num_acks := c.num_acks } ∧
      datagram_was_sent c n t false = c ∧
      window_size (datagram_was_sent Controller.init n t true) = 3 := by
  refine ⟨rfl, rfl, rfl⟩

end MeanVar

/-! ## LossRate strategy: proofs -/

namespace LossRate

theorem loss_run_nil [DecidablePred exp_test] (c : Controller) : run c [] = c := rfl

theorem loss_run_cons [DecidablePred exp_test] (c : Controller) (e : Event) (es : List Event) :
    run c (e :: es) = run (step c e) es := rfl

/-- With at least one datagram sent the estimate is the finite value `100 * t / s`. -/
theorem lambda_fin (c : Controller) (hs : 1 ≤ c.num_datagrams_sent) :
    lambda c = .fin (100 * (c.timeouts : ℚ) / (c.num_datagrams_sent : ℚ)) := by
  have h : (c.num_datagrams_sent : ℚ) ≠ 0 := by
    have : c.num_datagrams_sent ≠ 0 := by omega
    exact_mod_cast this
  simp only [lambda, XFloat.div, h, if_false, XFloat.mul]
  congr 1
  ring

/-- Before any send the estimate is zero over zero, a NaN. -/
theorem lambda_nan (c : Controller) (hs : c.num_datagrams_sent = 0) (ht : c.timeouts = 0) :
    lambda c = .nan := by
  simp [lambda, XFloat.div, XFloat.mul, hs, ht]

/-- The exponential test fails at zero. -/
theorem exp_test_zero : ¬ exp_test (.fin 0) := by
  simp only [exp_test, Rat.cast_zero, neg_zero, Real.exp_zero, sub_self, gt_iff_lt, not_lt]
  norm_num

/-- The exponential test holds at 100, the estimate when every send was a timeout. -/
theorem exp_test_hundred : exp_test (.fin 100) := by
  simp only [exp_test, gt_iff_lt]
  have h1 : (100 : ℝ) + 1 ≤ Real.exp 100 := Real.add_one_le_exp 100
  have h2 : Real.exp (-(100 : ℝ)) ≤ 1 / 101 := by
    rw [Real.exp_neg, inv_eq_one_div]
    apply one_div_le_one_div_of_le (by norm_num)
    linarith
  have h3 : ((100 : ℚ) : ℝ) = 100 := by norm_num
  rw [h3]
  have : (1 : ℝ) / 101 < 99 / 100 := by norm_num
  linarith

/-- The state after a backoff: window halved, epoch counter reset. -/
theorem ack_backoff [DecidablePred exp_test] (c : Controller) (n s r t : Nat)
    (h : exp_test (lambda c)) : ack_received c n s r t =
      { c with cur_window_size := c.cur_window_size / 2, packet_counter := 0 } := by
  simp [ack_received, h]

/-- The state after an ack without backoff: the epoch rule. -/
theorem ack_epoch [DecidablePred exp_test] (c : Controller) (n s r t : Nat)
    (h : ¬ exp_test (lambda c)) : ack_received c n s r t =
      if c.packet_counter ≥ c.cur_window_size then
        { c with cur_window_size := c.cur_window_size + 1, packet_counter := 0 }
      else { c with packet_counter := c.packet_counter + 1 } := by
  simp [ack_received, h]

/-- The epoch rule never produces the halved state. -/
theorem epoch_ne_backoff (c : Controller) :
    (if c.packet_counter ≥ c.cur_window_size then
        ({ c with cur_window_size := c.cur_window_size + 1, packet_counter := 0 } : Controller)
      else { c with packet_counter := c.packet_counter + 1 }) ≠
      { c with cur_window_size := c.cur_window_size / 2, packet_counter := 0 } := by
  split_ifs with h
  · intro heq
    have := congrArg Controller.cur_window_size heq
    simp only at this
    omega
  · intro heq
    have := congrArg Controller.packet_counter heq
    simp at this

theorem loss_step_window_pos [DecidablePred exp_test] (c : Controller) (e : Event)
    (hw : 1 ≤ c.cur_window_size) (hsafe : ¬ collapses c e) :
    1 ≤ (step c e).cur_window_size := by
  cases e with
  | sent n t b => cases b <;> simpa [step, datagram_was_sent] using hw
  | ack n s r t =>
    simp only [collapses, not_and, not_lt] at hsafe
    by_cases h : exp_test (lambda c)
    · have := hsafe h
      simp only [step, ack_backoff c n s r t h]
      omega
    · simp only [step, ack_epoch c n s r t h]
      split_ifs
      · show 1 ≤ c.cur_window_size + 1
        omega
      · exact hw

theorem loss_run_window_pos [DecidablePred exp_test] (es : List Event) :
    ∀ c : Controller, 1 ≤ c.cur_window_size → never_collapses c es →
      1 ≤ (run c es).cur_window_size := by
  induction es with
  | nil => intro c hw _; simpa [loss_run_nil] using hw
  | cons e es ih =>
    intro c hw hs
    rw [loss_run_cons]
    exact ih (step c e) (loss_step_window_pos c e hw hs.1) hs.2

open Classical in
/-- Claim C2 as stated fails: after one timeout-triggered send the loss estimate is 100, every
ack backs off, and four acks take the window of the LossRate strategy from 10 through 5, 2
and 1 to 0. -/
theorem c2_window_reaches_zero :
    ¬ 1 ≤ window_size (run Controller.init
      [Event.sent 0 1000 true, Event.ack 0 1000 1040 1100, Event.ack 0 1000 1041 1101,
       Event.ack 0 1000 1042 1102, Event.ack 0 1000 1043 1103]) := by
  have hl : ∀ w p : Nat, lambda ⟨w, p, 1, 1⟩ = .fin 100 := by
    intro w p
    rw [lambda_fin _ (by simp)]
    norm_num
  have hb : ∀ (w p n s r t : Nat), ack_received ⟨w, p, 1, 1⟩ n s r t = ⟨w / 2, 0, 1, 1⟩ := by
    intro w p n s r t
    rw [ack_backoff _ _ _ _ _ (by rw [hl]; exact exp_test_hundred)]
  simp [run, step, datagram_was_sent, Controller.init, hb, window_size]

/-- Claim C2, amended: from the constructor state of the LossRate strategy, after every
finite sequence of sends and acks in which no ack backs off at a window below 2,
`window_size` is at least 1. -/
theorem c2_window_floor [DecidablePred exp_test] (es : List Event)
    (hsafe : never_collapses Controller.init es) :
    1 ≤ window_size (run Controller.init es) :=
  loss_run_window_pos es Controller.init (by decide) hsafe

open Classical in
theorem c2_window_floor_witness :
    never_collapses Controller.init [Event.ack 0 1000 1040 1100, Event.sent 1 1110 false] ∧
      1 ≤ window_size (run Controller.init
        [Event.ack 0 1000 1040 1100, Event.sent 1 1110 false]) := by
  have h0 : lambda Controller.init = .nan := lambda_nan _ rfl rfl
  have hs : never_collapses Controller.init
      [Event.ack 0 1000 1040 1100, Event.sent 1 1110 false] := by
    simp [never_collapses, collapses, h0, exp_test]
  exact ⟨hs, c2_window_floor _ hs⟩

/-- Claim C7: in a state where no send has been recorded (`num_datagrams_sent = 0`, hence
`timeouts = 0`) the loss estimate is zero over zero, the exponential test is false as it is
for an estimate of 0, and `ack_received`, a total function, does not halve the window but
applies the epoch rule. -/
theorem c7_no_send_no_backoff [DecidablePred exp_test] (c : Controller) (n s r t : Nat)
    (hs : c.num_datagrams_sent = 0) (ht : c.timeouts = 0) :
    lambda c = .nan ∧ ¬ exp_test (lambda c) ∧ ¬ exp_test (.fin 0) ∧
    ack_received c n s r t =
      (if c.packet_counter ≥ c.cur_window_size then
        { c with cur_window_size := c.cur_window_size + 1, packet_counter := 0 }
      else { c with packet_counter := c.packet_counter + 1 }) ∧
    ack_received c n s r t ≠
      { c with cur_window_size := c.cur_window_size / 2, packet_counter := 0 } := by
  have hl := lambda_nan c hs ht
  have hne : ¬ exp_test (lambda c) := by rw [hl]; exact id
  refine ⟨hl, hne, exp_test_zero, ack_epoch c n s r t hne, ?_⟩
  rw [ack_epoch c n s r t hne]
  exact epoch_ne_backoff c

open Classical in
theorem c7_no_send_no_backoff_witness :
    Controller.init.num_datagrams_sent = 0 ∧ Controller.init.timeouts = 0 ∧
      ack_received Controller.init 0 1000 1040 1100 = Controller.mk 10 1 0 0 := by
  refine ⟨rfl, rfl, ?_⟩
  rw [(c7_no_send_no_backoff Controller.init 0 1000 1040 1100 rfl rfl).2.2.2.1]
  decide

end LossRate

/-! ## Arithmetic on finite values -/

namespace XFloat

theorem add_fin (a b : ℚ) : add (fin a) (fin b) = fin (a + b) := rfl

theorem sub_fin (a b : ℚ) : sub (fin a) (fin b) = fin (a - b) := by
  simp [sub, neg, add, sub_eq_add_neg]

theorem mul_fin (a b : ℚ) : mul (fin a) (fin b) = fin (a * b) := rfl

theorem div_fin (a b : ℚ) (hb : b ≠ 0) : div (fin a) (fin b) = fin (a / b) := by
  simp [div, hb]

theorem div_fin_zero (a : ℚ) (ha : 0 < a) : div (fin a) (fin 0) = pinf := by
  simp [div, ha, ha.ne']

theorem le_fin (a b : ℚ) : le (fin a) (fin b) = decide (a ≤ b) := rfl

theorem lt_fin (a b : ℚ) : lt (fin a) (fin b) = decide (a < b) := rfl

theorem le_fin_pinf (a : ℚ) : le (fin a) pinf = true := rfl

end XFloat

namespace Copa

/-- The result of `got_ack` on an ack, in terms of the values it computes on the way. -/
theorem got_ack_eq (s : DatagrumpSender) (ts : Nat) (ack : ContestMessage)
    (hack : ack.is_ack = true) :
    got_ack s ts ack =
      if epoch_fires s ts ack = true then
        .ok { s with next_ack_expected_ :=
                       max s.next_ack_expected_ (add64 ack.ack_sequence_number 1),
                     cur_window_size_ := epoch_window s ts ack,
                     dq_ := ack_dq s ts ack, srtt_ := ack_srtt s ts ack,
                     rtt_standing_ := ack_standing s ts ack, tau_start_ := ack_tau s ts ack,
                     rtt_min_ := ack_rtt_min s ts ack,
                     v := (direction_update (epoch_grew s ts ack) s.direction_ s.v).2,
                     direction_ :=
                       (direction_update (epoch_grew s ts ack) s.direction_ s.v).1,
                     packet_count_ := 0,
                     old_window_size_ := XFloat.toUInt64 (epoch_window s ts ack),
                     slow_start := (slow_start_update (ack_window s ts ack) s.slow_start
                       (ack_below s ts ack)).2 }
      else
        .ok { s with next_ack_expected_ :=
                       max s.next_ack_expected_ (add64 ack.ack_sequence_number 1),
                     cur_window_size_ := ack_window s ts ack,
                     dq_ := ack_dq s ts ack, srtt_ := ack_srtt s ts ack,
                     rtt_standing_ := ack_standing s ts ack, tau_start_ := ack_tau s ts ack,
                     rtt_min_ := ack_rtt_min s ts ack,
                     packet_count_ := add64 s.packet_count_ 1 } := by
  simp only [got_ack, hack, Bool.true_eq_false, if_false]
  rfl

end Copa

/-! ## Copa sender: proofs -/

namespace Copa

/-- What `got_ack` returns on an ack that ends an epoch. -/
theorem got_ack_epoch (s : DatagrumpSender) (ts : Nat) (ack : ContestMessage)
    (hack : ack.is_ack = true) (hep : epoch_fires s ts ack = true) (s1 : DatagrumpSender)
    (h : got_ack s ts ack = .ok s1) :
    s1.cur_window_size_ = epoch_window s ts ack ∧
    s1.slow_start =
      (slow_start_update (ack_window s ts ack) s.slow_start (ack_below s ts ack)).2 ∧
    (s1.direction_, s1.v) = direction_update (epoch_grew s ts ack) s.direction_ s.v ∧
    s1.old_window_size_ = XFloat.toUInt64 (epoch_window s ts ack) ∧
    s1.packet_count_ = 0 := by
  have hep1 : XFloat.le (window_step s.cur_window_size_ s.v s.epsilon
      (XFloat.le (lambda s.cur_window_size_
        (standing_update s ts (sub64 ts ack.ack_send_timestamp)).1)
        (lambda_T s.epsilon ((sub64 (standing_update s ts (sub64 ts ack.ack_send_timestamp)).1
          (if sub64 ts ack.ack_send_timestamp < s.rtt_min_ then
            sub64 ts ack.ack_send_timestamp else s.rtt_min_) : Nat) : ℚ))))
      (.fin ((add64 s.packet_count_ 1 : Nat) : ℚ)) = true := hep
  simp only [got_ack, hack, Bool.true_eq_false, if_false, hep1, if_true,
    Except.ok.injEq] at h
  subst h
  exact ⟨rfl, rfl, rfl, rfl, rfl⟩

/-- What `got_ack` returns on an ack that does not end an epoch. -/
theorem got_ack_no_epoch (s : DatagrumpSender) (ts : Nat) (ack : ContestMessage)
    (hack : ack.is_ack = true) (hep : epoch_fires s ts ack = false) :
    ∃ s1, got_ack s ts ack = .ok s1 ∧
      s1.cur_window_size_ = ack_window s ts ack ∧ s1.slow_start = s.slow_start ∧
      s1.direction_ = s.direction_ ∧ s1.v = s.v ∧
      s1.old_window_size_ = s.old_window_size_ ∧
      s1.packet_count_ = add64 s.packet_count_ 1 := by
  have hep1 : XFloat.le (window_step s.cur_window_size_ s.v s.epsilon
      (XFloat.le (lambda s.cur_window_size_
        (standing_update s ts (sub64 ts ack.ack_send_timestamp)).1)
        (lambda_T s.epsilon ((sub64 (standing_update s ts (sub64 ts ack.ack_send_timestamp)).1
          (if sub64 ts ack.ack_send_timestamp < s.rtt_min_ then
            sub64 ts ack.ack_send_timestamp else s.rtt_min_) : Nat) : ℚ))))
      (.fin ((add64 s.packet_count_ 1 : Nat) : ℚ)) = false := hep
  simp only [got_ack, hack, Bool.true_eq_false, if_false, hep1]
  exact ⟨_, rfl, rfl, rfl, rfl, rfl, rfl, rfl⟩

/-- An ack message that is not an ack is a runtime error. -/
theorem got_ack_not_ack (s : DatagrumpSender) (ts : Nat) (ack : ContestMessage)
    (hack : ack.is_ack = false) : got_ack s ts ack = .error .runtime_error := by
  simp [got_ack, hack]

/-- A returned state comes from an ack. -/
theorem got_ack_ok_is_ack (s : DatagrumpSender) (ts : Nat) (ack : ContestMessage)
    (s1 : DatagrumpSender) (h : got_ack s ts ack = .ok s1) : ack.is_ack = true := by
  cases hack : ack.is_ack with
  | true => rfl
  | false => rw [got_ack_not_ack s ts ack hack] at h; exact absurd h (by simp)

/-- The new slow-start flag of an ack, in all cases. -/
theorem got_ack_slow_start (s : DatagrumpSender) (ts : Nat) (ack : ContestMessage)
    (s1 : DatagrumpSender) (h : got_ack s ts ack = .ok s1) :
    s1.slow_start =
      if epoch_fires s ts ack = true ∧ ack_below s ts ack = false ∧ s.slow_start = 0 then 1
      else s.slow_start := by
  have hack := got_ack_ok_is_ack s ts ack s1 h
  cases hep : epoch_fires s ts ack with
  | true =>
    obtain ⟨_, h2, _⟩ := got_ack_epoch s ts ack hack hep s1 h
    rw [h2]
    simp only [slow_start_update]
    by_cases hs : s.slow_start = 0 <;> cases hb : ack_below s ts ack <;> simp [hs]
  | false =>
    obtain ⟨s2, h2, _, h3, _⟩ := got_ack_no_epoch s ts ack hack hep
    rw [h] at h2
    simp only [Except.ok.injEq] at h2
    subst h2
    simp [h3]

/-- Once the flag is 1, every run that returns a state returns one whose flag is 1. -/
theorem slow_start_latch (es : List Event) : ∀ (s s1 : DatagrumpSender),
    s.slow_start = 1 → run s es = .ok s1 → s1.slow_start = 1 := by
  induction es with
  | nil =>
    intro s s1 hs h
    simp only [run, Except.ok.injEq] at h
    subst h
    exact hs
  | cons e es ih =>
    intro s s1 hs h
    simp only [run] at h
    split at h
    · rename_i s2 hstep
      refine ih s2 s1 ?_ h
      cases e with
      | ack t m =>
        simp only [step] at hstep
        rw [got_ack_slow_start s t m s2 hstep]
        simp [hs]
      | send t b =>
        simp only [step, Except.ok.injEq] at hstep
        subst hstep
        exact hs
    · exact absurd h (by simp)

/-- The first ack of the examples: in a state with the constructor's window, velocity and
RTT signals, an ack with a 30000 ms round trip puts the rate above the target, lowers the
window from 10 to 49/5 and does not end an epoch. -/
theorem first_ack_facts (s : DatagrumpSender) (hw : s.cur_window_size_ = .fin 10)
    (hv : s.v = 1) (heps : s.epsilon = 1 / 2) (hsrtt : s.srtt_ = 130)
    (htau : s.tau_start_ = 0) (hmin : s.rtt_min_ = 10000) (hpc : s.packet_count_ = 0) :
    ack_below s 100000 ⟨true, 0, 70000, 70020⟩ = false ∧
    ack_window s 100000 ⟨true, 0, 70000, 70020⟩ = .fin (49 / 5) ∧
    epoch_fires s 100000 ⟨true, 0, 70000, 70020⟩ = false := by
  have e1 : sub64 100000 70000 = 30000 := by decide
  have e2 : sub64 100000 0 = 100000 := by decide
  have e3 : sub64 30000 10000 = 20000 := by decide
  have e4 : add64 0 1 = 1 := by decide
  have hst : standing_update s 100000 30000 = (30000, 100000) := by
    have : ((100000 : Nat) : ℚ) ≥ (130 : ℚ) / 2 := by norm_num
    simp only [standing_update, htau, hsrtt, e2, this, if_true]
  have hstanding : ack_standing s 100000 ⟨true, 0, 70000, 70020⟩ = 30000 := by
    simp only [ack_standing, e1, hst]
  have hmin1 : ack_rtt_min s 100000 ⟨true, 0, 70000, 70020⟩ = 10000 := by
    simp only [ack_rtt_min, e1, hmin]
    decide
  have hdq : ack_dq s 100000 ⟨true, 0, 70000, 70020⟩ = 20000 := by
    simp only [ack_dq, hstanding, hmin1, e3]
    norm_num
  have hbelow : ack_below s 100000 ⟨true, 0, 70000, 70020⟩ = false := by
    unfold ack_below
    rw [hstanding, hdq, hw, heps]
    simp only [lambda, lambda_T, XFloat.mul_fin]
    rw [XFloat.div_fin _ _ (by norm_num), XFloat.div_fin _ _ (by norm_num), XFloat.le_fin]
    apply decide_eq_false
    norm_num
  have hwindow : ack_window s 100000 ⟨true, 0, 70000, 70020⟩ = .fin (49 / 5) := by
    unfold ack_window
    rw [hbelow, hw, hv, heps]
    simp only [window_step, window_delta, XFloat.mul_fin, Bool.false_eq_true, if_false,
      XFloat.lt_fin]
    rw [XFloat.div_fin _ _ (by norm_num)]
    norm_num [XFloat.sub_fin]
  refine ⟨hbelow, hwindow, ?_⟩
  unfold epoch_fires
  rw [hwindow, hpc]
  simp only [XFloat.le_fin, e4]
  apply decide_eq_false
  norm_num

/-- Direction and velocity after an ack, in all cases. -/
theorem got_ack_direction (s : DatagrumpSender) (ts : Nat) (ack : ContestMessage)
    (s1 : DatagrumpSender) (h : got_ack s ts ack = .ok s1) :
    (s1.direction_, s1.v) =
      if epoch_fires s ts ack = true then
        direction_update (epoch_grew s ts ack) s.direction_ s.v
      else (s.direction_, s.v) := by
  have hack := got_ack_ok_is_ack s ts ack s1 h
  cases hep : epoch_fires s ts ack with
  | true =>
    obtain ⟨_, _, h3, _⟩ := got_ack_epoch s ts ack hack hep s1 h
    simpa using h3
  | false =>
    obtain ⟨s2, h2, _, _, h4, h5, _⟩ := got_ack_no_epoch s ts ack hack hep
    rw [h] at h2
    simp only [Except.ok.injEq] at h2
    subst h2
    simp [h4, h5]

/-- Window after an ack from a state whose slow start is over: the per-ack rule alone. -/
theorem got_ack_window_latched (s : DatagrumpSender) (ts : Nat) (ack : ContestMessage)
    (s1 : DatagrumpSender) (hs : s.slow_start = 1) (h : got_ack s ts ack = .ok s1) :
    s1.cur_window_size_ = ack_window s ts ack := by
  have hack := got_ack_ok_is_ack s ts ack s1 h
  cases hep : epoch_fires s ts ack with
  | true =>
    obtain ⟨h1, _⟩ := got_ack_epoch s ts ack hack hep s1 h
    rw [h1]
    simp [epoch_window, slow_start_update, hs]
  | false =>
    obtain ⟨s2, h2, h3, _⟩ := got_ack_no_epoch s ts ack hack hep
    rw [h] at h2
    simp only [Except.ok.injEq] at h2
    subst h2
    exact h3

/-- The per-ack rule adds the step, subtracts it, or leaves the window. -/
theorem window_step_cases (w : XFloat) (v epsilon : ℚ) (below : Bool) :
    window_step w v epsilon below = XFloat.add w (window_delta w v epsilon) ∨
    window_step w v epsilon below = XFloat.sub w (window_delta w v epsilon) ∨
    window_step w v epsilon below = w := by
  unfold window_step
  split_ifs
  · exact Or.inl rfl
  · exact Or.inr (Or.inl rfl)
  · exact Or.inr (Or.inr rfl)

/-- Claim C8 as stated fails: on the first ack from the constructor state, with a 30000 ms
round trip against the 10000 ms baseline, the rate is above the target and the window is
above 5, the per-ack rule lowers the window from 10 to 49/5, and `slow_start` is still 0. -/
theorem c8_shrink_keeps_slow_start :
    ∃ s1, got_ack DatagrumpSender.init 100000 ⟨true, 0, 70000, 70020⟩ = .ok s1 ∧
      ack_below DatagrumpSender.init 100000 ⟨true, 0, 70000, 70020⟩ = false ∧
      XFloat.lt (.fin 5) DatagrumpSender.init.cur_window_size_ = true ∧
      s1.cur_window_size_ = .fin (49 / 5) ∧ s1.slow_start = 0 := by
  obtain ⟨hb, hw, he⟩ := first_ack_facts DatagrumpSender.init rfl rfl rfl rfl rfl rfl rfl
  obtain ⟨s1, h, h1, h2, _⟩ :=
    got_ack_no_epoch DatagrumpSender.init 100000 ⟨true, 0, 70000, 70020⟩ rfl he
  refine ⟨s1, h, hb, ?_, h1.trans hw, h2⟩
  show XFloat.lt (.fin 5) (.fin 10) = true
  rw [XFloat.lt_fin]
  exact decide_eq_true (by norm_num)

/-- The epoch update of `direction_` and `v`: from `direction_ = 0` and `v = 1` four growing
epochs give 1, 2, 3, 4 with `v` doubled on the fourth; a growing epoch at `direction_ >= 3`
doubles `v`; a reversal sets `v = 1` and `direction_` to 1 or -1. -/
theorem direction_update_table :
    direction_update true 0 1 = (1, 1) ∧ direction_update true 1 1 = (2, 1) ∧
    direction_update true 2 1 = (3, 1) ∧ direction_update true 3 1 = (4, 2) ∧
    (∀ (d : Int) (v : ℚ), 3 ≤ d → direction_update true d v = (d + 1, v * 2)) ∧
    (∀ (d : Int) (v : ℚ), d < 0 → direction_update true d v = (1, 1)) ∧
    (∀ (d : Int) (v : ℚ), 0 < d → direction_update false d v = (-1, 1)) := by
  refine ⟨by simp [direction_update], by simp [direction_update],
    by simp [direction_update], by simp [direction_update], ?_, ?_, ?_⟩
  · intro d v hd
    have h0 : d > 0 := by omega
    simp [direction_update, h0, hd]
  · intro d v hd
    have h0 : ¬ d > 0 := by omega
    simp [direction_update, h0]
  · intro d v hd
    have h0 : ¬ d < 0 := by omega
    simp [direction_update, h0]

theorem scale_pos : (0 : ℚ) < (SCALE : ℚ) := by norm_num [SCALE]

/-- Integer quotients bracket the rational quotient `D / y` for `lo <= y <= hi`. -/
theorem quotient_bounds (D lo hi : Int) (y : ℚ) (hD : 0 ≤ D) (hlo : 0 < lo)
    (h1 : (lo : ℚ) ≤ y) (h2 : y ≤ (hi : ℚ)) :
    ((D / hi : Int) : ℚ) ≤ (D : ℚ) / y ∧ (D : ℚ) / y ≤ ((D / lo : Int) : ℚ) + 1 := by
  have hloq : (0 : ℚ) < (lo : ℚ) := by exact_mod_cast hlo
  have hy : (0 : ℚ) < y := lt_of_lt_of_le hloq h1
  have hhiq : (0 : ℚ) < (hi : ℚ) := lt_of_lt_of_le hy h2
  have hhi : 0 < hi := by exact_mod_cast hhiq
  have hDq : (0 : ℚ) ≤ (D : ℚ) := by exact_mod_cast hD
  constructor
  · rw [le_div_iff₀ hy]
    have hk : D / hi * hi ≤ D := Int.ediv_mul_le D hhi.ne'
    have hkq : ((D / hi : Int) : ℚ) * (hi : ℚ) ≤ (D : ℚ) := by exact_mod_cast hk
    have hk0 : (0 : ℚ) ≤ ((D / hi : Int) : ℚ) := by
      have : 0 ≤ D / hi := Int.ediv_nonneg hD hhi.le
      exact_mod_cast this
    calc ((D / hi : Int) : ℚ) * y ≤ ((D / hi : Int) : ℚ) * (hi : ℚ) :=
          mul_le_mul_of_nonneg_left h2 hk0
      _ ≤ (D : ℚ) := hkq
  · rw [div_le_iff₀ hy]
    have hk : D < (D / lo + 1) * lo := Int.lt_ediv_add_one_mul_self D hlo
    have hkq : (D : ℚ) < (((D / lo : Int) : ℚ) + 1) * (lo : ℚ) := by exact_mod_cast hk
    have hk0 : (0 : ℚ) ≤ ((D / lo : Int) : ℚ) + 1 := by
      have : 0 ≤ D / lo := Int.ediv_nonneg hD hlo.le
      have : (0 : ℚ) ≤ ((D / lo : Int) : ℚ) := by exact_mod_cast this
      linarith
    calc (D : ℚ) ≤ (((D / lo : Int) : ℚ) + 1) * (lo : ℚ) := hkq.le
      _ ≤ (((D / lo : Int) : ℚ) + 1) * y := mul_le_mul_of_nonneg_left h1 hk0

/-- The step `v / (1/2 * q)` of the per-ack rule, scaled. -/
theorem delta_scaled (v : Nat) (q : ℚ) (hq : q ≠ 0) :
    (v : ℚ) / (1 / 2 * q) * (SCALE : ℚ) =
      ((2 * (v : Int) * SCALE * SCALE : Int) : ℚ) / (q * (SCALE : ℚ)) := by
  have hs : (SCALE : ℚ) ≠ 0 := scale_pos.ne'
  push_cast
  field_simp
  ring

/-- The bracket settles `lambda <= lambda_T` as `got_ack` does. -/
theorem below_sound (b : Bracket) (q : ℚ) (rtt dq : Nat) (bl : Bool) (hrtt : 0 < rtt)
    (h2 : q * (SCALE : ℚ) ≤ (b.hi : ℚ)) (h1 : (b.lo : ℚ) ≤ q * (SCALE : ℚ))
    (hb : b.below rtt dq = some bl) :
    XFloat.le (lambda (.fin q) rtt) (lambda_T (1 / 2) (dq : ℚ)) = bl := by
  have hrq : (0 : ℚ) < (rtt : ℚ) := by exact_mod_cast hrtt
  have hl : lambda (.fin q) rtt = .fin (q / (rtt : ℚ)) := by
    simp only [lambda]
    exact XFloat.div_fin _ _ hrq.ne'
  rw [hl]
  simp only [Bracket.below] at hb
  by_cases hdq : dq = 0
  · simp only [hdq, if_true, Option.some.injEq] at hb
    subst hb
    simp only [lambda_T, hdq, Nat.cast_zero, mul_zero, XFloat.mul_fin]
    rw [XFloat.div_fin_zero 1 one_pos]
    rfl
  · have hdpos : (0 : ℚ) < (dq : ℚ) := by
      have : 0 < dq := Nat.pos_of_ne_zero hdq
      exact_mod_cast this
    have hne : (1 / 2 * (dq : ℚ)) ≠ 0 := by positivity
    have hT : lambda_T (1 / 2) (dq : ℚ) = .fin (1 / (1 / 2 * (dq : ℚ))) := by
      simp only [lambda_T, XFloat.mul_fin]
      exact XFloat.div_fin _ _ hne
    rw [hT, XFloat.le_fin]
    have hiff : q / (rtt : ℚ) ≤ 1 / (1 / 2 * (dq : ℚ)) ↔ q * (dq : ℚ) ≤ 2 * (rtt : ℚ) := by
      rw [div_le_div_iff₀ hrq (by positivity)]
      constructor <;> intro h <;> linarith
    simp only [hdq, if_false] at hb
    split_ifs at hb with c1 c2
    · simp only [Option.some.injEq] at hb
      subst hb
      have c1q : (b.hi : ℚ) * (dq : ℚ) ≤ 2 * (rtt : ℚ) * (SCALE : ℚ) := by exact_mod_cast c1
      have : q * (dq : ℚ) * (SCALE : ℚ) ≤ 2 * (rtt : ℚ) * (SCALE : ℚ) := by
        calc q * (dq : ℚ) * (SCALE : ℚ) = q * (SCALE : ℚ) * (dq : ℚ) := by ring
          _ ≤ (b.hi : ℚ) * (dq : ℚ) := mul_le_mul_of_nonneg_right h2 hdpos.le
          _ ≤ _ := c1q
      have := le_of_mul_le_mul_right this scale_pos
      exact decide_eq_true (hiff.mpr this)
    · simp only [Option.some.injEq] at hb
      subst hb
      have c2q : 2 * (rtt : ℚ) * (SCALE : ℚ) < (b.lo : ℚ) * (dq : ℚ) := by exact_mod_cast c2
      have : 2 * (rtt : ℚ) * (SCALE : ℚ) < q * (dq : ℚ) * (SCALE : ℚ) := by
        calc 2 * (rtt : ℚ) * (SCALE : ℚ) < (b.lo : ℚ) * (dq : ℚ) := c2q
          _ ≤ q * (SCALE : ℚ) * (dq : ℚ) := mul_le_mul_of_nonneg_right h1 hdpos.le
          _ = q * (dq : ℚ) * (SCALE : ℚ) := by ring
      have := lt_of_mul_lt_mul_right this scale_pos.le
      exact decide_eq_false (fun h => absurd (hiff.mp h) (not_le.mpr this))

/-- The bracket follows the per-ack rule. -/
theorem window_sound (b : Bracket) (q : ℚ) (bl : Bool) (w1 : Int × Int) (hlo : 0 < b.lo)
    (h1 : (b.lo : ℚ) ≤ q * (SCALE : ℚ)) (h2 : q * (SCALE : ℚ) ≤ (b.hi : ℚ))
    (hw : b.window bl = some w1) :
    ∃ q1 : ℚ, window_step (.fin q) (b.v : ℚ) (1 / 2) bl = .fin q1 ∧
      (w1.1 : ℚ) ≤ q1 * (SCALE : ℚ) ∧ q1 * (SCALE : ℚ) ≤ (w1.2 : ℚ) := by
  have hloq : (0 : ℚ) < (b.lo : ℚ) := by exact_mod_cast hlo
  have hy : (0 : ℚ) < q * (SCALE : ℚ) := lt_of_lt_of_le hloq h1
  have hq : 0 < q := by
    by_contra hn
    have : q * (SCALE : ℚ) ≤ 0 := mul_nonpos_of_nonpos_of_nonneg (not_lt.mp hn) scale_pos.le
    linarith
  have hne : (1 / 2 * q) ≠ 0 := by positivity
  have hdelta : window_delta (.fin q) (b.v : ℚ) (1 / 2) = .fin ((b.v : ℚ) / (1 / 2 * q)) := by
    simp only [window_delta, XFloat.mul_fin]
    exact XFloat.div_fin _ _ hne
  have hD : 0 ≤ 2 * (b.v : Int) * SCALE * SCALE := by
    have : (0 : Int) ≤ (b.v : Int) := Int.natCast_nonneg _
    have hS : (0 : Int) ≤ SCALE := by decide
    positivity
  obtain ⟨k1, k2⟩ := quotient_bounds (2 * (b.v : Int) * SCALE * SCALE) b.lo b.hi
    (q * (SCALE : ℚ)) hD hlo h1 h2
  rw [← delta_scaled b.v q hq.ne'] at k1 k2
  simp only [Bracket.window] at hw
  cases bl with
  | true =>
    simp only [if_true, Option.some.injEq] at hw
    subst hw
    refine ⟨q + (b.v : ℚ) / (1 / 2 * q), ?_, ?_, ?_⟩
    · simp only [window_step, if_true, hdelta, XFloat.add_fin]
    · push_cast
      rw [add_mul]
      linarith
    · push_cast
      rw [add_mul]
      linarith
  | false =>
    simp only [Bool.false_eq_true, if_false] at hw
    split_ifs at hw with c1 c2
    · simp only [Option.some.injEq] at hw
      subst hw
      have c1q : 5 * (SCALE : ℚ) < (b.lo : ℚ) := by exact_mod_cast c1
      have h5 : 5 < q := by
        have : 5 * (SCALE : ℚ) < q * (SCALE : ℚ) := lt_of_lt_of_le c1q h1
        exact lt_of_mul_lt_mul_right this scale_pos.le
      refine ⟨q - (b.v : ℚ) / (1 / 2 * q), ?_, ?_, ?_⟩
      · simp only [window_step, Bool.false_eq_true, if_false, XFloat.lt_fin, h5, decide_True,
          if_true, hdelta, XFloat.sub_fin]
      · push_cast
        rw [sub_mul]
        linarith
      · push_cast
        rw [sub_mul]
        linarith
    · simp only [Option.some.injEq] at hw
      subst hw
      have c2q : (b.hi : ℚ) ≤ 5 * (SCALE : ℚ) := by exact_mod_cast c2
      have h5 : ¬ 5 < q := by
        have : q * (SCALE : ℚ) ≤ 5 * (SCALE : ℚ) := le_trans h2 c2q
        exact not_lt.mpr (le_of_mul_le_mul_right this scale_pos)
      refine ⟨q, ?_, h1, h2⟩
      simp only [window_step, Bool.false_eq_true, if_false, XFloat.lt_fin, h5, decide_False]

/-- The bounds settle `packet_count_ >= cur_window_size_` as `got_ack` does. -/
theorem epoch_sound (lo hi : Int) (q : ℚ) (pc : Nat) (e : Bool)
    (h1 : (lo : ℚ) ≤ q * (SCALE : ℚ)) (h2 : q * (SCALE : ℚ) ≤ (hi : ℚ))
    (he : Bracket.epoch lo hi pc = some e) :
    XFloat.le (.fin q) (.fin (pc : ℚ)) = e := by
  rw [XFloat.le_fin]
  simp only [Bracket.epoch] at he
  split_ifs at he with c1 c2
  · simp only [Option.some.injEq] at he
    subst he
    have c1q : (hi : ℚ) ≤ (pc : ℚ) * (SCALE : ℚ) := by exact_mod_cast c1
    exact decide_eq_true (le_of_mul_le_mul_right (le_trans h2 c1q) scale_pos)
  · simp only [Option.some.injEq] at he
    subst he
    have c2q : (pc : ℚ) * (SCALE : ℚ) < (lo : ℚ) := by exact_mod_cast c2
    have : (pc : ℚ) < q := lt_of_mul_lt_mul_right (lt_of_lt_of_le c2q h1) scale_pos.le
    exact decide_eq_false (not_le.mpr this)

/-- The bounds settle `cur_window_size_ > old_window_size_` as `got_ack` does. -/
theorem grew_sound (lo hi : Int) (q : ℚ) (old : Nat) (g : Bool)
    (h1 : (lo : ℚ) ≤ q * (SCALE : ℚ)) (h2 : q * (SCALE : ℚ) ≤ (hi : ℚ))
    (hg : Bracket.grew lo hi old = some g) :
    XFloat.lt (.fin (old : ℚ)) (.fin q) = g := by
  rw [XFloat.lt_fin]
  simp only [Bracket.grew] at hg
  split_ifs at hg with c1 c2
  · simp only [Option.some.injEq] at hg
    subst hg
    have c1q : (old : ℚ) * (SCALE : ℚ) < (lo : ℚ) := by exact_mod_cast c1
    exact decide_eq_true (lt_of_mul_lt_mul_right (lt_of_lt_of_le c1q h1) scale_pos.le)
  · simp only [Option.some.injEq] at hg
    subst hg
    have c2q : (hi : ℚ) ≤ (old : ℚ) * (SCALE : ℚ) := by exact_mod_cast c2
    have : q ≤ (old : ℚ) := le_of_mul_le_mul_right (le_trans h2 c2q) scale_pos
    exact decide_eq_false (not_lt.mpr this)

/-- The bounds settle the truncation to `uint64_t` as `got_ack` does. -/
theorem trunc_sound (lo hi : Int) (q : ℚ) (old : Nat)
    (h1 : (lo : ℚ) ≤ q * (SCALE : ℚ)) (h2 : q * (SCALE : ℚ) ≤ (hi : ℚ))
    (ht : Bracket.trunc lo hi = some old) :
    XFloat.toUInt64 (.fin q) = old := by
  simp only [Bracket.trunc] at ht
  split_ifs at ht with c
  obtain ⟨c0, ceq, cmax⟩ := c
  simp only [Option.some.injEq] at ht
  subst ht
  have hS : (0 : Int) < SCALE := by decide
  have hloq : (0 : ℚ) ≤ (lo : ℚ) := by exact_mod_cast c0
  have hq0 : 0 ≤ q := by
    have : 0 ≤ q * (SCALE : ℚ) := le_trans hloq h1
    by_contra hn
    have := mul_neg_of_neg_of_pos (not_le.mp hn) scale_pos
    linarith
  have hk1 : lo / SCALE * SCALE ≤ lo := Int.ediv_mul_le lo hS.ne'
  have hk2 : hi < (hi / SCALE + 1) * SCALE := Int.lt_ediv_add_one_mul_self hi hS
  rw [← ceq] at hk2 cmax
  have hk1q : ((lo / SCALE : Int) : ℚ) * (SCALE : ℚ) ≤ (lo : ℚ) := by exact_mod_cast hk1
  have hk2q : (hi : ℚ) < (((lo / SCALE : Int) : ℚ) + 1) * (SCALE : ℚ) := by exact_mod_cast hk2
  have hfl1 : ((lo / SCALE : Int) : ℚ) ≤ q :=
    le_of_mul_le_mul_right (le_trans hk1q h1) scale_pos
  have hfl2 : q < ((lo / SCALE : Int) : ℚ) + 1 :=
    lt_of_mul_lt_mul_right (lt_of_le_of_lt h2 hk2q) scale_pos.le
  have hfloor : ⌊q⌋ = lo / SCALE := Int.floor_eq_iff.mpr ⟨hfl1, hfl2⟩
  have hmax : q < (UINT64 : ℚ) := by
    have : lo / SCALE + 1 ≤ (UINT64 : Int) := by omega
    have : (((lo / SCALE : Int) : ℚ) + 1) ≤ (UINT64 : ℚ) := by exact_mod_cast this
    linarith
  simp only [XFloat.toUInt64, hq0, hmax, if_true, hfloor]

/-- The update on natural velocities agrees with the update on rational ones. -/
theorem direction_update_cast (g : Bool) (d : Int) (v : Nat) :
    direction_update g d (v : ℚ) =
      ((direction_update_nat g d v).1, ((direction_update_nat g d v).2 : ℚ)) := by
  unfold direction_update direction_update_nat
  split_ifs <;> simp

/-- The smoothed RTT stays below the larger of its bound and the new sample. -/
theorem srtt_bound (srtt : ℚ) (hi rtt : Nat) (h : srtt ≤ (hi : ℚ)) :
    4 / 5 * srtt + 1 / 5 * (rtt : ℚ) ≤ ((max hi rtt : Nat) : ℚ) := by
  have h1 : (hi : ℚ) ≤ ((max hi rtt : Nat) : ℚ) := by exact_mod_cast le_max_left hi rtt
  have h2 : (rtt : ℚ) ≤ ((max hi rtt : Nat) : ℚ) := by exact_mod_cast le_max_right hi rtt
  linarith

/-- One ack: the bracket computed by `Bracket.ack` holds of the state that `got_ack`
returns. -/
theorem ack_sound (b b1 : Bracket) (s : DatagrumpSender) (ts : Nat) (m : ContestMessage)
    (hh : b.holds s) (hb : b.ack ts m = some b1) :
    ∃ s1, got_ack s ts m = .ok s1 ∧ b1.holds s1 := by
  obtain ⟨q, hw, h1, h2, hv, heps, hsrtt, hrs, htau, hrmin, hdir, hpc, hold, hss⟩ := hh
  by_cases hc : m.is_ack = true ∧ b.srtt_hi ≤ 2 * sub64 ts b.tau_start_ ∧
      0 < sub64 ts m.ack_send_timestamp ∧ 0 < b.lo
  swap
  · simp only [Bracket.ack, if_neg hc] at hb
    exact absurd hb (by simp)
  simp only [Bracket.ack, if_pos hc] at hb
  obtain ⟨hack, hgap, hrtt, hlo⟩ := hc
  -- the RTT signals
  have hst : standing_update s ts (sub64 ts m.ack_send_timestamp) =
      (sub64 ts m.ack_send_timestamp, ts) := by
    have hge : ((sub64 ts s.tau_start_ : Nat) : ℚ) ≥ s.srtt_ / 2 := by
      rw [htau]
      have : ((b.srtt_hi : Nat) : ℚ) ≤ ((2 * sub64 ts b.tau_start_ : Nat) : ℚ) := by
        exact_mod_cast hgap
      push_cast at this
      have h3 : s.srtt_ / 2 ≤ (b.srtt_hi : ℚ) / 2 := by linarith
      show s.srtt_ / 2 ≤ _
      linarith
    simp only [standing_update, hge, if_true]
  have hstanding : ack_standing s ts m = sub64 ts m.ack_send_timestamp := by
    simp only [ack_standing, hst]
  have htau1 : ack_tau s ts m = ts := by simp only [ack_tau, hst]
  have hrmin1 : ack_rtt_min s ts m =
      (if sub64 ts m.ack_send_timestamp < b.rtt_min_ then sub64 ts m.ack_send_timestamp
        else b.rtt_min_) := by
    simp only [ack_rtt_min, hrmin]
  have hsrtt1 : ack_srtt s ts m ≤
      ((max b.srtt_hi (sub64 ts m.ack_send_timestamp) : Nat) : ℚ) :=
    srtt_bound s.srtt_ b.srtt_hi _ hsrtt
  -- the comparison with the target rate
  cases hbel : b.below (sub64 ts m.ack_send_timestamp) (sub64 (sub64 ts m.ack_send_timestamp)
      (if sub64 ts m.ack_send_timestamp < b.rtt_min_ then sub64 ts m.ack_send_timestamp
        else b.rtt_min_)) with
  | none => simp only [hbel] at hb; exact absurd hb (by simp)
  | some bl =>
    simp only [hbel] at hb
    have hbelow : ack_below s ts m = bl := by
      simp only [ack_below, ack_dq, hstanding, hrmin1, hw, heps]
      exact below_sound b q _ _ bl hrtt h2 h1 hbel
    -- the per-ack rule
    cases hwin : b.window bl with
    | none => simp only [hwin] at hb; exact absurd hb (by simp)
    | some w1 =>
      simp only [hwin] at hb
      obtain ⟨q1, hq1, hq1lo, hq1hi⟩ := window_sound b q bl w1 hlo h1 h2 hwin
      have hwindow : ack_window s ts m = .fin q1 := by
        simp only [ack_window, hbelow, hw, hv, heps]
        exact hq1
      -- the epoch test
      cases hep : Bracket.epoch w1.1 w1.2 (add64 b.packet_count_ 1) with
      | none => simp only [hep] at hb; exact absurd hb (by simp)
      | some e =>
        simp only [hep] at hb
        have hfires : epoch_fires s ts m = e := by
          simp only [epoch_fires, hwindow, hpc]
          exact epoch_sound w1.1 w1.2 q1 _ e hq1lo hq1hi hep
        cases e with
        | false =>
          simp only [Option.some.injEq] at hb
          subst hb
          have hgot := got_ack_eq s ts m hack
          simp only [hfires, Bool.false_eq_true, if_false] at hgot
          exact ⟨_, hgot, q1, hwindow, hq1lo, hq1hi, hv, heps, hsrtt1, hstanding, htau1, hrmin1,
            hdir, congrArg (fun n => add64 n 1) hpc, hold, hss⟩
        | true =>
          simp only at hb
          -- the slow-start doubling
          have hwin2 : ∃ q2 : ℚ, epoch_window s ts m = .fin q2 ∧
              (((if b.slow_start = 0 ∧ bl = true then (2 * w1.1, 2 * w1.2) else w1).1 : Int) : ℚ)
                ≤ q2 * (SCALE : ℚ) ∧
              q2 * (SCALE : ℚ) ≤
                (((if b.slow_start = 0 ∧ bl = true then (2 * w1.1, 2 * w1.2) else w1).2 : Int)
                  : ℚ) := by
            simp only [epoch_window, slow_start_update, hwindow, hbelow, hss]
            by_cases c0 : b.slow_start = 0
            · cases bl with
              | true =>
                refine ⟨q1 * 2, by simp [c0, XFloat.mul_fin], ?_, ?_⟩
                · simp only [c0, and_self, if_true]
                  push_cast
                  linarith
                · simp only [c0, and_self, if_true]
                  push_cast
                  linarith
              | false =>
                exact ⟨q1, by simp [c0], by simpa [c0] using hq1lo, by simpa [c0] using hq1hi⟩
            · exact ⟨q1, by simp [c0], by simpa [c0] using hq1lo, by simpa [c0] using hq1hi⟩
          obtain ⟨q2, hq2, hq2lo, hq2hi⟩ := hwin2
          have hss2 : (slow_start_update (ack_window s ts m) s.slow_start (ack_below s ts m)).2 =
              (if b.slow_start = 0 ∧ bl = false then 1 else b.slow_start) := by
            simp only [slow_start_update, hbelow, hss]
            by_cases c0 : b.slow_start = 0 <;> cases bl <;> simp [c0]
          cases hg : Bracket.grew
              (if b.slow_start = 0 ∧ bl = true then (2 * w1.1, 2 * w1.2) else w1).1
              (if b.slow_start = 0 ∧ bl = true then (2 * w1.1, 2 * w1.2) else w1).2
              b.old_window_size_ with
          | none => simp only [hg] at hb; exact absurd hb (by simp)
          | some g =>
            cases htr : Bracket.trunc
                (if b.slow_start = 0 ∧ bl = true then (2 * w1.1, 2 * w1.2) else w1).1
                (if b.slow_start = 0 ∧ bl = true then (2 * w1.1, 2 * w1.2) else w1).2 with
            | none => simp only [hg, htr] at hb; exact absurd hb (by simp)
            | some old =>
              simp only [hg, htr, Option.some.injEq] at hb
              subst hb
              have hgrew : epoch_grew s ts m = g := by
                simp only [epoch_grew, hq2, hold]
                exact grew_sound _ _ q2 _ g hq2lo hq2hi hg
              have htrunc : XFloat.toUInt64 (epoch_window s ts m) = old := by
                rw [hq2]
                exact trunc_sound _ _ q2 old hq2lo hq2hi htr
              have hdu := direction_update_cast g b.direction_ b.v
              have hgot := got_ack_eq s ts m hack
              simp only [hfires, if_true, htrunc] at hgot
              refine ⟨_, hgot, q2, hq2, hq2lo, hq2hi, ?_, heps, hsrtt1, hstanding, htau1, hrmin1,
                ?_, rfl, rfl, hss2⟩
              · show (direction_update (epoch_grew s ts m) s.direction_ s.v).2 = _
                rw [hgrew, hdir, hv, hdu]
              · show (direction_update (epoch_grew s ts m) s.direction_ s.v).1 = _
                rw [hgrew, hdir, hv, hdu]

/-- A run: the bracket computed by `Bracket.run` holds of the state that `run` returns. -/
theorem run_sound (es : List Event) : ∀ (b b1 : Bracket) (s : DatagrumpSender),
    b.holds s → Bracket.run b es = some b1 → ∃ s1, run s es = .ok s1 ∧ b1.holds s1 := by
  induction es with
  | nil =>
    intro b b1 s hh hb
    simp only [Bracket.run, Option.some.injEq] at hb
    subst hb
    exact ⟨s, rfl, hh⟩
  | cons e es ih =>
    intro b b1 s hh hb
    cases e with
    | ack t m =>
      simp only [Bracket.run] at hb
      cases hba : b.ack t m with
      | none => simp only [hba] at hb; exact absurd hb (by simp)
      | some b2 =>
        simp only [hba] at hb
        obtain ⟨s2, hs2, hh2⟩ := ack_sound b b2 s t m hh hba
        obtain ⟨s1, hs1, hh1⟩ := ih b2 b1 s2 hh2 hb
        exact ⟨s1, by simp only [run, step, hs2, hs1], hh1⟩
    | send t f =>
      simp only [Bracket.run] at hb
      have hh2 : b.holds (send_datagram s t f) := hh
      obtain ⟨s1, hs1, hh1⟩ := ih b b1 _ hh2 hb
      exact ⟨s1, by simp only [run, step, hs1], hh1⟩

theorem init_holds : Bracket.init.holds DatagrumpSender.init := by
  refine ⟨10, rfl, ?_, ?_, ?_, rfl, ?_, rfl, rfl, rfl, rfl, rfl, rfl, rfl⟩ <;>
    norm_num [Bracket.init, DatagrumpSender.init, SCALE]

/-- A run over a concatenation is the run over the second part from the state the first
part returns. -/
theorem run_append (xs ys : List Event) : ∀ (s s1 : DatagrumpSender),
    run s xs = .ok s1 → run s (xs ++ ys) = run s1 ys := by
  induction xs with
  | nil =>
    intro s s1 h
    simp only [run, Except.ok.injEq] at h
    subst h
    rfl
  | cons e xs ih =>
    intro s s1 h
    simp only [run, List.cons_append] at h ⊢
    cases hs : step s e with
    | error f => simp only [hs] at h; exact absurd h (by simp)
    | ok s2 =>
      simp only [hs] at h ⊢
      exact ih s2 s1 h

/-- The example run is its first 61 acks followed by the last one. -/
theorem collapse_acks_split :
    collapse_acks =
      collapse_acks.take 61 ++ [Event.ack 6200000 ⟨true, 61, 6170000, 6195000⟩] := by
  decide

set_option maxRecDepth 100000 in
/-- The bracket after the first 61 acks of the example run: the window lies between 6.03
and 6.04 and the velocity is 16. -/
theorem collapse_bracket_before :
    Bracket.run Bracket.init (collapse_acks.take 61) =
      some { lo := 6030321, hi := 6030491, v := 16, srtt_hi := 30000, rtt_standing_ := 30000,
             tau_start_ := 6100000, rtt_min_ := 10000, direction_ := 7, packet_count_ := 5,
             old_window_size_ := 4, slow_start := 1 } := by
  decide

/-- The bracket after the last ack of the example run: the window lies between 0.72 and
0.73. -/
theorem collapse_bracket_after :
    Bracket.ack { lo := 6030321, hi := 6030491, v := 16, srtt_hi := 30000,
                  rtt_standing_ := 30000, tau_start_ := 6100000, rtt_min_ := 10000,
                  direction_ := 7, packet_count_ := 5, old_window_size_ := 4, slow_start := 1 }
        6200000 ⟨true, 61, 6170000, 6195000⟩ =
      some { lo := 723804, hi := 724124, v := 1, srtt_hi := 30000, rtt_standing_ := 30000,
             tau_start_ := 6200000, rtt_min_ := 10000, direction_ := -1, packet_count_ := 0,
             old_window_size_ := 0, slow_start := 1 } := by
  decide

/-- Claim C3 as stated fails. Along the example run of 62 acks from the constructor state
the window first shrinks to about 4.64, where the shrink step is no longer taken; the
velocity then doubles at four epochs to 16 while the window stands still; two growth steps
and three shrink steps take the window to about 6.03; and the last ack, a shrink step taken
at a window above 5 with velocity 16, leaves a window of about 0.72, below 1. -/
theorem c3_window_drops_below_one :
    ∃ s61 s62 : DatagrumpSender,
      run DatagrumpSender.init (collapse_acks.take 61) = .ok s61 ∧
      XFloat.lt (.fin 5) s61.cur_window_size_ = true ∧ s61.v = 16 ∧
      got_ack s61 6200000 ⟨true, 61, 6170000, 6195000⟩ = .ok s62 ∧
      s62.cur_window_size_ =
        XFloat.sub s61.cur_window_size_
          (window_delta s61.cur_window_size_ s61.v s61.epsilon) ∧
      run DatagrumpSender.init collapse_acks = .ok s62 ∧
      XFloat.lt s62.cur_window_size_ (.fin 1) = true := by
  have hS : (SCALE : ℚ) = 1000000 := by norm_num [SCALE]
  obtain ⟨s61, hrun61, hh61⟩ := run_sound _ _ _ _ init_holds collapse_bracket_before
  obtain ⟨s62, hgot, hh62⟩ := ack_sound _ _ s61 _ _ hh61 collapse_bracket_after
  obtain ⟨q61, hq61, hlo61, _, hv61, heps61, _, _, _, _, _, _, _, hss61⟩ := hh61
  obtain ⟨q62, hq62, _, hhi62, _⟩ := hh62
  simp only [hS] at hlo61 hhi62
  push_cast at hlo61 hhi62
  have h5 : 5 < q61 := by linarith
  have h1 : q62 < 1 := by linarith
  have hv : s61.v = 16 := by rw [hv61]; norm_num
  have hrun62 : run DatagrumpSender.init collapse_acks = .ok s62 := by
    rw [collapse_acks_split, run_append _ _ _ _ hrun61]
    simp only [run, step, hgot]
  refine ⟨s61, s62, hrun61, ?_, hv, hgot, ?_, hrun62, ?_⟩
  · rw [hq61, XFloat.lt_fin]
    exact decide_eq_true h5
  · have hw := got_ack_window_latched s61 _ _ s62 hss61 hgot
    have hq0 : 0 < q61 := by linarith
    have hdelta : window_delta (.fin q61) 16 (1 / 2) = .fin (16 / (1 / 2 * q61)) := by
      simp only [window_delta, XFloat.mul_fin]
      exact XFloat.div_fin _ _ (by positivity)
    have hd0 : (0 : ℚ) ≤ 16 / (1 / 2 * q61) := by positivity
    rw [hw]
    rcases window_step_cases s61.cur_window_size_ s61.v s61.epsilon
      (ack_below s61 6200000 ⟨true, 61, 6170000, 6195000⟩) with hc | hc | hc
    · exfalso
      rw [ack_window, hc, hq61, hv, heps61, hdelta, XFloat.add_fin] at hw
      rw [hq62] at hw
      have : q62 = q61 + 16 / (1 / 2 * q61) := by simpa using hw
      linarith
    · rw [ack_window, hc]
    · exfalso
      rw [ack_window, hc, hq61, hq62] at hw
      have : q62 = q61 := by simpa using hw
      linarith
  · rw [hq62, XFloat.lt_fin]
    exact decide_eq_true h1

/-- The per-ack rule keeps a finite window at or above 1 unless the shrink step overshoots. -/
theorem window_step_floor (q v epsilon : ℚ) (below : Bool) (hq : 1 ≤ q) (hv : 0 ≤ v)
    (heps : 0 < epsilon) (hsafe : below = false → 5 < q → ¬ q - v / (epsilon * q) < 1) :
    ∃ q1 : ℚ, window_step (.fin q) v epsilon below = .fin q1 ∧ 1 ≤ q1 := by
  have hq0 : 0 < q := by linarith
  have hne : epsilon * q ≠ 0 := by positivity
  have hdelta : window_delta (.fin q) v epsilon = .fin (v / (epsilon * q)) := by
    simp only [window_delta, XFloat.mul_fin]
    exact XFloat.div_fin _ _ hne
  have hd0 : 0 ≤ v / (epsilon * q) := by positivity
  cases below with
  | true =>
    refine ⟨q + v / (epsilon * q), ?_, by linarith⟩
    simp only [window_step, if_true, hdelta, XFloat.add_fin]
  | false =>
    by_cases h5 : 5 < q
    · refine ⟨q - v / (epsilon * q), ?_, not_lt.mp (hsafe rfl h5)⟩
      simp only [window_step, Bool.false_eq_true, if_false, XFloat.lt_fin, h5, decide_True,
        if_true, hdelta, XFloat.sub_fin]
    · refine ⟨q, ?_, hq⟩
      simp only [window_step, Bool.false_eq_true, if_false, XFloat.lt_fin, h5, decide_False]

/-- The velocity update keeps the velocity nonnegative. -/
theorem direction_update_nonneg (g : Bool) (d : Int) (v : ℚ) (hv : 0 ≤ v) :
    0 ≤ (direction_update g d v).2 := by
  unfold direction_update
  split_ifs <;> simp <;> linarith

theorem got_ack_floor (s s1 : DatagrumpSender) (ts : Nat) (m : ContestMessage)
    (hinv : floor_inv s) (hsafe : ¬ shrink_overshoots s ts m) (h : got_ack s ts m = .ok s1) :
    floor_inv s1 := by
  obtain ⟨⟨q, hw, hq⟩, hv, heps⟩ := hinv
  have hack := got_ack_ok_is_ack s ts m s1 h
  have hs : ack_below s ts m = false → 5 < q → ¬ q - s.v / (s.epsilon * q) < 1 :=
    fun hb h5 hlt => hsafe ⟨hb, q, hw, h5, hlt⟩
  obtain ⟨q1, hq1, hq1le⟩ := window_step_floor q s.v s.epsilon (ack_below s ts m) hq hv heps hs
  have hwindow : ack_window s ts m = .fin q1 := by
    simp only [ack_window, hw]
    exact hq1
  rw [got_ack_eq s ts m hack] at h
  cases hep : epoch_fires s ts m with
  | false =>
    simp only [hep, Bool.false_eq_true, if_false, Except.ok.injEq] at h
    subst h
    exact ⟨⟨q1, hwindow, hq1le⟩, hv, heps⟩
  | true =>
    simp only [hep, if_true, Except.ok.injEq] at h
    subst h
    refine ⟨?_, direction_update_nonneg _ _ _ hv, heps⟩
    show ∃ q2 : ℚ, epoch_window s ts m = .fin q2 ∧ 1 ≤ q2
    simp only [epoch_window, slow_start_update, hwindow]
    split_ifs
    · exact ⟨q1 * 2, XFloat.mul_fin _ _, by linarith⟩
    · exact ⟨q1, rfl, hq1le⟩
    · exact ⟨q1, rfl, hq1le⟩

theorem run_floor (es : List Event) : ∀ (s s1 : DatagrumpSender), floor_inv s →
    never_overshoots s es → run s es = .ok s1 → floor_inv s1 := by
  induction es with
  | nil =>
    intro s s1 hinv _ h
    simp only [run, Except.ok.injEq] at h
    subst h
    exact hinv
  | cons e es ih =>
    intro s s1 hinv hsafe h
    cases e with
    | send t b =>
      simp only [run, step] at h
      exact ih (send_datagram s t b) s1 hinv hsafe h
    | ack t m =>
      simp only [never_overshoots] at hsafe
      simp only [run, step] at h
      cases hg : got_ack s t m with
      | error f => simp only [hg] at h; exact absurd h (by simp)
      | ok s2 =>
        simp only [hg] at h hsafe
        exact ih s2 s1 (got_ack_floor s s2 t m hinv hsafe.1 hg) hsafe.2 h

/-- Claim C3, amended: from the constructor state, after every finite sequence of events
that returns a state and in which no shrink step overshoots (each shrink step, taken at a
window `w > 5` with velocity `v`, has `w - v / (epsilon * w) >= 1`), the window is at least
1; with `epsilon = 1/2` no shrink step overshoots while `v <= 10`. -/
theorem c3_window_floor (es : List Event) (s1 : DatagrumpSender)
    (hsafe : never_overshoots DatagrumpSender.init es)
    (hrun : run DatagrumpSender.init es = .ok s1) :
    XFloat.le (.fin 1) s1.cur_window_size_ = true ∧
      ∀ q v : ℚ, 5 < q → 0 ≤ v → v ≤ 10 → ¬ q - v / (1 / 2 * q) < 1 := by
  have h0 : floor_inv DatagrumpSender.init :=
    ⟨⟨10, rfl, by norm_num⟩, by norm_num [DatagrumpSender.init],
      by norm_num [DatagrumpSender.init]⟩
  obtain ⟨⟨q, hw, hq⟩, _, _⟩ := run_floor es _ s1 h0 hsafe hrun
  refine ⟨?_, ?_⟩
  · rw [hw, XFloat.le_fin]
    exact decide_eq_true hq
  · intro q v h5 hv0 hv10
    have hq0 : 0 < q := by linarith
    have hd : v / (1 / 2 * q) ≤ 4 := by
      rw [div_le_iff₀ (by positivity)]
      nlinarith
    linarith

theorem c3_window_floor_witness :
    never_overshoots DatagrumpSender.init [Event.ack 100000 ⟨true, 0, 70000, 70020⟩] ∧
      ∃ s1, run DatagrumpSender.init [Event.ack 100000 ⟨true, 0, 70000, 70020⟩] = .ok s1 ∧
        XFloat.le (.fin 1) s1.cur_window_size_ = true := by
  obtain ⟨_, _, he⟩ := first_ack_facts DatagrumpSender.init rfl rfl rfl rfl rfl rfl rfl
  obtain ⟨s1, h, _⟩ :=
    got_ack_no_epoch DatagrumpSender.init 100000 ⟨true, 0, 70000, 70020⟩ rfl he
  have hrun : run DatagrumpSender.init [Event.ack 100000 ⟨true, 0, 70000, 70020⟩] = .ok s1 := by
    simp only [run, step, h]
  have hsafe : never_overshoots DatagrumpSender.init
      [Event.ack 100000 ⟨true, 0, 70000, 70020⟩] := by
    simp only [never_overshoots, h, and_true]
    rintro ⟨_, q, hq, _, hlt⟩
    have hq10 : q = 10 := by
      have : XFloat.fin 10 = XFloat.fin q := hq
      simpa using this.symm
    subst hq10
    norm_num [DatagrumpSender.init] at hlt
  exact ⟨hsafe, s1, hrun, (c3_window_floor _ s1 hsafe hrun).1⟩

end Copa

/-! ## MeanVariance strategy: epochs and gates -/

namespace MeanVar

/-- Window and counter after an ack, whatever the statistics: an ack that finds
`packet_counter < cur_window_size` adds one to the counter and leaves the window. -/
theorem ack_no_epoch (c : Controller) (n s r t : Nat) (h : ¬ c.packet_counter ≥ c.cur_window_size) :
    (ack_received c n s r t).cur_window_size = c.cur_window_size ∧
    (ack_received c n s r t).packet_counter = c.packet_counter + 1 := by
  simp only [ack_received, h, if_false, and_self]

/-- Window and counter after an ack that fires the epoch with a round trip of 130 ms or
more. -/
theorem ack_epoch_shrink (c : Controller) (n s r t : Nat)
    (h : c.packet_counter ≥ c.cur_window_size) (hr : sub64 t s ≥ 130) :
    (ack_received c n s r t).cur_window_size = c.cur_window_size * 2 / 3 ∧
    (ack_received c n s r t).packet_counter = 0 := by
  simp only [ack_received, h, hr, if_true, and_self]

/-- Window and counter after an ack that fires the epoch with a round trip below 130 ms:
the gate compares the round trip with the updated `rtt_mean + 2 * rtt_std_dev`. -/
theorem ack_epoch_gate (c : Controller) (n s r t : Nat)
    (h : c.packet_counter ≥ c.cur_window_size) (hr : ¬ sub64 t s ≥ 130) :
    (ack_received c n s r t).cur_window_size =
      (if ((sub64 t s : Nat) : ℚ) ≤
          (ack_received c n s r t).rtt_mean + 2 * (ack_received c n s r t).rtt_std_dev
        then c.cur_window_size + 1 else c.cur_window_size) ∧
    (ack_received c n s r t).packet_counter = 0 := by
  simp only [ack_received, h, hr, if_true, if_false]
  split_ifs <;> simp_all

/-- Acks that stay below the window only count: after `k` acks from a state with
`packet_counter + k <= cur_window_size` the window is as before and the counter is `k`
higher. -/
theorem acks_only_count (es : List Event) : ∀ c : Controller,
    (∀ e ∈ es, Event.is_ack e = true) → c.packet_counter + es.length ≤ c.cur_window_size →
    (run c es).cur_window_size = c.cur_window_size ∧
    (run c es).packet_counter = c.packet_counter + es.length := by
  induction es with
  | nil => intro c _ _; simp [run_nil]
  | cons e es ih =>
    intro c hall hlen
    simp only [List.length_cons] at hlen
    have he : Event.is_ack e = true := hall e (List.mem_cons_self _ _)
    cases e with
    | sent n t b => simp [Event.is_ack] at he
    | ack n s r t =>
      have hlt : ¬ c.packet_counter ≥ c.cur_window_size := by omega
      obtain ⟨h1, h2⟩ := ack_no_epoch c n s r t hlt
      have := ih (step c (Event.ack n s r t))
        (fun e' he' => hall e' (List.mem_cons_of_mem _ he'))
        (by simp only [step, h1, h2]; omega)
      rw [run_cons]
      simp only [step, h1, h2] at this ⊢
      refine ⟨this.1, ?_⟩
      rw [this.2, List.length_cons]
      omega

end MeanVar

namespace MeanVar

theorem meanvar_run_append (xs ys : List Event) (c : Controller) :
    run c (xs ++ ys) = run (run c xs) ys := by
  simp only [run, List.foldl_append]

/-- From a state with `packet_counter = 0` and window `w`, the first `w` acks leave the
window alone and take the counter to `w`; the ack after them finds
`packet_counter >= cur_window_size` and resets the counter. -/
theorem epoch_after_window_acks (c : Controller) (es : List Event) (n s r t : Nat)
    (h0 : c.packet_counter = 0) (hall : ∀ e ∈ es, Event.is_ack e = true)
    (hlen : es.length = c.cur_window_size) :
    (run c es).cur_window_size = c.cur_window_size ∧
    (run c es).packet_counter = c.cur_window_size ∧
    (run c (es ++ [Event.ack n s r t])).packet_counter = 0 := by
  obtain ⟨h1, h2⟩ := acks_only_count es c hall (by omega)
  rw [h0, Nat.zero_add, hlen] at h2
  refine ⟨h1, h2, ?_⟩
  rw [meanvar_run_append, run_cons, run_nil]
  have hge : (run c es).packet_counter ≥ (run c es).cur_window_size := by omega
  simp only [step, ack_received, hge, if_true]
  split_ifs <;> rfl

/-- Claim C14 fails on the code: from the constructor state (window 10, counter 0) the
tenth ack does not fire the epoch, it takes the counter from 9 to 10 and leaves the window
at 10; the eleventh ack, here with a round trip of 200 ms, is the one that evaluates the
rule (window 6) and resets the counter. -/
theorem c14_epoch_fires_on_ack_eleven :
    (run Controller.init (List.replicate 9 (Event.ack 0 1000 1040 1050))).packet_counter = 9 ∧
    (run Controller.init (List.replicate 10 (Event.ack 0 1000 1040 1050))).packet_counter
      = 10 ∧
    (run Controller.init (List.replicate 10 (Event.ack 0 1000 1040 1050))).cur_window_size
      = 10 ∧
    (run Controller.init (List.replicate 10 (Event.ack 0 1000 1040 1050) ++
      [Event.ack 1 1000 1100 1200])).packet_counter = 0 ∧
    (run Controller.init (List.replicate 10 (Event.ack 0 1000 1040 1050) ++
      [Event.ack 1 1000 1100 1200])).cur_window_size = 6 := by
  have hall : ∀ k, ∀ e ∈ List.replicate k (Event.ack 0 1000 1040 1050),
      Event.is_ack e = true := by
    intro k e he
    rw [List.eq_of_mem_replicate he]
    rfl
  have h9 := acks_only_count (List.replicate 9 (Event.ack 0 1000 1040 1050)) Controller.init
    (hall 9) (by simp [Controller.init])
  have h10 := acks_only_count (List.replicate 10 (Event.ack 0 1000 1040 1050)) Controller.init
    (hall 10) (by simp [Controller.init])
  simp only [List.length_replicate] at h9 h10
  have hge : (run Controller.init (List.replicate 10 (Event.ack 0 1000 1040 1050))).packet_counter
      ≥ (run Controller.init (List.replicate 10 (Event.ack 0 1000 1040 1050))).cur_window_size := by
    rw [h10.1, h10.2]
    decide
  have hr : sub64 1200 1000 ≥ 130 := by decide
  obtain ⟨k1, k2⟩ := ack_epoch_shrink _ 1 1000 1100 1200 hge hr
  refine ⟨h9.2, h10.2, h10.1, ?_, ?_⟩
  · rw [meanvar_run_append, run_cons, run_nil]
    exact k2
  · rw [meanvar_run_append, run_cons, run_nil]
    show (ack_received _ 1 1000 1100 1200).cur_window_size = 6
    rw [k1, h10.1]
    rfl

/-- Claim C16: an ack that fires the epoch (`packet_counter >= cur_window_size` before the
ack) with a round trip of 130 ms or more sets the window to `floor(2 * w / 3)` and the
counter to 0, whatever the running statistics are; an ack that does not fire the epoch
leaves the window and adds exactly one to the counter. -/
theorem c16_threshold_shrink (c : Controller) (n s r t : Nat) :
    (c.packet_counter ≥ c.cur_window_size → sub64 t s ≥ 130 →
      ∀ (m d : ℚ) (k : Nat),
        (ack_received { c with rtt_mean := m, rtt_std_dev := d, num_acks := k }
          n s r t).cur_window_size = c.cur_window_size * 2 / 3 ∧
        (ack_received { c with rtt_mean := m, rtt_std_dev := d, num_acks := k }
          n s r t).packet_counter = 0 ∧
        (ack_received c n s r t).cur_window_size = c.cur_window_size * 2 / 3 ∧
        (ack_received c n s r t).packet_counter = 0) ∧
    (¬ c.packet_counter ≥ c.cur_window_size →
      (ack_received c n s r t).cur_window_size = c.cur_window_size ∧
      (ack_received c n s r t).packet_counter = c.packet_counter + 1) := by
  refine ⟨?_, ack_no_epoch c n s r t⟩
  intro h hr m d k
  obtain ⟨a1, a2⟩ := ack_epoch_shrink { c with rtt_mean := m, rtt_std_dev := d, num_acks := k }
    n s r t h hr
  obtain ⟨b1, b2⟩ := ack_epoch_shrink c n s r t h hr
  exact ⟨a1, a2, b1, b2⟩

/-- Claim C16 at two states: an epoch ack with a 200 ms round trip takes the window from 10
to 6, and an ack that finds the counter at 3 below the window 10 takes it to 4. -/
theorem c16_threshold_shrink_witness :
    (ack_received (Controller.mk 10 10 50 0 10) 7 1000 1100 1200).cur_window_size = 6 ∧
    (ack_received (Controller.mk 10 3 50 0 3) 7 1000 1100 1200).packet_counter = 4 :=
  ⟨((c16_threshold_shrink (Controller.mk 10 10 50 0 10) 7 1000 1100 1200).1 (by decide)
      (by decide) 50 0 10).2.2.1,
   ((c16_threshold_shrink (Controller.mk 10 3 50 0 3) 7 1000 1100 1200).2 (by decide)).2⟩

/-- The samples of the example run. -/
theorem gate_acks_samples :
    samples gate_acks = [10, 10, 10, 10, 10, 10, 10, 10, 10, 10, 120] := by
  decide

/-- Claim C15 fails on the code: after ten acks with a 10 ms round trip from the constructor
state, an ack with a 120 ms round trip fires the epoch, below the 130 ms threshold. The
samples have mean 20 and sum of squared deviations 11000, so the standard deviation is
below 34 and the round trip is above `mean + 2 * sigma`, yet the window is incremented to
11: the code compares with `rtt_mean + 2 * rtt_std_dev`, where `rtt_std_dev` is the sum of
squared deviations itself. -/
theorem c15_gate_uses_sum_of_squares :
    (run Controller.init (List.replicate 10 (Event.ack 0 1000 1005 1010))).packet_counter
      = 10 ∧
    (run Controller.init (List.replicate 10 (Event.ack 0 1000 1005 1010))).cur_window_size
      = 10 ∧
    sub64 1120 1000 = 120 ∧
    (run Controller.init gate_acks).cur_window_size = 11 ∧
    mean (samples gate_acks) = 20 ∧ sq_dev (samples gate_acks) = 11000 ∧
    (120 : ℝ) > 20 + 2 * Real.sqrt (11000 / 11) ∧
    (120 : ℝ) > 20 + 2 * Real.sqrt (11000 / 10) := by
  have hall : ∀ e ∈ List.replicate 10 (Event.ack 0 1000 1005 1010),
      Event.is_ack e = true := by
    intro e he
    rw [List.eq_of_mem_replicate he]
    rfl
  have h10 := acks_only_count (List.replicate 10 (Event.ack 0 1000 1005 1010)) Controller.init
    hall (by simp [Controller.init])
  simp only [List.length_replicate] at h10
  have hw10 : (run Controller.init
      (List.replicate 10 (Event.ack 0 1000 1005 1010))).cur_window_size = 10 := h10.1
  have hc10 : (run Controller.init
      (List.replicate 10 (Event.ack 0 1000 1005 1010))).packet_counter = 10 := h10.2
  have hr : sub64 1120 1000 = 120 := by decide
  have h0 : welford_inv Controller.init [] := by simp [welford_inv, Controller.init]
  obtain ⟨w1, w2, w3⟩ := by simpa using welford_run gate_acks Controller.init [] h0
  rw [gate_acks_samples] at w1 w2 w3
  have hn : ((run Controller.init gate_acks).num_acks : ℚ) = 11 := by
    rw [w1]; norm_num
  rw [hn] at w2 w3
  have hmean : (run Controller.init gate_acks).rtt_mean = 20 := by
    norm_num at w2
    linarith
  have hdev : (run Controller.init gate_acks).rtt_std_dev = 11000 := by
    rw [w3, hmean]
    norm_num
  have hsq : Real.sqrt (11000 / 11) < 50 := by
    rw [Real.sqrt_lt' (by norm_num)]
    norm_num
  have hsq2 : Real.sqrt (11000 / 10) < 50 := by
    rw [Real.sqrt_lt' (by norm_num)]
    norm_num
  refine ⟨hc10, hw10, hr, ?_, ?_, ?_, by linarith, by linarith⟩
  · have hrun : run Controller.init gate_acks =
        ack_received (run Controller.init (List.replicate 10 (Event.ack 0 1000 1005 1010)))
          1 1000 1060 1120 := by
      rw [gate_acks, meanvar_run_append, run_cons, run_nil]
      rfl
    have hge : (run Controller.init
        (List.replicate 10 (Event.ack 0 1000 1005 1010))).packet_counter ≥
        (run Controller.init
          (List.replicate 10 (Event.ack 0 1000 1005 1010))).cur_window_size := by
      rw [hw10, hc10]
    have hlt : ¬ sub64 1120 1000 ≥ 130 := by decide
    obtain ⟨g1, _⟩ := ack_epoch_gate _ 1 1000 1060 1120 hge hlt
    rw [← hrun] at g1
    rw [g1, hmean, hdev, hr, hw10]
    norm_num
  · rw [gate_acks_samples]
    norm_num [mean]
  · rw [gate_acks_samples]
    norm_num [sq_dev, mean]

end MeanVar

/-! ## Copa sender: RTT signals, per-ack step and sequence numbers -/

theorem sub64_lt (a b : Nat) : sub64 a b < UINT64 := by
  unfold sub64
  exact Nat.mod_lt _ (by decide)

theorem sub64_of_le (a b : Nat) (hba : b ≤ a) (ha : a < UINT64) : sub64 a b = a - b := by
  unfold sub64 UINT64 at *
  omega

theorem add64_of_lt (a : Nat) (ha : a + 1 < UINT64) : add64 a 1 = a + 1 := by
  unfold add64 UINT64 at *
  omega

namespace Copa

/-- The standing RTT computed by an ack is the round trip of the ack or the old one. -/
theorem ack_standing_cases (s : DatagrumpSender) (ts : Nat) (m : ContestMessage) :
    ack_standing s ts m = sub64 ts m.ack_send_timestamp ∨
    (ack_standing s ts m = s.rtt_standing_ ∧
      s.rtt_standing_ ≤ sub64 ts m.ack_send_timestamp) := by
  unfold ack_standing standing_update
  split_ifs with h1 h2
  · exact Or.inl rfl
  · exact Or.inl rfl
  · exact Or.inr ⟨rfl, not_lt.mp h2⟩

/-- An ack keeps the all-time minimum at or below the standing RTT. -/
theorem ack_min_le_standing (s : DatagrumpSender) (ts : Nat) (m : ContestMessage)
    (h : s.rtt_min_ ≤ s.rtt_standing_) : ack_rtt_min s ts m ≤ ack_standing s ts m := by
  have hmin : ack_rtt_min s ts m ≤ sub64 ts m.ack_send_timestamp ∧
      ack_rtt_min s ts m ≤ s.rtt_min_ := by
    unfold ack_rtt_min
    split_ifs with hc
    · exact ⟨le_refl _, hc.le⟩
    · exact ⟨not_lt.mp hc, le_refl _⟩
  rcases ack_standing_cases s ts m with h1 | ⟨h1, _⟩
  · rw [h1]; exact hmin.1
  · rw [h1]; exact le_trans hmin.2 h

/-- The RTT signals that `got_ack` stores. -/
theorem got_ack_rtt (s s1 : DatagrumpSender) (ts : Nat) (m : ContestMessage)
    (h : got_ack s ts m = .ok s1) :
    s1.rtt_standing_ = ack_standing s ts m ∧ s1.rtt_min_ = ack_rtt_min s ts m ∧
    s1.dq_ = ack_dq s ts m := by
  have hack := got_ack_ok_is_ack s ts m s1 h
  rw [got_ack_eq s ts m hack] at h
  split_ifs at h
  · simp only [Except.ok.injEq] at h
    subst h
    exact ⟨rfl, rfl, rfl⟩
  · simp only [Except.ok.injEq] at h
    subst h
    exact ⟨rfl, rfl, rfl⟩

theorem got_ack_rtt_inv (s s1 : DatagrumpSender) (ts : Nat) (m : ContestMessage)
    (hinv : rtt_inv s) (h : got_ack s ts m = .ok s1) : rtt_inv s1 := by
  obtain ⟨h1, h2, _⟩ := hinv
  obtain ⟨k1, k2, k3⟩ := got_ack_rtt s s1 ts m h
  have hle := ack_min_le_standing s ts m h1
  have hlt : ack_standing s ts m < UINT64 := by
    rcases ack_standing_cases s ts m with c | ⟨c, _⟩
    · rw [c]; exact sub64_lt _ _
    · rw [c]; exact h2
  refine ⟨by rw [k1, k2]; exact hle, by rw [k1]; exact hlt, ?_⟩
  rw [k3, k1, k2, ack_dq, sub64_of_le _ _ hle hlt]

theorem run_rtt_inv (es : List Event) : ∀ (s s1 : DatagrumpSender), rtt_inv s →
    run s es = .ok s1 → rtt_inv s1 := by
  induction es with
  | nil =>
    intro s s1 hinv h
    simp only [run, Except.ok.injEq] at h
    subst h
    exact hinv
  | cons e es ih =>
    intro s s1 hinv h
    cases e with
    | send t b =>
      simp only [run, step] at h
      exact ih (send_datagram s t b) s1 hinv h
    | ack t m =>
      simp only [run, step] at h
      cases hg : got_ack s t m with
      | error f => simp only [hg] at h; exact absurd h (by simp)
      | ok s2 =>
        simp only [hg] at h
        exact ih s2 s1 (got_ack_rtt_inv s s2 t m hinv hg) h

/-- The window after the per-ack rule, with `epsilon = 1/2` and a positive finite window
`w` before the ack: `w + v / (epsilon * w)` if the new `dq` is 0 or
`w / rtt_standing <= 1 / (epsilon * dq)`; otherwise `w - v / (epsilon * w)` if `w > 5`;
otherwise `w`. -/
theorem per_ack_window (s : DatagrumpSender) (ts : Nat) (m : ContestMessage) (w : ℚ)
    (hw : s.cur_window_size_ = .fin w) (hpos : 0 < w) (heps : s.epsilon = 1 / 2)
    (hinv : s.rtt_min_ ≤ s.rtt_standing_) :
    ack_below s ts m = decide (ack_dq s ts m = 0 ∨
      w / (ack_standing s ts m : ℚ) ≤ 1 / (1 / 2 * ack_dq s ts m)) ∧
    ack_window s ts m =
      if ack_dq s ts m = 0 ∨
          w / (ack_standing s ts m : ℚ) ≤ 1 / (1 / 2 * ack_dq s ts m) then
        .fin (w + s.v / (1 / 2 * w))
      else if 5 < w then .fin (w - s.v / (1 / 2 * w))
      else .fin w := by
  have hne : (1 / 2 * w) ≠ 0 := by positivity
  have hdelta : window_delta (.fin w) s.v (1 / 2) = .fin (s.v / (1 / 2 * w)) := by
    simp only [window_delta, XFloat.mul_fin]
    exact XFloat.div_fin _ _ hne
  have hle := ack_min_le_standing s ts m hinv
  have hbelow : ack_below s ts m = decide (ack_dq s ts m = 0 ∨
      w / (ack_standing s ts m : ℚ) ≤ 1 / (1 / 2 * ack_dq s ts m)) := by
    unfold ack_below
    rw [hw, heps]
    by_cases hdq : ack_dq s ts m = 0
    · have hT : lambda_T (1 / 2) (ack_dq s ts m) = .pinf := by
        simp only [lambda_T, XFloat.mul_fin, hdq, mul_zero]
        exact XFloat.div_fin_zero 1 one_pos
      rw [hT]
      simp only [hdq, true_or, decide_True]
      by_cases hrs : ack_standing s ts m = 0
      · simp only [lambda, hrs, Nat.cast_zero]
        rw [XFloat.div_fin_zero w hpos]
        rfl
      · have hrq : ((ack_standing s ts m : Nat) : ℚ) ≠ 0 := by exact_mod_cast hrs
        simp only [lambda]
        rw [XFloat.div_fin _ _ hrq]
        rfl
    · have hrs : ack_standing s ts m ≠ 0 := by
        intro h0
        apply hdq
        have hm0 : ack_rtt_min s ts m = 0 := by omega
        simp only [ack_dq, h0, hm0]
        have : sub64 0 0 = 0 := by decide
        rw [this]
        norm_num
      have hrq : ((ack_standing s ts m : Nat) : ℚ) ≠ 0 := by exact_mod_cast hrs
      have hne2 : (1 / 2 * ack_dq s ts m) ≠ 0 := by
        intro h0
        apply hdq
        linarith
      simp only [lambda, lambda_T, XFloat.mul_fin]
      rw [XFloat.div_fin _ _ hrq, XFloat.div_fin _ _ hne2, XFloat.le_fin]
      simp only [hdq, false_or]
  refine ⟨hbelow, ?_⟩
  unfold ack_window
  rw [hbelow, hw, heps]
  by_cases hc : ack_dq s ts m = 0 ∨
      w / (ack_standing s ts m : ℚ) ≤ 1 / (1 / 2 * ack_dq s ts m)
  · simp only [hc, decide_True, if_true, window_step, hdelta, XFloat.add_fin]
  · simp only [hc, decide_False, if_false, window_step, Bool.false_eq_true, XFloat.lt_fin,
      hdelta]
    by_cases h5 : 5 < w
    · simp only [h5, decide_True, if_true, XFloat.sub_fin]
    · simp only [h5, decide_False, if_false, Bool.false_eq_true]

end Copa

namespace Copa

end Copa

namespace Copa

end Copa

/-! ## Single-precision rounding -/

namespace XFloat

/-- The nearest integer is the floor or the floor plus one, by the fractional part. -/
theorem roundEven_cases (x : ℚ) : roundEven x = ⌊x⌋ ∧ 2 * (x - ⌊x⌋) ≤ 1 ∨
    roundEven x = ⌊x⌋ + 1 ∧ 1 ≤ 2 * (x - ⌊x⌋) := by
  unfold roundEven
  split_ifs with h1 h2 h3
  · exact Or.inl ⟨rfl, h1.le⟩
  · exact Or.inr ⟨rfl, h2.le⟩
  · exact Or.inl ⟨rfl, not_lt.mp h2⟩
  · exact Or.inr ⟨rfl, not_lt.mp h1⟩

/-- Rounding does not pass an integer that lies less than a half below. -/
theorem roundEven_le (x : ℚ) (K : ℤ) (h : x < K + 1 / 2) : roundEven x ≤ K := by
  have hf1 : (⌊x⌋ : ℚ) ≤ x := Int.floor_le x
  rcases roundEven_cases x with ⟨e, _⟩ | ⟨e, c⟩
  · rw [e]
    have : (⌊x⌋ : ℚ) < K + 1 := by linarith
    have : ⌊x⌋ < K + 1 := by exact_mod_cast this
    omega
  · rw [e]
    have : (⌊x⌋ : ℚ) < K := by linarith
    have : ⌊x⌋ < K := by exact_mod_cast this
    omega

/-- Rounding does not pass an integer that lies less than a half above. -/
theorem le_roundEven (x : ℚ) (K : ℤ) (h : (K : ℚ) - 1 / 2 < x) : K ≤ roundEven x := by
  have hf2 : x < (⌊x⌋ : ℚ) + 1 := Int.lt_floor_add_one x
  rcases roundEven_cases x with ⟨e, c⟩ | ⟨e, _⟩
  · rw [e]
    have : (K : ℚ) < ⌊x⌋ + 1 := by linarith
    have : K < ⌊x⌋ + 1 := by exact_mod_cast this
    omega
  · rw [e]
    have : (K : ℚ) < ⌊x⌋ + 1 + 1 := by linarith
    have : K < ⌊x⌋ + 1 + 1 := by exact_mod_cast this
    omega

/-- The nearest integer of a value less than a half away from an integer. -/
theorem roundEven_eq (x : ℚ) (K : ℤ) (h1 : (K : ℚ) - 1 / 2 < x) (h2 : x < K + 1 / 2) :
    roundEven x = K :=
  le_antisymm (roundEven_le x K h2) (le_roundEven x K h1)

/-- The exponent of a value in a normal binade. -/
theorem expo_eq (q : ℚ) (e : ℤ) (h1 : (2 : ℚ) ^ e ≤ |q|) (h2 : |q| < 2 ^ (e + 1))
    (h3 : -126 ≤ e) : expo q = e := by
  have hpos : 0 < |q| := lt_of_lt_of_le (by positivity) h1
  have hb : 1 < 2 := by norm_num
  have k1 : e ≤ Int.log 2 |q| := (Int.zpow_le_iff_le_log hb hpos).mp (by exact_mod_cast h1)
  have k2 : Int.log 2 |q| < e + 1 := (Int.lt_zpow_iff_log_lt hb hpos).mp (by exact_mod_cast h2)
  unfold expo
  omega

/-- A value lies below the top of its binade. -/
theorem lt_expo (q : ℚ) : |q| < 2 ^ (expo q + 1) := by
  have hb : 1 < 2 := by norm_num
  have h := Int.lt_zpow_succ_log_self hb |q|
  have hle : Int.log 2 |q| + 1 ≤ expo q + 1 := by
    unfold expo
    omega
  have : ((2 : ℕ) : ℚ) ^ (Int.log 2 |q| + 1) ≤ ((2 : ℕ) : ℚ) ^ (expo q + 1) :=
    zpow_le_zpow_right₀ (by norm_num) hle
  exact_mod_cast lt_of_lt_of_le h this

/-- Above the subnormal range a nonzero value lies at or above the bottom of its binade. -/
theorem expo_le (q : ℚ) (hq : q ≠ 0) (h : -126 < expo q) : (2 : ℚ) ^ expo q ≤ |q| := by
  have hb : 1 < 2 := by norm_num
  have hlog : expo q = Int.log 2 |q| := by
    unfold expo at h ⊢
    omega
  have hpos : 0 < |q| := abs_pos.mpr hq
  rw [hlog]
  exact_mod_cast Int.zpow_log_le_self hb hpos

/-- The spacing of single-precision values around `q`. -/
theorem spacing_pos (q : ℚ) : (0 : ℚ) < 2 ^ (expo q - 23) := by positivity

/-- The rounded value of a nonnegative value: it is a nonnegative multiple `k` of the
spacing, at most the top of the binade, and at least its bottom above the subnormal
range. -/
theorem nearest32_spec (q : ℚ) (hq : 0 ≤ q) :
    ∃ k : ℤ, nearest32 q = (k : ℚ) * 2 ^ (expo q - 23) ∧ 0 ≤ k ∧
      nearest32 q ≤ 2 ^ (expo q + 1) ∧ 0 ≤ nearest32 q ∧
      (q ≠ 0 → -126 < expo q → (2 : ℚ) ^ expo q ≤ nearest32 q) := by
  have hg := spacing_pos q
  have hsplit : (2 : ℚ) ^ (expo q + 1) = 2 ^ (24 : ℤ) * 2 ^ (expo q - 23) := by
    rw [← zpow_add₀ (by norm_num : (2 : ℚ) ≠ 0)]
    congr 1
    ring
  have hsplit2 : (2 : ℚ) ^ (expo q) = 2 ^ (23 : ℤ) * 2 ^ (expo q - 23) := by
    rw [← zpow_add₀ (by norm_num : (2 : ℚ) ≠ 0)]
    congr 1
    ring
  have habs : |q| = q := abs_of_nonneg hq
  have hlt := lt_expo q
  rw [habs, hsplit] at hlt
  have hz : q / 2 ^ (expo q - 23) < 2 ^ (24 : ℤ) := by
    rw [div_lt_iff₀ hg]
    exact hlt
  have hk0 : 0 ≤ roundEven (q / 2 ^ (expo q - 23)) := by
    apply le_roundEven
    have : 0 ≤ q / 2 ^ (expo q - 23) := by positivity
    norm_num
    linarith
  have hk1 : roundEven (q / 2 ^ (expo q - 23)) ≤ 16777216 := by
    apply roundEven_le
    norm_num at hz ⊢
    linarith
  have hk0q : (0 : ℚ) ≤ (roundEven (q / 2 ^ (expo q - 23)) : ℚ) := by exact_mod_cast hk0
  have hk1q : (roundEven (q / 2 ^ (expo q - 23)) : ℚ) ≤ 16777216 := by exact_mod_cast hk1
  refine ⟨roundEven (q / 2 ^ (expo q - 23)), rfl, hk0, ?_, ?_, ?_⟩
  · unfold nearest32
    rw [hsplit]
    have : ((2 : ℚ) ^ (24 : ℤ)) = 16777216 := by norm_num
    rw [this]
    exact mul_le_mul_of_nonneg_right hk1q hg.le
  · unfold nearest32
    positivity
  · intro hne he
    have hle := expo_le q hne he
    rw [habs, hsplit2] at hle
    have hz2 : (2 : ℚ) ^ (23 : ℤ) ≤ q / 2 ^ (expo q - 23) := by
      rw [le_div_iff₀ hg]
      exact hle
    have hk2 : 8388608 ≤ roundEven (q / 2 ^ (expo q - 23)) := by
      apply le_roundEven
      norm_num at hz2 ⊢
      linarith
    have hk2q : (8388608 : ℚ) ≤ (roundEven (q / 2 ^ (expo q - 23)) : ℚ) := by
      exact_mod_cast hk2
    unfold nearest32
    rw [hsplit2]
    have : ((2 : ℚ) ^ (23 : ℤ)) = 8388608 := by norm_num
    rw [this]
    exact mul_le_mul_of_nonneg_right hk2q hg.le

/-- Zero is a single-precision value. -/
theorem round32_zero : round32 (fin 0) = fin 0 := by
  simp [round32, nearest32, roundEven]

end XFloat

namespace XFloat

/-- The exponent assigned to zero. -/
theorem expo_zero : expo 0 = 0 := by
  simp [expo, Int.log]

/-- A finite rounded value is the nearest multiple of the spacing. -/
theorem round32_fin (q d : ℚ) (h : round32 (fin q) = fin d) : nearest32 q = d := by
  simp only [round32] at h
  split_ifs at h
  simpa using h

/-- A single-precision value below 1000 is at most `1000 - 2^-14`. -/
theorem below_thousand (q d : ℚ) (hq : 0 ≤ q) (hD : round32 (fin q) = fin d)
    (hd : d < 1000) : 0 ≤ d ∧ d ≤ 1000 - 1 / 16384 := by
  have hn := round32_fin q d hD
  obtain ⟨_, _, _, htop, h0, hbot⟩ := nearest32_spec q hq
  rw [hn] at htop h0 hbot
  refine ⟨h0, ?_⟩
  by_cases h8 : expo q ≤ 8
  · have : (2 : ℚ) ^ (expo q + 1) ≤ 2 ^ (9 : ℤ) :=
      zpow_le_zpow_right₀ (by norm_num) (by omega)
    norm_num at this
    linarith
  by_cases h9 : expo q = 9
  · have hd2 : d = (roundEven (q / 2 ^ (expo q - 23)) : ℚ) * 2 ^ (expo q - 23) := by
      rw [← hn, nearest32]
    rw [h9] at hd2
    have hg : (2 : ℚ) ^ ((9 : ℤ) - 23) = 1 / 16384 := by norm_num
    rw [hg] at hd2
    generalize roundEven (q / (1 / 16384)) = k at hd2
    have hk : (k : ℚ) < 16384000 := by
      rw [hd2] at hd
      linarith
    have hk2 : k < 16384000 := by exact_mod_cast hk
    have hk3 : k ≤ 16383999 := by omega
    have hk4 : (k : ℚ) ≤ 16383999 := by exact_mod_cast hk3
    rw [hd2]
    linarith
  · exfalso
    have hq0 : q ≠ 0 := by
      intro h
      rw [h, expo_zero] at h8
      omega
    have h10 : (2 : ℚ) ^ (10 : ℤ) ≤ 2 ^ expo q :=
      zpow_le_zpow_right₀ (by norm_num) (by omega)
    have := hbot hq0 (by omega)
    norm_num at h10
    linarith

/-- The product of a single-precision value below 1000 with 1000 rounds to a value below
one million. -/
theorem sleep_bound (q d : ℚ) (hq : 0 ≤ q) (hD : round32 (fin q) = fin d) (hd : d < 1000) :
    round32 (fin (d * 1000)) = fin (nearest32 (d * 1000)) ∧ 0 ≤ nearest32 (d * 1000) ∧
      nearest32 (d * 1000) < 1000000 := by
  obtain ⟨hd0, hd1⟩ := below_thousand q d hq hD hd
  have hy0 : 0 ≤ d * 1000 := by positivity
  obtain ⟨_, _, _, htop, h0, hbot⟩ := nearest32_spec (d * 1000) hy0
  have hlt : nearest32 (d * 1000) < 1000000 := by
    by_cases h18 : expo (d * 1000) ≤ 18
    · have : (2 : ℚ) ^ (expo (d * 1000) + 1) ≤ 2 ^ (19 : ℤ) :=
        zpow_le_zpow_right₀ (by norm_num) (by omega)
      norm_num at this
      linarith
    by_cases h19 : expo (d * 1000) = 19
    · have hg : (2 : ℚ) ^ ((19 : ℤ) - 23) = 1 / 16 := by norm_num
      have hk : roundEven (d * 1000 / (1 / 16)) ≤ 15999999 := by
        apply roundEven_le
        push_cast
        rw [div_lt_iff₀ (by norm_num)]
        linarith
      have hk2 : (roundEven (d * 1000 / (1 / 16)) : ℚ) ≤ 15999999 := by exact_mod_cast hk
      have hv : nearest32 (d * 1000) = (roundEven (d * 1000 / (1 / 16)) : ℚ) * (1 / 16) := by
        rw [nearest32, h19, hg]
      rw [hv]
      linarith
    · exfalso
      have hq0 : d * 1000 ≠ 0 := by
        intro h
        rw [h, expo_zero] at h18
        omega
      have h20 : (2 : ℚ) ^ (20 : ℤ) ≤ 2 ^ expo (d * 1000) :=
        zpow_le_zpow_right₀ (by norm_num) (by omega)
      have hb := expo_le (d * 1000) hq0 (by omega)
      rw [abs_of_nonneg hy0] at hb
      norm_num at h20
      linarith
  refine ⟨?_, h0, hlt⟩
  have hsmall : ¬ (2 : ℚ) ^ 128 ≤ |nearest32 (d * 1000)| := by
    rw [abs_of_nonneg h0]
    have : (1000000 : ℚ) < 2 ^ 128 := by norm_num
    linarith
  simp only [round32, hsmall, if_false]

end XFloat

namespace XFloat

/-- Rounding of a positive value at a known place: the exponent `e` of its binade and the
integer `k` nearest to it in units of the spacing `g = 2^(e - 23)`. -/
theorem round32_at (q g : ℚ) (e k : ℤ) (hg : g = 2 ^ (e - 23)) (h1 : (2 : ℚ) ^ e ≤ q)
    (h2 : q < 2 ^ (e + 1)) (h3 : -126 ≤ e) (h4 : e ≤ 126) (hk1 : (k : ℚ) - 1 / 2 < q / g)
    (hk2 : q / g < k + 1 / 2) : round32 (fin q) = fin ((k : ℚ) * g) := by
  have hq : 0 < q := lt_of_lt_of_le (by positivity) h1
  have habs : |q| = q := abs_of_pos hq
  have he := expo_eq q e (by rw [habs]; exact h1) (by rw [habs]; exact h2) h3
  have hn : nearest32 q = (k : ℚ) * g := by
    unfold nearest32
    rw [he, ← hg, roundEven_eq _ k hk1 hk2]
  obtain ⟨_, _, _, htop, h0, _⟩ := nearest32_spec q hq.le
  rw [he] at htop
  have hlt : nearest32 q < 2 ^ 128 := by
    have : (2 : ℚ) ^ (e + 1) ≤ 2 ^ (127 : ℤ) :=
      zpow_le_zpow_right₀ (by norm_num) (by omega)
    have h127 : ((2 : ℚ) ^ (127 : ℤ)) < 2 ^ 128 := by norm_num
    linarith
  rw [hn] at hlt h0
  simp only [round32, hn, abs_of_nonneg h0, not_le.mpr hlt, if_false]

/-- Truncation of a value between 0 and a million. -/
theorem toUSeconds_fin (x : ℚ) (h0 : 0 ≤ x) (h1 : x < 1000000) :
    toUSeconds (fin x) = some (Int.toNat ⌊x⌋) := by
  have hneg : -1 < x := by linarith
  have hmax : x < (4294967296 : ℚ) := by linarith
  simp only [toUSeconds, hneg, hmax, and_self, if_true]

/-- A nonnegative value rounds to a nonnegative value, or overflows to the positive
infinity when the nearest multiple of the spacing is `2^128` or more. -/
theorem round32_nonneg (q : ℚ) (hq : 0 ≤ q) :
    round32 (fin q) = pinf ∧ (2 : ℚ) ^ 128 ≤ nearest32 q ∨
      round32 (fin q) = fin (nearest32 q) ∧ 0 ≤ nearest32 q := by
  obtain ⟨_, _, _, _, h0, _⟩ := nearest32_spec q hq
  by_cases hov : (2 : ℚ) ^ 128 ≤ |nearest32 q|
  · left
    have hpos : 0 < q := by
      rcases eq_or_lt_of_le hq with h | h
      · exfalso
        rw [← h] at hov
        have : nearest32 0 = 0 := by simp [nearest32, roundEven]
        rw [this] at hov
        norm_num at hov
      · exact h
    refine ⟨by simp only [round32, hov, if_true, hpos], ?_⟩
    rwa [abs_of_nonneg h0] at hov
  · right
    exact ⟨by simp only [round32, hov, if_false], h0⟩

end XFloat

/-! ## Copa sender: pacing -/

namespace Copa

/-- The elapsed time, as a float, is not negative. -/
theorem cur_pace_nonneg (s : DatagrumpSender) (t : Nat) (e : ℚ)
    (he : cur_pace s t = .fin e) : 0 ≤ e := by
  have h := XFloat.round32_fin _ e he
  obtain ⟨_, _, _, _, h0, _⟩ :=
    XFloat.nearest32_spec ((sub64 t s.last_sent_timestamp_ : Nat) : ℚ) (Nat.cast_nonneg _)
  rw [h] at h0
  exact h0

/-- The sleep requested for a finite target gap `p` after `e` elapsed milliseconds: if
`e < p` and the rounded difference is below 1000, the whole microseconds of the rounded
product of the rounded difference with 1000, which is below a million; none otherwise. -/
theorem pacing_of_fin (s : DatagrumpSender) (t : Nat) (p e : ℚ) (hp : pace s = .fin p)
    (he : cur_pace s t = .fin e) :
    pacing_usec s t =
      some (if e < p ∧ XFloat.nearest32 (p - e) < 1000 then
              Int.toNat ⌊XFloat.nearest32 (XFloat.nearest32 (p - e) * 1000)⌋
            else 0) ∧
    (e < p → XFloat.nearest32 (p - e) < 1000 →
      0 ≤ XFloat.nearest32 (XFloat.nearest32 (p - e) * 1000) ∧
      XFloat.nearest32 (XFloat.nearest32 (p - e) * 1000) < 1000000) := by
  by_cases h1 : e < p
  · have hpe : 0 ≤ p - e := by linarith
    rcases XFloat.round32_nonneg (p - e) hpe with ⟨hr, hbig⟩ | ⟨hr, h0⟩
    · have hn : ¬ XFloat.nearest32 (p - e) < 1000 := by
        have : (1000 : ℚ) < 2 ^ 128 := by norm_num
        linarith
      refine ⟨?_, fun _ h => absurd h hn⟩
      simp only [pacing_usec, hp, he, XFloat.sub_fin, hr, XFloat.lt, hn, and_false, if_false,
        Bool.false_eq_true]
    · by_cases h2 : XFloat.nearest32 (p - e) < 1000
      · obtain ⟨k1, k2, k3⟩ := XFloat.sleep_bound (p - e) _ hpe hr h2
        refine ⟨?_, fun _ _ => ⟨k2, k3⟩⟩
        simp only [pacing_usec, hp, he, XFloat.sub_fin, hr, XFloat.lt_fin, h1, h2,
          decide_True, and_self, if_true, XFloat.mul_fin, k1]
        exact XFloat.toUSeconds_fin _ k2 k3
      · refine ⟨?_, fun _ h => absurd h h2⟩
        simp only [pacing_usec, hp, he, XFloat.sub_fin, hr, XFloat.lt_fin, h2, decide_False,
          and_false, if_false, Bool.false_eq_true]
  · refine ⟨?_, fun h => absurd h h1⟩
    simp only [pacing_usec, hp, he, XFloat.lt_fin, h1, decide_False, false_and, if_false,
      Bool.false_eq_true]

/-- The requested sleep is always defined and below one second. -/
theorem pacing_total (s : DatagrumpSender) (t : Nat) :
    ∃ d, pacing_usec s t = some d ∧ d < 1000000 := by
  cases hp : pace s with
  | nan =>
    refine ⟨0, ?_, by norm_num⟩
    cases he : cur_pace s t <;> simp [pacing_usec, hp, he, XFloat.lt]
  | ninf =>
    refine ⟨0, ?_, by norm_num⟩
    cases he : cur_pace s t <;> simp [pacing_usec, hp, he, XFloat.lt]
  | pinf =>
    refine ⟨0, ?_, by norm_num⟩
    cases he : cur_pace s t <;>
      simp [pacing_usec, hp, he, XFloat.lt, XFloat.sub, XFloat.neg, XFloat.add,
        XFloat.round32]
  | fin p =>
    cases he : cur_pace s t with
    | nan => exact ⟨0, by simp [pacing_usec, hp, he, XFloat.lt], by norm_num⟩
    | pinf => exact ⟨0, by simp [pacing_usec, hp, he, XFloat.lt], by norm_num⟩
    | ninf =>
      exact ⟨0, by simp [pacing_usec, hp, he, XFloat.lt, XFloat.sub, XFloat.neg, XFloat.add,
        XFloat.round32], by norm_num⟩
    | fin e =>
      obtain ⟨hform, hb⟩ := pacing_of_fin s t p e hp he
      refine ⟨_, hform, ?_⟩
      split_ifs with hc
      · obtain ⟨b0, b1⟩ := hb hc.1 hc.2
        have hfl : ⌊XFloat.nearest32 (XFloat.nearest32 (p - e) * 1000)⌋ < 1000000 := by
          rw [Int.floor_lt]
          exact_mod_cast b1
        have hfl0 := Int.floor_nonneg.mpr b0
        omega
      · norm_num

end Copa

namespace Copa

/-- The requested sleep from the single-precision values of the steps of `send_datagram`:
the doubled window `a`, the standing RTT `b`, the target gap `p`, the elapsed time `e`,
the difference `g` and the product `y`. -/
theorem pacing_at (s : DatagrumpSender) (t : Nat) (w a b p e g y : ℚ) (n : Nat)
    (hw : s.cur_window_size_ = .fin w)
    (h1 : XFloat.round32 (.fin (2 * w)) = .fin a)
    (h2 : XFloat.round32 (.fin (s.rtt_standing_ : ℚ)) = .fin b) (hb : b ≠ 0)
    (h3 : XFloat.round32 (.fin (a / b)) = .fin p)
    (h4 : XFloat.round32 (.fin ((sub64 t s.last_sent_timestamp_ : Nat) : ℚ)) = .fin e)
    (h5 : e < p) (h6 : XFloat.round32 (.fin (p - e)) = .fin g) (h7 : g < 1000)
    (h8 : XFloat.round32 (.fin (g * 1000)) = .fin y) (h9 : ⌊y⌋ = (n : Int)) :
    pace s = .fin p ∧ cur_pace s t = .fin e ∧ pacing_usec s t = some n := by
  have hp : pace s = .fin p := by
    simp only [pace, hw, XFloat.mul_fin, h1, h2, XFloat.div_fin _ _ hb, h3]
  have he : cur_pace s t = .fin e := h4
  refine ⟨hp, he, ?_⟩
  rw [(pacing_of_fin s t p e hp he).1]
  have k1 := XFloat.round32_fin _ _ h6
  have k2 := XFloat.round32_fin _ _ h8
  rw [k1, k2, h9]
  simp only [h5, h7, and_self, if_true, Int.toNat_ofNat]

/-- At window 20 and standing RTT 100 ms, with no time elapsed, the sleep is 400
microseconds. -/
theorem pacing_fast_link (s : DatagrumpSender) (t : Nat)
    (hw : s.cur_window_size_ = .fin 20) (hrs : s.rtt_standing_ = 100)
    (he : sub64 t s.last_sent_timestamp_ = 0) :
    pace s = .fin (13421773 / 33554432) ∧ pacing_usec s t = some 400 := by
  have r1 : XFloat.round32 (.fin (2 * 20)) = .fin 40 := by
    have h := XFloat.round32_at 40 (1 / 262144) 5 10485760 (by norm_num) (by norm_num)
      (by norm_num) (by norm_num) (by norm_num) (by norm_num) (by norm_num)
    norm_num at h ⊢
    exact h
  have r2 : XFloat.round32 (.fin (s.rtt_standing_ : ℚ)) = .fin 100 := by
    have h := XFloat.round32_at 100 (1 / 131072) 6 13107200 (by norm_num) (by norm_num)
      (by norm_num) (by norm_num) (by norm_num) (by norm_num) (by norm_num)
    rw [hrs]
    norm_num at h ⊢
    exact h
  have r3 : XFloat.round32 (.fin (40 / 100)) = .fin (13421773 / 33554432) := by
    have h := XFloat.round32_at (2 / 5) (1 / 33554432) (-2) 13421773 (by norm_num)
      (by norm_num) (by norm_num) (by norm_num) (by norm_num) (by norm_num) (by norm_num)
    norm_num at h ⊢
    exact h
  have r4 : XFloat.round32 (.fin ((sub64 t s.last_sent_timestamp_ : Nat) : ℚ)) = .fin 0 := by
    rw [he]
    exact_mod_cast XFloat.round32_zero
  have r6 : XFloat.round32 (.fin (13421773 / 33554432 - 0)) = .fin (13421773 / 33554432) := by
    have h := XFloat.round32_at (13421773 / 33554432) (1 / 33554432) (-2) 13421773
      (by norm_num) (by norm_num) (by norm_num) (by norm_num) (by norm_num) (by norm_num)
      (by norm_num)
    norm_num at h ⊢
    exact h
  have r8 : XFloat.round32 (.fin (13421773 / 33554432 * 1000)) = .fin 400 := by
    have h := XFloat.round32_at (13421773 / 33554432 * 1000) (1 / 32768) 8 13107200
      (by norm_num) (by norm_num) (by norm_num) (by norm_num) (by norm_num) (by norm_num)
      (by norm_num)
    norm_num at h ⊢
    exact h
  obtain ⟨k1, _, k3⟩ := pacing_at s t 20 40 100 (13421773 / 33554432) 0
    (13421773 / 33554432) 400 400 hw r1 r2 (by norm_num) r3 r4 (by norm_num) r6
    (by norm_num) r8 (by norm_num)
  exact ⟨k1, k3⟩

end Copa

namespace Copa

/-- At window 2 and standing RTT 1000 ms, with no time elapsed, the target gap is the
single-precision value nearest to 1/250 and the sleep is 4 microseconds. -/
theorem pacing_slow_link (s : DatagrumpSender) (t : Nat)
    (hw : s.cur_window_size_ = .fin 2) (hrs : s.rtt_standing_ = 1000)
    (he : sub64 t s.last_sent_timestamp_ = 0) :
    XFloat.round32 (.fin (1 / 250)) = .fin (8589935 / 2147483648) ∧
      pace s = .fin (8589935 / 2147483648) ∧ pacing_usec s t = some 4 := by
  have r1 : XFloat.round32 (.fin (2 * 2)) = .fin 4 := by
    have h := XFloat.round32_at 4 (1 / 2097152) 2 8388608 (by norm_num) (by norm_num)
      (by norm_num) (by norm_num) (by norm_num) (by norm_num) (by norm_num)
    norm_num at h ⊢
    exact h
  have r2 : XFloat.round32 (.fin (s.rtt_standing_ : ℚ)) = .fin 1000 := by
    have h := XFloat.round32_at 1000 (1 / 16384) 9 16384000 (by norm_num) (by norm_num)
      (by norm_num) (by norm_num) (by norm_num) (by norm_num) (by norm_num)
    rw [hrs]
    norm_num at h ⊢
    exact h
  have r0 : XFloat.round32 (.fin (1 / 250)) = .fin (8589935 / 2147483648) := by
    have h := XFloat.round32_at (1 / 250) (1 / 2147483648) (-8) 8589935 (by norm_num)
      (by norm_num) (by norm_num) (by norm_num) (by norm_num) (by norm_num) (by norm_num)
    norm_num at h ⊢
    exact h
  have r3 : XFloat.round32 (.fin (4 / 1000)) = .fin (8589935 / 2147483648) := by
    have e : (4 / 1000 : ℚ) = 1 / 250 := by norm_num
    rw [e]
    exact r0
  have r4 : XFloat.round32 (.fin ((sub64 t s.last_sent_timestamp_ : Nat) : ℚ)) = .fin 0 := by
    rw [he]
    exact_mod_cast XFloat.round32_zero
  have r6 : XFloat.round32 (.fin (8589935 / 2147483648 - 0)) =
      .fin (8589935 / 2147483648) := by
    have h := XFloat.round32_at (8589935 / 2147483648) (1 / 2147483648) (-8) 8589935
      (by norm_num) (by norm_num) (by norm_num) (by norm_num) (by norm_num) (by norm_num)
      (by norm_num)
    norm_num at h ⊢
    exact h
  have r8 : XFloat.round32 (.fin (8589935 / 2147483648 * 1000)) = .fin 4 := by
    have h := XFloat.round32_at (8589935 / 2147483648 * 1000) (1 / 2097152) 2 8388608
      (by norm_num) (by norm_num) (by norm_num) (by norm_num) (by norm_num) (by norm_num)
      (by norm_num)
    norm_num at h ⊢
    exact h
  obtain ⟨k1, _, k3⟩ := pacing_at s t 2 4 1000 (8589935 / 2147483648) 0
    (8589935 / 2147483648) 4 4 hw r1 r2 (by norm_num) r3 r4 (by norm_num) r6
    (by norm_num) r8 (by norm_num)
  exact ⟨r0, k1, k3⟩

/-- At window 7 and standing RTT 10 ms, one millisecond after the previous send, the target
gap is the single-precision value nearest to 7/5, the difference is below 2/5 and the sleep
is 399 microseconds. -/
theorem pacing_rounded_gap :
    pace rounded_gap = .fin (11744051 / 8388608) ∧ cur_pace rounded_gap 1 = .fin 1 ∧
      pacing_usec rounded_gap 1 = some 399 := by
  have r1 : XFloat.round32 (.fin (2 * 7)) = .fin 14 := by
    have h := XFloat.round32_at 14 (1 / 1048576) 3 14680064 (by norm_num) (by norm_num)
      (by norm_num) (by norm_num) (by norm_num) (by norm_num) (by norm_num)
    norm_num at h ⊢
    exact h
  have r2 : XFloat.round32 (.fin (rounded_gap.rtt_standing_ : ℚ)) = .fin 10 := by
    have h := XFloat.round32_at 10 (1 / 1048576) 3 10485760 (by norm_num) (by norm_num)
      (by norm_num) (by norm_num) (by norm_num) (by norm_num) (by norm_num)
    have e : rounded_gap.rtt_standing_ = 10 := rfl
    rw [e]
    norm_num at h ⊢
    exact h
  have r3 : XFloat.round32 (.fin (14 / 10)) = .fin (11744051 / 8388608) := by
    have h := XFloat.round32_at (7 / 5) (1 / 8388608) 0 11744051 (by norm_num)
      (by norm_num) (by norm_num) (by norm_num) (by norm_num) (by norm_num) (by norm_num)
    norm_num at h ⊢
    exact h
  have r4 : XFloat.round32
      (.fin ((sub64 1 rounded_gap.last_sent_timestamp_ : Nat) : ℚ)) = .fin 1 := by
    have h := XFloat.round32_at 1 (1 / 8388608) 0 8388608 (by norm_num)
      (by norm_num) (by norm_num) (by norm_num) (by norm_num) (by norm_num) (by norm_num)
    have e : sub64 1 rounded_gap.last_sent_timestamp_ = 1 := by decide
    rw [e]
    norm_num at h ⊢
    exact h
  have r6 : XFloat.round32 (.fin (11744051 / 8388608 - 1)) = .fin (3355443 / 8388608) := by
    have h := XFloat.round32_at (3355443 / 8388608) (1 / 33554432) (-2) 13421772
      (by norm_num) (by norm_num) (by norm_num) (by norm_num) (by norm_num) (by norm_num)
      (by norm_num)
    norm_num at h ⊢
    exact h
  have r8 : XFloat.round32 (.fin (3355443 / 8388608 * 1000)) = .fin (13107199 / 32768) := by
    have h := XFloat.round32_at (3355443 / 8388608 * 1000) (1 / 32768) 8 13107199
      (by norm_num) (by norm_num) (by norm_num) (by norm_num) (by norm_num) (by norm_num)
      (by norm_num)
    norm_num at h ⊢
    exact h
  exact pacing_at rounded_gap 1 7 14 10 (11744051 / 8388608) 1 (3355443 / 8388608)
    (13107199 / 32768) 399 rfl r1 r2 (by norm_num) r3 r4 (by norm_num) r6 (by norm_num) r8
    (Int.floor_eq_iff.mpr ⟨by norm_num, by norm_num⟩)

/-- At window 1 and standing RTT 4096 ms, with no time elapsed, the target gap is
`2^-11` ms, less than half a microsecond, and the sleep is 0. -/
theorem pacing_short_gap :
    pace short_gap = .fin (1 / 2048) ∧ cur_pace short_gap 0 = .fin 0 ∧
      pacing_usec short_gap 0 = some 0 := by
  have r1 : XFloat.round32 (.fin (2 * 1)) = .fin 2 := by
    have h := XFloat.round32_at 2 (1 / 4194304) 1 8388608 (by norm_num) (by norm_num)
      (by norm_num) (by norm_num) (by norm_num) (by norm_num) (by norm_num)
    norm_num at h ⊢
    exact h
  have r2 : XFloat.round32 (.fin (short_gap.rtt_standing_ : ℚ)) = .fin 4096 := by
    have h := XFloat.round32_at 4096 (1 / 2048) 12 8388608 (by norm_num) (by norm_num)
      (by norm_num) (by norm_num) (by norm_num) (by norm_num) (by norm_num)
    have e : short_gap.rtt_standing_ = 4096 := rfl
    rw [e]
    norm_num at h ⊢
    exact h
  have r3 : XFloat.round32 (.fin (2 / 4096)) = .fin (1 / 2048) := by
    have h := XFloat.round32_at (1 / 2048) (1 / 17179869184) (-11) 8388608 (by norm_num)
      (by norm_num) (by norm_num) (by norm_num) (by norm_num) (by norm_num) (by norm_num)
    norm_num at h ⊢
    exact h
  have r4 : XFloat.round32
      (.fin ((sub64 0 short_gap.last_sent_timestamp_ : Nat) : ℚ)) = .fin 0 := by
    have e : sub64 0 short_gap.last_sent_timestamp_ = 0 := by decide
    rw [e]
    exact_mod_cast XFloat.round32_zero
  have r6 : XFloat.round32 (.fin (1 / 2048 - 0)) = .fin (1 / 2048) := by
    have h := XFloat.round32_at (1 / 2048) (1 / 17179869184) (-11) 8388608 (by norm_num)
      (by norm_num) (by norm_num) (by norm_num) (by norm_num) (by norm_num) (by norm_num)
    norm_num at h ⊢
    exact h
  have r8 : XFloat.round32 (.fin (1 / 2048 * 1000)) = .fin (125 / 256) := by
    have h := XFloat.round32_at (125 / 256) (1 / 33554432) (-2) 16384000 (by norm_num)
      (by norm_num) (by norm_num) (by norm_num) (by norm_num) (by norm_num) (by norm_num)
    norm_num at h ⊢
    exact h
  exact pacing_at short_gap 0 1 2 4096 (1 / 2048) 0 (1 / 2048) (125 / 256) 0 rfl r1 r2
    (by norm_num) r3 r4 (by norm_num) r6 (by norm_num) r8
    (Int.floor_eq_iff.mpr ⟨by norm_num, by norm_num⟩)

end Copa

namespace Copa

/-- A target gap that is not finite requests no sleep. -/
theorem pacing_not_finite (s : DatagrumpSender) (t : Nat)
    (h : pace s = .pinf ∨ pace s = .ninf ∨ pace s = .nan) : pacing_usec s t = some 0 := by
  rcases h with hp | hp | hp <;> cases he : cur_pace s t <;>
    simp [pacing_usec, hp, he, XFloat.lt, XFloat.sub, XFloat.neg, XFloat.add, XFloat.round32]

/-- Claim C11 as stated fails: the sleep is not `pace - e` milliseconds. With window 1 and
standing RTT 4096 ms the target gap is `2^-11` ms and no time has elapsed, so the claimed
delay is `2^-11` ms, but `usleep` takes whole microseconds and is asked for 0. With window
7, standing RTT 10 ms and 1 ms elapsed the claimed delay is `2 * 7 / 10 - 1 = 0.4` ms, that
is 400 microseconds, but the single-precision difference is below 0.4 and `usleep` is asked
for 399. -/
theorem c11_sleep_is_not_the_gap :
    0 < short_gap.rtt_standing_ ∧ pace short_gap = .fin (1 / 2048) ∧
      cur_pace short_gap 0 = .fin 0 ∧ pacing_usec short_gap 0 = some 0 ∧
      (1 / 2048 - 0 : ℚ) * 1000 ≠ 0 ∧
    0 < rounded_gap.rtt_standing_ ∧ cur_pace rounded_gap 1 = .fin 1 ∧
      pacing_usec rounded_gap 1 = some 399 ∧ (2 * 7 / 10 - 1 : ℚ) * 1000 = 400 := by
  obtain ⟨a1, a2, a3⟩ := pacing_short_gap
  obtain ⟨_, b2, b3⟩ := pacing_rounded_gap
  exact ⟨by decide, a1, a2, a3, by norm_num, by decide, b2, b3, by norm_num⟩

/-- Claim C11, amended: in every state and at every clock reading `send_datagram` asks
`usleep` for a defined number `d` of microseconds below one million. With a finite target
gap `p` (the single-precision value of `2 * cur_window_size_ / rtt_standing_`) and `e` the
elapsed milliseconds as a float, `d` is the whole microseconds of the single-precision
product of the single-precision difference `p - e` with 1000 when `e < p` and that
difference is below 1000, and 0 otherwise; a target gap that is not finite gives 0; with
window 20, standing RTT 100 ms and no time elapsed it is 400 microseconds. -/
theorem c11_pacing_delay (s : DatagrumpSender) (t : Nat) :
    (∃ d, pacing_usec s t = some d ∧ d < 1000000) ∧
    (∀ p e : ℚ, pace s = .fin p → cur_pace s t = .fin e →
      0 ≤ e ∧
      pacing_usec s t =
        some (if e < p ∧ XFloat.nearest32 (p - e) < 1000 then
                Int.toNat ⌊XFloat.nearest32 (XFloat.nearest32 (p - e) * 1000)⌋
              else 0)) ∧
    (pace s = .pinf ∨ pace s = .ninf ∨ pace s = .nan → pacing_usec s t = some 0) ∧
    (s.cur_window_size_ = .fin 20 → s.rtt_standing_ = 100 →
      sub64 t s.last_sent_timestamp_ = 0 → pacing_usec s t = some 400) := by
  refine ⟨pacing_total s t, ?_, pacing_not_finite s t, ?_⟩
  · intro p e hp he
    exact ⟨cur_pace_nonneg s t e he, (pacing_of_fin s t p e hp he).1⟩
  · intro hw hrs he
    exact (pacing_fast_link s t hw hrs he).2

/-- Claim C11, amended, at window 20 and standing RTT 100: the sleep is 400 microseconds. -/
theorem c11_pacing_delay_witness :
    0 < fast_link.rtt_standing_ ∧ pacing_usec fast_link 0 = some 400 :=
  ⟨by decide, (c11_pacing_delay fast_link 0).2.2.2 rfl rfl (by decide)⟩

/-- Claim C12 as stated fails: with window 2, standing RTT 1000 ms and no time elapsed
since the previous send, the sleep that `send_datagram` requests is 4 microseconds
(`2 * 2 / 1000 = 0.004` ms), not between 500 and 2000 microseconds. -/
theorem c12_slow_link_sleep_is_four_microseconds :
    slow_link.cur_window_size_ = .fin 2 ∧ slow_link.rtt_standing_ = 1000 ∧
      sub64 5000 slow_link.last_sent_timestamp_ = 0 ∧
      pacing_usec slow_link 5000 = some 4 ∧ ¬ (500 ≤ 4 ∧ 4 ≤ 2000) := by
  have he : sub64 5000 slow_link.last_sent_timestamp_ = 0 := by decide
  exact ⟨rfl, rfl, he, (pacing_slow_link slow_link 5000 rfl rfl he).2.2, by decide⟩

/-- Claim C12, amended: with window 2, standing RTT 1000 ms and no time elapsed since the
previous send, the target gap is the single-precision value of `2 * 2 / 1000 = 1/250` ms
and the sleep that `send_datagram` requests before the send is 4 microseconds. -/
theorem c12_slow_link_pacing (s : DatagrumpSender) (t : Nat)
    (hw : s.cur_window_size_ = .fin 2) (hrs : s.rtt_standing_ = 1000)
    (he : sub64 t s.last_sent_timestamp_ = 0) :
    pace s = XFloat.round32 (.fin (1 / 250)) ∧ pace s = .fin (8589935 / 2147483648) ∧
      pacing_usec s t = some 4 := by
  obtain ⟨h0, h1, h2⟩ := pacing_slow_link s t hw hrs he
  exact ⟨h1.trans h0.symm, h1, h2⟩

/-- Claim C12, amended, at the slow-link state. -/
theorem c12_slow_link_pacing_witness :
    slow_link.cur_window_size_ = .fin 2 ∧ slow_link.rtt_standing_ = 1000 ∧
      pace slow_link = XFloat.round32 (.fin (1 / 250)) ∧
      pacing_usec slow_link 5000 = some 4 :=
  ⟨rfl, rfl, (c12_slow_link_pacing slow_link 5000 rfl rfl (by decide)).1,
    (c12_slow_link_pacing slow_link 5000 rfl rfl (by decide)).2.2⟩

end Copa

/-! ## Copa sender: more on bracketed runs -/

namespace Copa

/-- Under a bracket whose interval test is settled, the ack starts a new standing-RTT
interval and the bracket settles `lambda <= lambda_T` as `got_ack` does. -/
theorem below_view_sound (b : Bracket) (s : DatagrumpSender) (ts : Nat) (m : ContestMessage)
    (bl : Bool) (hh : b.holds s) (hgap : b.srtt_hi ≤ 2 * sub64 ts b.tau_start_)
    (hrtt : 0 < sub64 ts m.ack_send_timestamp)
    (hbel : b.below (sub64 ts m.ack_send_timestamp) (sub64 (sub64 ts m.ack_send_timestamp)
      (if sub64 ts m.ack_send_timestamp < b.rtt_min_ then sub64 ts m.ack_send_timestamp
        else b.rtt_min_)) = some bl) :
    ack_below s ts m = bl := by
  obtain ⟨q, hw, h1, h2, _, heps, hsrtt, _, htau, hrmin, _⟩ := hh
  have hst : standing_update s ts (sub64 ts m.ack_send_timestamp) =
      (sub64 ts m.ack_send_timestamp, ts) := by
    have hge : ((sub64 ts s.tau_start_ : Nat) : ℚ) ≥ s.srtt_ / 2 := by
      rw [htau]
      have : ((b.srtt_hi : Nat) : ℚ) ≤ ((2 * sub64 ts b.tau_start_ : Nat) : ℚ) := by
        exact_mod_cast hgap
      push_cast at this
      show s.srtt_ / 2 ≤ _
      linarith
    simp only [standing_update, hge, if_true]
  have hstanding : ack_standing s ts m = sub64 ts m.ack_send_timestamp := by
    simp only [ack_standing, hst]
  have hrmin1 : ack_rtt_min s ts m =
      (if sub64 ts m.ack_send_timestamp < b.rtt_min_ then sub64 ts m.ack_send_timestamp
        else b.rtt_min_) := by
    simp only [ack_rtt_min, hrmin]
  simp only [ack_below, ack_dq, hstanding, hrmin1, hw, heps]
  exact below_sound b q _ _ bl hrtt h2 h1 hbel

/-- The bracket follows the per-ack rule and the epoch test of `got_ack`. -/
theorem window_view_sound (b : Bracket) (s : DatagrumpSender) (ts : Nat) (m : ContestMessage)
    (w1 : Int × Int) (hh : b.holds s) (hlo : 0 < b.lo)
    (hwin : b.window (ack_below s ts m) = some w1) :
    ∃ q1 : ℚ, ack_window s ts m = .fin q1 ∧ (w1.1 : ℚ) ≤ q1 * (SCALE : ℚ) ∧
      q1 * (SCALE : ℚ) ≤ (w1.2 : ℚ) ∧
      ∀ e, Bracket.epoch w1.1 w1.2 (add64 b.packet_count_ 1) = some e →
        epoch_fires s ts m = e := by
  obtain ⟨q, hw, h1, h2, hv, heps, _, _, _, _, _, hpc, _⟩ := hh
  obtain ⟨q1, hq1, hq1lo, hq1hi⟩ := window_sound b q _ w1 hlo h1 h2 hwin
  have hwindow : ack_window s ts m = .fin q1 := by
    simp only [ack_window, hw, hv, heps]
    exact hq1
  refine ⟨q1, hwindow, hq1lo, hq1hi, ?_⟩
  intro e he
  simp only [epoch_fires, hwindow, hpc]
  exact epoch_sound w1.1 w1.2 q1 _ e hq1lo hq1hi he

/-- An ack with the rate above the target at a window of at most 5 returns the window as it
was. -/
theorem got_ack_stuck (s s1 : DatagrumpSender) (ts : Nat) (m : ContestMessage) (q : ℚ)
    (hw : s.cur_window_size_ = .fin q) (h5 : q ≤ 5) (hbl : ack_below s ts m = false)
    (h : got_ack s ts m = .ok s1) : s1.cur_window_size_ = s.cur_window_size_ := by
  have hack := got_ack_ok_is_ack s ts m s1 h
  have hwindow : ack_window s ts m = s.cur_window_size_ := by
    have hn : ¬ 5 < q := not_lt.mpr h5
    simp only [ack_window, hbl, hw, window_step, Bool.false_eq_true, if_false, XFloat.lt_fin,
      hn, decide_False]
  have hepoch : epoch_window s ts m = s.cur_window_size_ := by
    simp only [epoch_window, slow_start_update, hbl, hwindow, Bool.false_eq_true, if_false]
    split_ifs <;> rfl
  rw [got_ack_eq s ts m hack] at h
  split_ifs at h
  · simp only [Except.ok.injEq] at h
    subst h
    exact hepoch
  · simp only [Except.ok.injEq] at h
    subst h
    exact hwindow

/-- One ack that the bracket shows stuck: `got_ack` returns a state under the new bracket
with the window it had. -/
theorem stuck_sound (b b1 : Bracket) (s : DatagrumpSender) (ts : Nat) (m : ContestMessage)
    (hh : b.holds s) (hst : b.stuck ts m = true) (hb : b.ack ts m = some b1) :
    ∃ s1, got_ack s ts m = .ok s1 ∧ b1.holds s1 ∧
      s1.cur_window_size_ = s.cur_window_size_ := by
  obtain ⟨s1, hs1, hh1⟩ := ack_sound b b1 s ts m hh hb
  refine ⟨s1, hs1, hh1, ?_⟩
  by_cases hc : m.is_ack = true ∧ b.srtt_hi ≤ 2 * sub64 ts b.tau_start_ ∧
      0 < sub64 ts m.ack_send_timestamp ∧ 0 < b.lo
  swap
  · simp only [Bracket.ack, if_neg hc] at hb
    exact absurd hb (by simp)
  obtain ⟨_, hgap, hrtt, _⟩ := hc
  simp only [Bracket.stuck, decide_eq_true_eq] at hst
  have hbl := below_view_sound b s ts m false hh hgap hrtt hst.2
  obtain ⟨q, hw, _, h2, _⟩ := hh
  have h5 : q ≤ 5 := by
    have c : (b.hi : ℚ) ≤ 5 * (SCALE : ℚ) := by exact_mod_cast hst.1
    exact le_of_mul_le_mul_right (le_trans h2 c) scale_pos
  exact got_ack_stuck s s1 ts m q hw h5 hbl hs1

/-- A run of acks that the bracket shows stuck returns a state under the last bracket with
the window of the first state. -/
theorem run_stuck_sound (es : List Event) : ∀ (b b1 : Bracket) (s : DatagrumpSender),
    b.holds s → Bracket.run_stuck b es = some b1 →
    ∃ s1, run s es = .ok s1 ∧ b1.holds s1 ∧ s1.cur_window_size_ = s.cur_window_size_ := by
  induction es with
  | nil =>
    intro b b1 s hh hb
    simp only [Bracket.run_stuck, Option.some.injEq] at hb
    subst hb
    exact ⟨s, rfl, hh, rfl⟩
  | cons e es ih =>
    intro b b1 s hh hb
    cases e with
    | send t f => simp only [Bracket.run_stuck] at hb; exact absurd hb (by simp)
    | ack t m =>
      simp only [Bracket.run_stuck] at hb
      by_cases hst : b.stuck t m = true
      swap
      · simp only [if_neg hst] at hb
        exact absurd hb (by simp)
      simp only [if_pos hst] at hb
      cases hba : b.ack t m with
      | none => simp only [hba] at hb; exact absurd hb (by simp)
      | some b2 =>
        simp only [hba] at hb
        obtain ⟨s2, hs2, hh2, hw2⟩ := stuck_sound b b2 s t m hh hst hba
        obtain ⟨s1, hs1, hh1, hw1⟩ := ih b2 b1 s2 hh2 hb
        exact ⟨s1, by simp only [run, step, hs2, hs1], hh1, hw1.trans hw2⟩

/-- Every ack returns a state: the only `throw` of `got_ack` is the one on a message that
is not an ack. -/
theorem got_ack_total (s : DatagrumpSender) (ts : Nat) (m : ContestMessage)
    (hack : m.is_ack = true) : ∃ s1, got_ack s ts m = .ok s1 := by
  rw [got_ack_eq s ts m hack]
  split_ifs
  · exact ⟨_, rfl⟩
  · exact ⟨_, rfl⟩

/-- A run in which every received message is an ack returns a state. -/
theorem run_total (es : List Event) : ∀ s : DatagrumpSender, all_acks es = true →
    ∃ s1, run s es = .ok s1 := by
  induction es with
  | nil => intro s _; exact ⟨s, rfl⟩
  | cons e es ih =>
    intro s h
    cases e with
    | send t b =>
      obtain ⟨s1, hs1⟩ := ih (send_datagram s t b) h
      exact ⟨s1, by simp only [run, step, hs1]⟩
    | ack t m =>
      simp only [all_acks, Bool.and_eq_true] at h
      obtain ⟨s2, hs2⟩ := got_ack_total s t m h.1
      obtain ⟨s1, hs1⟩ := ih s2 h.2
      exact ⟨s1, by simp only [run, step, hs2, hs1]⟩

/-- A run that returns a state received acks only. -/
theorem run_ok_all_acks (es : List Event) : ∀ s s1 : DatagrumpSender,
    run s es = .ok s1 → all_acks es = true := by
  induction es with
  | nil => intro _ _ _; rfl
  | cons e es ih =>
    intro s s1 h
    cases e with
    | send t b =>
      simp only [run, step] at h
      exact ih _ s1 h
    | ack t m =>
      simp only [run, step] at h
      cases hg : got_ack s t m with
      | error f => simp only [hg] at h; exact absurd h (by simp)
      | ok s2 =>
        simp only [hg] at h
        simp only [all_acks, Bool.and_eq_true]
        exact ⟨got_ack_ok_is_ack s t m s2 hg, ih s2 s1 h⟩

/-- An ack that the bracket shows to end an epoch at a window above -2 and at most -1: the
epoch block is entered, `got_ack` returns a state with that window, and the store into
`old_window_size_` gives `2^64 - 1`. -/
theorem ack_negative_sound (b : Bracket) (s : DatagrumpSender) (ts : Nat)
    (m : ContestMessage) (hh : b.holds s) (hu : b.ack_negative ts m = true) :
    ∃ s1, got_ack s ts m = .ok s1 ∧ epoch_fires s ts m = true ∧
      (∃ q : ℚ, s1.cur_window_size_ = .fin q ∧ -2 < q ∧ q ≤ -1) ∧
      s1.old_window_size_ = 2 ^ 64 - 1 := by
  by_cases hc : m.is_ack = true ∧ b.srtt_hi ≤ 2 * sub64 ts b.tau_start_ ∧
      0 < sub64 ts m.ack_send_timestamp ∧ 0 < b.lo ∧ b.slow_start ≠ 0
  swap
  · simp only [Bracket.ack_negative, if_neg hc] at hu
    exact absurd hu (by simp)
  simp only [Bracket.ack_negative, if_pos hc] at hu
  obtain ⟨hack, hgap, hrtt, hlo, hss0⟩ := hc
  cases hbel : b.below (sub64 ts m.ack_send_timestamp) (sub64 (sub64 ts m.ack_send_timestamp)
      (if sub64 ts m.ack_send_timestamp < b.rtt_min_ then sub64 ts m.ack_send_timestamp
        else b.rtt_min_)) with
  | none => simp only [hbel] at hu; exact absurd hu (by simp)
  | some bl =>
    simp only [hbel] at hu
    have hbelow := below_view_sound b s ts m bl hh hgap hrtt hbel
    cases hwin : b.window bl with
    | none => simp only [hwin] at hu; exact absurd hu (by simp)
    | some w1 =>
      simp only [hwin, decide_eq_true_eq] at hu
      obtain ⟨hep, hhi, hlow⟩ := hu
      obtain ⟨q1, hwindow, hq1lo, hq1hi, hfire⟩ :=
        window_view_sound b s ts m w1 hh hlo (by rw [hbelow]; exact hwin)
      have hfires : epoch_fires s ts m = true := hfire true hep
      have hss : s.slow_start ≠ 0 := by
        obtain ⟨_, _, _, _, _, _, _, _, _, _, _, _, _, hss⟩ := hh
        rw [hss]
        exact hss0
      have hepoch : epoch_window s ts m = .fin q1 := by
        simp only [epoch_window, slow_start_update, hss, if_false, hwindow]
      have hq1 : q1 ≤ -1 := by
        have c : (w1.2 : ℚ) ≤ -(SCALE : ℚ) := by exact_mod_cast hhi
        have : q1 * (SCALE : ℚ) ≤ (-1) * (SCALE : ℚ) := by linarith
        exact le_of_mul_le_mul_right this scale_pos
      have hq2 : -2 < q1 := by
        have c : -(2 * (SCALE : ℚ)) < (w1.1 : ℚ) := by exact_mod_cast hlow
        have : (-2) * (SCALE : ℚ) < q1 * (SCALE : ℚ) := by linarith
        exact lt_of_mul_lt_mul_right this scale_pos.le
      have hfloor : ⌊-q1⌋ = 1 := Int.floor_eq_iff.mpr ⟨by push_cast; linarith, by
        push_cast; linarith⟩
      have hconv : XFloat.toUInt64 (epoch_window s ts m) = 2 ^ 64 - 1 := by
        have hn : ¬ 0 ≤ q1 := by linarith
        have hr : -(2 ^ 63 : ℚ) - 1 < q1 := by linarith
        simp only [hepoch, XFloat.toUInt64, hn, if_false, hr, if_true, hfloor]
        decide
      have hgot := got_ack_eq s ts m hack
      simp only [hfires, if_true] at hgot
      exact ⟨_, hgot, hfires, ⟨q1, hepoch, hq2, hq1⟩, hconv⟩

end Copa

/-! ## Copa sender: the non-ack error -/

namespace Copa

/-- The run `negative_acks` is its first 59 acks followed by the last one. -/
theorem negative_acks_split :
    negative_acks =
      negative_acks.take 59 ++ [Event.ack 6000000 ⟨true, 59, 5970000, 5995000⟩] := by
  decide

set_option maxRecDepth 100000 in
/-- The bracket after the first 59 acks of `negative_acks`: the window lies between 5.11 and
5.12, the velocity is 16 and three acks of the epoch are counted. -/
theorem negative_bracket_before :
    Bracket.run Bracket.init (negative_acks.take 59) =
      some { lo := 5113413, hi := 5113536, v := 16, srtt_hi := 30000, rtt_standing_ := 30000,
             tau_start_ := 5900000, rtt_min_ := 10000, direction_ := 7, packet_count_ := 3,
             old_window_size_ := 4, slow_start := 1 } := by
  decide

/-- The last ack of `negative_acks` ends an epoch at a window between -2 and -1. -/
theorem negative_bracket_last :
    Bracket.ack_negative { lo := 5113413, hi := 5113536, v := 16, srtt_hi := 30000,
                           rtt_standing_ := 30000, tau_start_ := 5900000, rtt_min_ := 10000,
                           direction_ := 7, packet_count_ := 3, old_window_size_ := 4,
                           slow_start := 1 }
        6000000 ⟨true, 59, 5970000, 5995000⟩ = true := by
  decide

/-- An ack whose window does not fit `old_window_size_` returns a state all the same. Along
`negative_acks` the first 59 acks return a state with a window of about 5.11 and velocity
16; the shrink step of the last ack leaves a window of about -1.14, the epoch block is
entered, and the call returns with that window and `old_window_size_ = 2^64 - 1`. -/
theorem negative_store_returns :
    ∃ s59 s60 : DatagrumpSender,
      run DatagrumpSender.init (negative_acks.take 59) = .ok s59 ∧
      (∃ q : ℚ, s59.cur_window_size_ = .fin q ∧ 5 < q) ∧ s59.v = 16 ∧
      got_ack s59 6000000 ⟨true, 59, 5970000, 5995000⟩ = .ok s60 ∧
      epoch_fires s59 6000000 ⟨true, 59, 5970000, 5995000⟩ = true ∧
      (∃ q : ℚ, s60.cur_window_size_ = .fin q ∧ -2 < q ∧ q ≤ -1) ∧
      s60.old_window_size_ = 2 ^ 64 - 1 ∧
      run DatagrumpSender.init negative_acks = .ok s60 := by
  have hS : (SCALE : ℚ) = 1000000 := by norm_num [SCALE]
  obtain ⟨s59, hrun59, hh59⟩ := run_sound _ _ _ _ init_holds negative_bracket_before
  obtain ⟨s60, hgot, hfires, hwin, hold⟩ :=
    ack_negative_sound _ s59 _ _ hh59 negative_bracket_last
  obtain ⟨q59, hq59, hlo59, _, hv59, _⟩ := hh59
  simp only [hS] at hlo59
  push_cast at hlo59
  have h5 : 5 < q59 := by linarith
  have hv : s59.v = 16 := by rw [hv59]; norm_num
  refine ⟨s59, s60, hrun59, ⟨q59, hq59, h5⟩, hv, hgot, hfires, hwin, hold, ?_⟩
  rw [negative_acks_split, run_append _ _ _ _ hrun59]
  simp only [run, step, hgot]

/-- Claim C13: a message that is not an acknowledgement makes `got_ack` throw the runtime
error at its first statement, so the sender and the embedded controller are left exactly as
they were; an acknowledgement never fails: `got_ack` returns a state and the controller
receives the ack, whatever the state and the timestamps. -/
theorem c13_protocol_violation {C : Type} (f : C → Nat → Nat → Nat → Nat → C)
    (s : DatagrumpSender) (c : C) (ts : Nat) (m : ContestMessage) :
    (m.is_ack = false →
      got_ack s ts m = .error .runtime_error ∧
      got_ack_forward f s c ts m = ((s, c), some .runtime_error)) ∧
    (m.is_ack = true →
      ∃ s1, got_ack s ts m = .ok s1 ∧
        got_ack_forward f s c ts m =
          ((s1, f c m.ack_sequence_number m.ack_send_timestamp m.ack_recv_timestamp ts),
            none)) := by
  constructor
  · intro hack
    have h := got_ack_not_ack s ts m hack
    exact ⟨h, by simp only [got_ack_forward, h]⟩
  · intro hack
    obtain ⟨s1, hs1⟩ := got_ack_total s ts m hack
    exact ⟨s1, hs1, by simp only [got_ack_forward, hs1]⟩

/-- Claim C13 at the constructor state, for a message that is not an ack and for the first
ack of the examples, and at the ack of `negative_acks` whose window does not fit
`old_window_size_`. -/
theorem c13_protocol_violation_witness :
    got_ack_forward MeanVar.ack_received DatagrumpSender.init MeanVar.Controller.init 100000
        ⟨false, 0, 70000, 70020⟩ =
      ((DatagrumpSender.init, MeanVar.Controller.init), some .runtime_error) ∧
    (∃ s1, got_ack_forward MeanVar.ack_received DatagrumpSender.init MeanVar.Controller.init
        100000 ⟨true, 0, 70000, 70020⟩ =
      ((s1, MeanVar.ack_received MeanVar.Controller.init 0 70000 70020 100000), none)) ∧
    (∃ s59 s60, run DatagrumpSender.init (negative_acks.take 59) = .ok s59 ∧
      got_ack_forward MeanVar.ack_received s59 MeanVar.Controller.init 6000000
        ⟨true, 59, 5970000, 5995000⟩ =
      ((s60, MeanVar.ack_received MeanVar.Controller.init 59 5970000 5995000 6000000),
        none)) := by
  refine ⟨((c13_protocol_violation MeanVar.ack_received DatagrumpSender.init
      MeanVar.Controller.init 100000 ⟨false, 0, 70000, 70020⟩).1 rfl).2, ?_, ?_⟩
  · obtain ⟨s1, _, h⟩ := (c13_protocol_violation MeanVar.ack_received DatagrumpSender.init
      MeanVar.Controller.init 100000 ⟨true, 0, 70000, 70020⟩).2 rfl
    exact ⟨s1, h⟩
  · obtain ⟨s59, _, hrun, _⟩ := negative_store_returns
    obtain ⟨s60, _, h⟩ := (c13_protocol_violation MeanVar.ack_received s59
      MeanVar.Controller.init 6000000 ⟨true, 59, 5970000, 5995000⟩).2 rfl
    exact ⟨s59, s60, hrun, h⟩

end Copa

/-! ## Copa sender: an epoch with a standing window -/

namespace Copa

/-- An ack that returns a state with `packet_count_` 0, the count before it not being at its
largest value, ended an epoch. -/
theorem epoch_of_count_zero (s s1 : DatagrumpSender) (ts : Nat) (m : ContestMessage)
    (h : got_ack s ts m = .ok s1) (hpc : s1.packet_count_ = 0)
    (hne : add64 s.packet_count_ 1 ≠ 0) : epoch_fires s ts m = true := by
  have hack := got_ack_ok_is_ack s ts m s1 h
  cases hep : epoch_fires s ts m with
  | true => rfl
  | false =>
    exfalso
    rw [got_ack_eq s ts m hack] at h
    simp only [hep, Bool.false_eq_true, if_false, Except.ok.injEq] at h
    subst h
    exact hne hpc

/-- The first 21 acks of the example run are the first 20 followed by ack 21. -/
theorem collapse_acks_split_21 :
    collapse_acks.take 21 =
      collapse_acks.take 20 ++ [Event.ack 2100000 ⟨true, 20, 2070000, 2095000⟩] := by
  decide

/-- The first 25 acks of the example run are the first 21 followed by acks 22 to 25. -/
theorem collapse_acks_split_25 :
    collapse_acks.take 25 = collapse_acks.take 21 ++ (collapse_acks.take 25).drop 21 := by
  decide

/-- The first 26 acks of the example run are the first 25 followed by ack 26. -/
theorem collapse_acks_split_26 :
    collapse_acks.take 26 =
      collapse_acks.take 25 ++ [Event.ack 2600000 ⟨true, 25, 2570000, 2595000⟩] := by
  decide

set_option maxRecDepth 100000 in
/-- The bracket after the first 20 acks of the example run: the window lies between 4.63
and 4.64, four acks of the epoch are counted and `old_window_size_` is 6. -/
theorem stuck_bracket_20 :
    Bracket.run Bracket.init (collapse_acks.take 20) =
      some { lo := 4637029, hi := 4637056, v := 1, srtt_hi := 30000, rtt_standing_ := 30000,
             tau_start_ := 2000000, rtt_min_ := 10000, direction_ := -2, packet_count_ := 4,
             old_window_size_ := 6, slow_start := 1 } := by
  decide

/-- Ack 21 of the example run leaves the window and ends an epoch: the direction goes from
-2 to -3 and `old_window_size_` becomes 4. -/
theorem stuck_bracket_21 :
    Bracket.run_stuck { lo := 4637029, hi := 4637056, v := 1, srtt_hi := 30000,
                        rtt_standing_ := 30000, tau_start_ := 2000000, rtt_min_ := 10000,
                        direction_ := -2, packet_count_ := 4, old_window_size_ := 6,
                        slow_start := 1 }
        [Event.ack 2100000 ⟨true, 20, 2070000, 2095000⟩] =
      some { lo := 4637029, hi := 4637056, v := 1, srtt_hi := 30000, rtt_standing_ := 30000,
             tau_start_ := 2100000, rtt_min_ := 10000, direction_ := -3, packet_count_ := 0,
             old_window_size_ := 4, slow_start := 1 } := by
  decide

set_option maxRecDepth 100000 in
/-- Acks 22 to 25 of the example run leave the window and count four acks of the epoch. -/
theorem stuck_bracket_25 :
    Bracket.run_stuck { lo := 4637029, hi := 4637056, v := 1, srtt_hi := 30000,
                        rtt_standing_ := 30000, tau_start_ := 2100000, rtt_min_ := 10000,
                        direction_ := -3, packet_count_ := 0, old_window_size_ := 4,
                        slow_start := 1 }
        ((collapse_acks.take 25).drop 21) =
      some { lo := 4637029, hi := 4637056, v := 1, srtt_hi := 30000, rtt_standing_ := 30000,
             tau_start_ := 2500000, rtt_min_ := 10000, direction_ := -3, packet_count_ := 4,
             old_window_size_ := 4, slow_start := 1 } := by
  decide

/-- Ack 26 of the example run leaves the window and ends the epoch: the direction goes from
-3 to 1. -/
theorem stuck_bracket_26 :
    Bracket.run_stuck { lo := 4637029, hi := 4637056, v := 1, srtt_hi := 30000,
                        rtt_standing_ := 30000, tau_start_ := 2500000, rtt_min_ := 10000,
                        direction_ := -3, packet_count_ := 4, old_window_size_ := 4,
                        slow_start := 1 }
        [Event.ack 2600000 ⟨true, 25, 2570000, 2595000⟩] =
      some { lo := 4637029, hi := 4637056, v := 1, srtt_hi := 30000, rtt_standing_ := 30000,
             tau_start_ := 2600000, rtt_min_ := 10000, direction_ := 1, packet_count_ := 0,
             old_window_size_ := 4, slow_start := 1 } := by
  decide

/-- A run over one ack that returns a state is that call of `got_ack`. -/
theorem run_single (s s1 : DatagrumpSender) (t : Nat) (m : ContestMessage)
    (h : run s [Event.ack t m] = .ok s1) : got_ack s t m = .ok s1 := by
  simp only [run, step] at h
  cases hg : got_ack s t m with
  | ok s2 => simp only [hg] at h; exact h
  | error f => simp only [hg] at h; exact absurd h (by simp)

/-- Claim C19 fails on the code: `old_window_size_` is an unsigned integer, so an epoch
boundary stores the window rounded down, and the next boundary compares the window with that
integer. Along the example run ack 21 ends an epoch with a window of about 4.637 (direction
-3) and stores 4. Acks 22 to 26 all leave the window exactly as it was; ack 26 ends the next
epoch, the comparison `cur_window_size_ > old_window_size_` is 4.637 > 4, and the epoch over
which the window did not change is classified as growing: the direction becomes 1. -/
theorem c19_standing_window_classified_growing :
    ∃ s20 s21 s25 s26 : DatagrumpSender, ∃ q : ℚ,
      run DatagrumpSender.init (collapse_acks.take 20) = .ok s20 ∧
      got_ack s20 2100000 ⟨true, 20, 2070000, 2095000⟩ = .ok s21 ∧
      epoch_fires s20 2100000 ⟨true, 20, 2070000, 2095000⟩ = true ∧
      run DatagrumpSender.init (collapse_acks.take 21) = .ok s21 ∧
      s21.cur_window_size_ = .fin q ∧ 4 < q ∧ q < 5 ∧
      s21.old_window_size_ = 4 ∧ s21.direction_ = -3 ∧ s21.packet_count_ = 0 ∧
      run s21 ((collapse_acks.take 25).drop 21) = .ok s25 ∧
      s25.cur_window_size_ = .fin q ∧ s25.old_window_size_ = 4 ∧ s25.direction_ = -3 ∧
      s25.packet_count_ = 4 ∧
      got_ack s25 2600000 ⟨true, 25, 2570000, 2595000⟩ = .ok s26 ∧
      run DatagrumpSender.init (collapse_acks.take 26) = .ok s26 ∧
      epoch_fires s25 2600000 ⟨true, 25, 2570000, 2595000⟩ = true ∧
      epoch_window s25 2600000 ⟨true, 25, 2570000, 2595000⟩ = .fin q ∧
      epoch_grew s25 2600000 ⟨true, 25, 2570000, 2595000⟩ = true ∧
      s26.cur_window_size_ = .fin q ∧ s26.direction_ = 1 ∧ s26.old_window_size_ = 4 ∧
      s26.packet_count_ = 0 := by
  have hS : (SCALE : ℚ) = 1000000 := by norm_num [SCALE]
  obtain ⟨s20, hrun20, hh20⟩ := run_sound _ _ _ _ init_holds stuck_bracket_20
  obtain ⟨s21, hr21, hh21, hw21⟩ := run_stuck_sound _ _ _ s20 hh20 stuck_bracket_21
  obtain ⟨s25, hr25, hh25, hw25⟩ := run_stuck_sound _ _ _ s21 hh21 stuck_bracket_25
  obtain ⟨s26, hr26, hh26, hw26⟩ := run_stuck_sound _ _ _ s25 hh25 stuck_bracket_26
  have hg21 := run_single s20 s21 _ _ hr21
  have hg26 := run_single s25 s26 _ _ hr26
  have hrun21 : run DatagrumpSender.init (collapse_acks.take 21) = .ok s21 := by
    rw [collapse_acks_split_21, run_append _ _ _ _ hrun20]
    exact hr21
  have hrun25 : run DatagrumpSender.init (collapse_acks.take 25) = .ok s25 := by
    rw [collapse_acks_split_25, run_append _ _ _ _ hrun21]
    exact hr25
  have hrun26 : run DatagrumpSender.init (collapse_acks.take 26) = .ok s26 := by
    rw [collapse_acks_split_26, run_append _ _ _ _ hrun25]
    exact hr26
  obtain ⟨_, _, _, _, _, _, _, _, _, _, _, hpc20, _, _⟩ := hh20
  obtain ⟨q, hq21, hlo21, hhi21, _, _, _, _, _, _, hdir21, hpc21, hold21, _⟩ := hh21
  obtain ⟨_, _, _, _, _, _, _, _, _, _, hdir25, hpc25, hold25, _⟩ := hh25
  obtain ⟨_, _, _, _, _, _, _, _, _, _, hdir26, hpc26, hold26, _⟩ := hh26
  simp only [hS] at hlo21 hhi21
  push_cast at hlo21 hhi21
  have h4 : 4 < q := by linarith
  have h5 : q < 5 := by linarith
  have hq25 : s25.cur_window_size_ = .fin q := hw25.trans hq21
  have hq26 : s26.cur_window_size_ = .fin q := (hw26.trans hw25).trans hq21
  have hep21 : epoch_fires s20 2100000 ⟨true, 20, 2070000, 2095000⟩ = true :=
    epoch_of_count_zero s20 s21 _ _ hg21 hpc21 (by rw [hpc20]; decide)
  have hep26 : epoch_fires s25 2600000 ⟨true, 25, 2570000, 2595000⟩ = true :=
    epoch_of_count_zero s25 s26 _ _ hg26 hpc26 (by rw [hpc25]; decide)
  obtain ⟨hwin, _, _, _, _⟩ := got_ack_epoch s25 _ _ rfl hep26 s26 hg26
  have hew : epoch_window s25 2600000 ⟨true, 25, 2570000, 2595000⟩ = .fin q := by
    rw [← hwin]; exact hq26
  have hgrew : epoch_grew s25 2600000 ⟨true, 25, 2570000, 2595000⟩ = true := by
    rw [epoch_grew, hew, hold25, XFloat.lt_fin]
    exact decide_eq_true (by push_cast; exact h4)
  exact ⟨s20, s21, s25, s26, q, hrun20, hg21, hep21, hrun21, hq21, h4, h5, hold21, hdir21,
    hpc21, hr25, hq25, hold25, hdir25, hpc25, hg26, hrun26, hep26, hew, hgrew, hq26, hdir26,
    hold26, hpc26⟩

end Copa

/-! ## Copa sender: what every ack does -/

namespace Copa

/-- The velocity reached after one more growing epoch. -/
theorem direction_update_growing (n : Nat) :
    direction_update true (n : Int) (velocity_after n) =
      (((n + 1 : Nat) : Int), velocity_after (n + 1)) := by
  rcases Nat.lt_or_ge n 3 with h | h
  · interval_cases n <;> simp [direction_update, velocity_after]
  · have h0 : (n : Int) > 0 := by omega
    have h3 : (n : Int) ≥ 3 := by omega
    simp only [direction_update, h0, h3, if_true, velocity_after]
    rcases Nat.eq_or_lt_of_le h with h4 | h4
    · subst h4
      norm_num
    · have e1 : ¬ n ≤ 3 := by omega
      have e2 : ¬ n + 1 ≤ 3 := by omega
      have e3 : n + 1 - 3 = (n - 3) + 1 := by omega
      simp only [e1, e2, if_false, e3, pow_succ, Nat.cast_add, Nat.cast_one]

/-- Along a run of acks and sends in which every epoch finds the window grown, `direction_`
counts the epochs and `v` follows `velocity_after`. -/
theorem growing_run (es : List Event) : ∀ (s : DatagrumpSender) (n : Nat),
    all_acks es = true → always_grows s es → s.direction_ = (n : Int) →
    s.v = velocity_after n →
    ∃ s1, run s es = .ok s1 ∧ s1.direction_ = ((n + epochs s es : Nat) : Int) ∧
      s1.v = velocity_after (n + epochs s es) := by
  induction es with
  | nil =>
    intro s n _ _ hd hv
    exact ⟨s, rfl, by simpa [epochs] using hd, by simpa [epochs] using hv⟩
  | cons e es ih =>
    intro s n hall hgrow hd hv
    cases e with
    | send t b =>
      obtain ⟨s1, h1, h2, h3⟩ := ih (send_datagram s t b) n hall hgrow hd hv
      exact ⟨s1, by simp only [run, step, h1], by simpa [epochs] using h2,
        by simpa [epochs] using h3⟩
    | ack t m =>
      simp only [all_acks, Bool.and_eq_true] at hall
      obtain ⟨s2, hs2⟩ := got_ack_total s t m hall.1
      simp only [always_grows, hs2] at hgrow
      have hdir := got_ack_direction s t m s2 hs2
      cases hep : epoch_fires s t m with
      | false =>
        simp only [hep, Bool.false_eq_true, if_false, Prod.mk.injEq] at hdir
        obtain ⟨s1, h1, h2, h3⟩ := ih s2 n hall.2 hgrow.2 (hdir.1.trans hd) (hdir.2.trans hv)
        refine ⟨s1, by simp only [run, step, hs2, h1], ?_, ?_⟩
        · simpa [epochs, hs2, hep] using h2
        · simpa [epochs, hs2, hep] using h3
      | true =>
        have hg := hgrow.1 hep
        rw [hep, hg, hd, hv, direction_update_growing n] at hdir
        simp only [if_true, Prod.mk.injEq] at hdir
        obtain ⟨s1, h1, h2, h3⟩ := ih s2 (n + 1) hall.2 hgrow.2 hdir.1 hdir.2
        have e : n + (1 + epochs s2 es) = n + 1 + epochs s2 es := by omega
        refine ⟨s1, by simp only [run, step, hs2, h1], ?_, ?_⟩
        · simp only [epochs, hs2, hep, if_true, e]
          exact h2
        · simp only [epochs, hs2, hep, if_true, e]
          exact h3

/-- A run of acks that the bracket shows to grow at every epoch: `run` returns a state
under the last bracket, every message is an ack, every epoch finds the window grown, and
the bracket counts the epochs. -/
theorem run_growing_sound (es : List Event) :
    ∀ (b b1 : Bracket) (k : Nat) (s : DatagrumpSender),
    b.holds s → Bracket.run_growing b es = some (b1, k) →
    ∃ s1, run s es = .ok s1 ∧ b1.holds s1 ∧ all_acks es = true ∧ always_grows s es ∧
      epochs s es = k := by
  induction es with
  | nil =>
    intro b b1 k s hh hb
    simp only [Bracket.run_growing, Option.some.injEq, Prod.mk.injEq] at hb
    obtain ⟨e1, e2⟩ := hb
    subst e1 e2
    exact ⟨s, rfl, hh, rfl, trivial, rfl⟩
  | cons e es ih =>
    intro b b1 k s hh hb
    cases e with
    | send t f => simp only [Bracket.run_growing] at hb; exact absurd hb (by simp)
    | ack t m =>
      simp only [Bracket.run_growing] at hb
      cases hba : b.ack t m with
      | none => simp only [hba] at hb; exact absurd hb (by simp)
      | some b2 =>
        simp only [hba] at hb
        obtain ⟨s2, hs2, hh2⟩ := ack_sound b b2 s t m hh hba
        have hack := got_ack_ok_is_ack s t m s2 hs2
        have hpc : s.packet_count_ = b.packet_count_ := by
          obtain ⟨_, _, _, _, _, _, _, _, _, _, _, h, _⟩ := hh
          exact h
        have hdir : s.direction_ = b.direction_ := by
          obtain ⟨_, _, _, _, _, _, _, _, _, _, h, _⟩ := hh
          exact h
        have hpc2 : s2.packet_count_ = b2.packet_count_ := by
          obtain ⟨_, _, _, _, _, _, _, _, _, _, _, h, _⟩ := hh2
          exact h
        have hdir2 : s2.direction_ = b2.direction_ := by
          obtain ⟨_, _, _, _, _, _, _, _, _, _, h, _⟩ := hh2
          exact h
        by_cases hlt : b.packet_count_ + 1 < UINT64
        swap
        · simp only [if_neg hlt] at hb
          exact absurd hb (by simp)
        simp only [if_pos hlt] at hb
        have hadd : add64 s.packet_count_ 1 = b.packet_count_ + 1 := by
          rw [hpc]
          exact add64_of_lt _ hlt
        by_cases hc1 : b2.packet_count_ = b.packet_count_ + 1
        · simp only [if_pos hc1] at hb
          have hep : epoch_fires s t m = false := by
            cases hep : epoch_fires s t m with
            | false => rfl
            | true =>
              obtain ⟨_, _, _, _, h0⟩ := got_ack_epoch s t m hack hep s2 hs2
              omega
          obtain ⟨s1, h1, hh1, ha, hg, hk⟩ := ih b2 b1 k s2 hh2 hb
          refine ⟨s1, by simp only [run, step, hs2, h1], hh1, ?_, ?_, ?_⟩
          · simp only [all_acks, hack, ha, Bool.and_self]
          · simp only [always_grows, hs2, hep, Bool.false_eq_true, false_implies, true_and]
            exact hg
          · simp only [epochs, hs2, hep, Bool.false_eq_true, if_false, Nat.zero_add]
            exact hk
        · simp only [if_neg hc1] at hb
          by_cases hc2 : b2.packet_count_ = 0 ∧
              b2.direction_ = (if 0 < b.direction_ then b.direction_ + 1 else 1)
          swap
          · simp only [if_neg hc2] at hb
            exact absurd hb (by simp)
          simp only [if_pos hc2] at hb
          have hep : epoch_fires s t m = true :=
            epoch_of_count_zero s s2 t m hs2 (hpc2.trans hc2.1) (by rw [hadd]; omega)
          have hgrew : epoch_grew s t m = true := by
            have hd := got_ack_direction s t m s2 hs2
            simp only [hep, if_true] at hd
            cases hg : epoch_grew s t m with
            | true => rfl
            | false =>
              exfalso
              rw [hg] at hd
              have h1 : s2.direction_ = (direction_update false s.direction_ s.v).1 := by
                rw [← hd]
              rw [hdir2, hc2.2, hdir] at h1
              simp only [direction_update, Bool.false_eq_true, if_false] at h1
              split_ifs at h1 <;> simp at h1 <;> omega
          cases hrg : Bracket.run_growing b2 es with
          | none => simp only [hrg] at hb; exact absurd hb (by simp)
          | some r =>
            obtain ⟨b3, k3⟩ := r
            simp only [hrg, Option.some.injEq, Prod.mk.injEq] at hb
            obtain ⟨e1, e2⟩ := hb
            subst e1 e2
            obtain ⟨s1, h1, hh1, ha, hg, hk⟩ := ih b2 b3 k3 s2 hh2 hrg
            refine ⟨s1, by simp only [run, step, hs2, h1], hh1, ?_, ?_, ?_⟩
            · simp only [all_acks, hack, ha, Bool.and_self]
            · simp only [always_grows, hs2, hep, hgrew, true_implies, true_and]
              exact hg
            · simp only [epochs, hs2, hep, if_true, hk]
              omega

end Copa

/-! ## Copa sender: slow start, velocity, queuing delay and the per-ack step -/

namespace Copa

/-- Claim C17: after every finite sequence of acks and sends from the constructor state,
whatever the timestamps, `got_ack` has returned a state with `rtt_min_ <= rtt_standing_`;
the unsigned difference of the two does not wrap, and `dq_` is that difference, hence not
negative. -/
theorem c17_queuing_delay_nonneg (es : List Event) (hes : all_acks es = true) :
    ∃ s1, run DatagrumpSender.init es = .ok s1 ∧
      s1.rtt_min_ ≤ s1.rtt_standing_ ∧
      sub64 s1.rtt_standing_ s1.rtt_min_ = s1.rtt_standing_ - s1.rtt_min_ ∧
      s1.dq_ = ((s1.rtt_standing_ - s1.rtt_min_ : Nat) : ℚ) ∧ 0 ≤ s1.dq_ := by
  obtain ⟨s1, h⟩ := run_total es DatagrumpSender.init hes
  have h0 : rtt_inv DatagrumpSender.init :=
    ⟨le_refl _, by decide, by norm_num [DatagrumpSender.init]⟩
  obtain ⟨h1, h2, h3⟩ := run_rtt_inv es _ s1 h0 h
  refine ⟨s1, h, h1, sub64_of_le _ _ h1 h2, h3, ?_⟩
  rw [h3]
  exact Nat.cast_nonneg _

/-- Claim C17 on a run that goes through an epoch whose window does not fit
`old_window_size_` and continues with one more ack. -/
theorem c17_queuing_delay_nonneg_witness :
    all_acks (negative_acks ++ [Event.ack 6100000 ⟨true, 60, 6070000, 6095000⟩]) = true ∧
      ∃ s1, run DatagrumpSender.init
          (negative_acks ++ [Event.ack 6100000 ⟨true, 60, 6070000, 6095000⟩]) = .ok s1 ∧
        s1.rtt_min_ ≤ s1.rtt_standing_ ∧ 0 ≤ s1.dq_ := by
  have hall : all_acks
      (negative_acks ++ [Event.ack 6100000 ⟨true, 60, 6070000, 6095000⟩]) = true := by
    decide
  obtain ⟨s1, h, h1, _, _, h4⟩ := c17_queuing_delay_nonneg _ hall
  exact ⟨hall, s1, h, h1, h4⟩

/-- Claim C18: for every ack, with `epsilon = 1/2`, a positive finite window `w` and
velocity `v` before the ack, and `dq_` and `rtt_standing_` as `got_ack` has just updated
them (the minimum RTT being at most the standing RTT before the ack, as in every reachable
state), `got_ack` returns a state; the window after the per-ack rule is `W = w + v /
(epsilon * w)` if `dq_ = 0` or `w / rtt_standing_ <= 1 / (epsilon * dq_)`, otherwise
`W = w - v / (epsilon * w)` if `w > 5`, otherwise `W = w`; and the window of the returned
state is `W`, or `2 * W` when the ack ends an epoch (`W <= packet_count_ + 1`) in slow
start on the growth branch. -/
theorem c18_per_ack_step (s : DatagrumpSender) (ts : Nat) (m : ContestMessage) (w : ℚ)
    (hack : m.is_ack = true) (hw : s.cur_window_size_ = .fin w) (hpos : 0 < w)
    (heps : s.epsilon = 1 / 2) (hinv : s.rtt_min_ ≤ s.rtt_standing_) :
    ∃ (s1 : DatagrumpSender) (W : ℚ), got_ack s ts m = .ok s1 ∧
      W = (if s1.dq_ = 0 ∨ w / (s1.rtt_standing_ : ℚ) ≤ 1 / (1 / 2 * s1.dq_) then
            w + s.v / (1 / 2 * w)
          else if 5 < w then w - s.v / (1 / 2 * w)
          else w) ∧
      s1.cur_window_size_ =
        .fin (if W ≤ ((add64 s.packet_count_ 1 : Nat) : ℚ) ∧ s.slow_start = 0 ∧
                (s1.dq_ = 0 ∨ w / (s1.rtt_standing_ : ℚ) ≤ 1 / (1 / 2 * s1.dq_)) then W * 2
              else W) := by
  obtain ⟨s1, hs1⟩ := got_ack_total s ts m hack
  obtain ⟨k1, _, k3⟩ := got_ack_rtt s s1 ts m hs1
  obtain ⟨hbelow, hwin⟩ := per_ack_window s ts m w hw hpos heps hinv
  rw [← k1, ← k3] at hbelow hwin
  obtain ⟨W, hW⟩ : ∃ W : ℚ, W =
      (if s1.dq_ = 0 ∨ w / (s1.rtt_standing_ : ℚ) ≤ 1 / (1 / 2 * s1.dq_) then
        w + s.v / (1 / 2 * w)
      else if 5 < w then w - s.v / (1 / 2 * w)
      else w) := ⟨_, rfl⟩
  have hwin2 : ack_window s ts m = .fin W := by
    rw [hwin, hW]
    split_ifs <;> rfl
  refine ⟨s1, W, hs1, hW, ?_⟩
  have hfires : epoch_fires s ts m =
      decide (W ≤ ((add64 s.packet_count_ 1 : Nat) : ℚ)) := by
    rw [epoch_fires, hwin2, XFloat.le_fin]
  have hgot := got_ack_eq s ts m hack
  rw [hs1, hfires] at hgot
  by_cases hc : W ≤ ((add64 s.packet_count_ 1 : Nat) : ℚ)
  · simp only [hc, decide_True, if_true, Except.ok.injEq] at hgot
    have hcw : s1.cur_window_size_ = epoch_window s ts m := by rw [hgot]
    rw [hcw]
    simp only [epoch_window, slow_start_update, hwin2, hbelow, hc, true_and]
    by_cases h0 : s.slow_start = 0
    · by_cases hb : s1.dq_ = 0 ∨ w / (s1.rtt_standing_ : ℚ) ≤ 1 / (1 / 2 * s1.dq_)
      · simp only [h0, hb, decide_True, if_true, and_self, XFloat.mul_fin]
      · simp only [h0, hb, decide_False, if_true, Bool.false_eq_true, if_false, and_false]
    · simp only [h0, if_false, false_and]
  · simp only [hc, decide_False, Bool.false_eq_true, if_false, Except.ok.injEq] at hgot
    have hcw : s1.cur_window_size_ = ack_window s ts m := by rw [hgot]
    rw [hcw]
    simp only [hwin2, hc, false_and, if_false]

/-- Claim C18 at the first ack of the examples from the constructor state: the window goes
from 10 to 49/5. -/
theorem c18_per_ack_step_witness :
    (0 : ℚ) < 10 ∧
      ∃ (s1 : DatagrumpSender) (W : ℚ),
        got_ack DatagrumpSender.init 100000 ⟨true, 0, 70000, 70020⟩ = .ok s1 ∧
        W = (if s1.dq_ = 0 ∨ 10 / (s1.rtt_standing_ : ℚ) ≤ 1 / (1 / 2 * s1.dq_) then
              10 + DatagrumpSender.init.v / (1 / 2 * 10)
            else if (5 : ℚ) < 10 then 10 - DatagrumpSender.init.v / (1 / 2 * 10)
            else 10) ∧
        s1.cur_window_size_ = .fin (49 / 5) := by
  obtain ⟨s1, W, h1, h2, _⟩ := c18_per_ack_step DatagrumpSender.init 100000
    ⟨true, 0, 70000, 70020⟩ 10 rfl rfl (by norm_num) rfl (le_refl _)
  obtain ⟨_, hw, he⟩ := first_ack_facts DatagrumpSender.init rfl rfl rfl rfl rfl rfl rfl
  obtain ⟨s2, g1, g2, _⟩ :=
    got_ack_no_epoch DatagrumpSender.init 100000 ⟨true, 0, 70000, 70020⟩ rfl he
  rw [h1] at g1
  simp only [Except.ok.injEq] at g1
  subst g1
  exact ⟨by norm_num, s1, W, h1, h2, g2.trans hw⟩

end Copa

/-! ## Copa sender: slow start and velocity over every ack sequence -/

namespace Copa

/-- A run from the state that a first part returns: the whole run is the run of the two
parts. -/
theorem run_take_drop (n : Nat) (es : List Event) (s s1 : DatagrumpSender)
    (h : run s (es.take n) = .ok s1) : run s es = run s1 (es.drop n) := by
  have := run_append (es.take n) (es.drop n) s s1 h
  rwa [List.take_append_drop] at this

/-- Claim C8, amended: every ack returns a state; slow start is deactivated by an ack that
ends an epoch (`packet_count_ >= cur_window_size_` after the per-ack rule) with the rate
above the target, whether or not the window is above 5; any other ack leaves `slow_start`
as it was, also when the per-ack rule lowered the window; and once `slow_start` is 1 it is
1 after every later sequence of acks and sends, each of which returns a state. -/
theorem c8_slow_start_deactivation (s : DatagrumpSender) (ts : Nat) (ack : ContestMessage)
    (hack : ack.is_ack = true) :
    ∃ s1, got_ack s ts ack = .ok s1 ∧
      (s.slow_start = 0 → epoch_fires s ts ack = true → ack_below s ts ack = false →
        s1.slow_start = 1) ∧
      (¬ (epoch_fires s ts ack = true ∧ ack_below s ts ack = false) →
        s1.slow_start = s.slow_start) ∧
      (s1.slow_start = 1 → ∀ es : List Event, all_acks es = true →
        ∃ s2, run s1 es = .ok s2 ∧ s2.slow_start = 1) := by
  obtain ⟨s1, h⟩ := got_ack_total s ts ack hack
  have hss := got_ack_slow_start s ts ack s1 h
  refine ⟨s1, h, ?_, ?_, ?_⟩
  · intro h0 hep hb
    rw [hss]
    simp [h0, hep, hb]
  · intro hn
    rw [hss]
    have : ¬ (epoch_fires s ts ack = true ∧ ack_below s ts ack = false ∧ s.slow_start = 0) :=
      fun hc => hn ⟨hc.1, hc.2.1⟩
    simp [this]
  · intro h1 es hes
    obtain ⟨s2, h2⟩ := run_total es s1 hes
    exact ⟨s2, h2, slow_start_latch es s1 s2 h1 h2⟩

set_option maxRecDepth 100000 in
/-- The bracket after the first 8 acks of the example run: the window lies between 8.26 and
8.27, eight acks of the epoch are counted and slow start is active. -/
theorem collapse_bracket_8 :
    Bracket.run Bracket.init (collapse_acks.take 8) =
      some { lo := 8268952, hi := 8268960, v := 1, srtt_hi := 30000, rtt_standing_ := 30000,
             tau_start_ := 800000, rtt_min_ := 10000, direction_ := 0, packet_count_ := 8,
             old_window_size_ := 10, slow_start := 0 } := by
  decide

/-- Ack 9 of the example run finds the rate above the target and ends the first epoch. -/
theorem collapse_ack_9 (s8 : DatagrumpSender)
    (hh : Bracket.holds { lo := 8268952, hi := 8268960, v := 1, srtt_hi := 30000,
                          rtt_standing_ := 30000, tau_start_ := 800000, rtt_min_ := 10000,
                          direction_ := 0, packet_count_ := 8, old_window_size_ := 10,
                          slow_start := 0 } s8) :
    ack_below s8 900000 ⟨true, 8, 870000, 895000⟩ = false ∧
      epoch_fires s8 900000 ⟨true, 8, 870000, 895000⟩ = true := by
  have hbelow := below_view_sound _ s8 900000 ⟨true, 8, 870000, 895000⟩ false hh
    (by decide) (by decide) (by decide)
  have hwin := window_view_sound _ s8 900000 ⟨true, 8, 870000, 895000⟩ (8027083, 8027092) hh
    (by decide) (by rw [hbelow]; decide)
  obtain ⟨_, _, _, _, hfire⟩ := hwin
  exact ⟨hbelow, hfire true (by decide)⟩

/-- Claim C8, amended, on the example run: the first eight acks, several of which lower the
window, leave slow start active; ack 9 ends the first epoch with the rate above the target
and deactivates it; and it is inactive after the remaining 53 acks. -/
theorem c8_slow_start_deactivation_witness :
    ∃ s8 s9 s62 : DatagrumpSender,
      run DatagrumpSender.init (collapse_acks.take 8) = .ok s8 ∧ s8.slow_start = 0 ∧
      epoch_fires s8 900000 ⟨true, 8, 870000, 895000⟩ = true ∧
      ack_below s8 900000 ⟨true, 8, 870000, 895000⟩ = false ∧
      got_ack s8 900000 ⟨true, 8, 870000, 895000⟩ = .ok s9 ∧ s9.slow_start = 1 ∧
      all_acks (collapse_acks.drop 9) = true ∧
      run s9 (collapse_acks.drop 9) = .ok s62 ∧ s62.slow_start = 1 := by
  obtain ⟨s8, hrun8, hh8⟩ := run_sound _ _ _ _ init_holds collapse_bracket_8
  obtain ⟨hbelow, hfires⟩ := collapse_ack_9 s8 hh8
  have hss8 : s8.slow_start = 0 := by
    obtain ⟨_, _, _, _, _, _, _, _, _, _, _, _, _, h⟩ := hh8
    exact h
  obtain ⟨s9, hgot, hdeact, _, hlater⟩ :=
    c8_slow_start_deactivation s8 900000 ⟨true, 8, 870000, 895000⟩ rfl
  have hss9 : s9.slow_start = 1 := hdeact hss8 hfires hbelow
  have hall : all_acks (collapse_acks.drop 9) = true := by decide
  obtain ⟨s62, hrun62, hss62⟩ := hlater hss9 _ hall
  exact ⟨s8, s9, s62, hrun8, hss8, hfires, hbelow, hgot, hss9, hall, hrun62, hss62⟩

/-- Claim C9: slow start is active in the constructor state; from a state whose `slow_start`
is 1, every sequence of acks and sends returns a state whose `slow_start` is 1, and in that
state an ack never doubles the window: it returns a state whose window is the result of the
per-ack rule alone (the old window plus the step, minus the step, or the old window), and a
send changes neither the flag nor the window. -/
theorem c9_slow_start_latch (s : DatagrumpSender) (es : List Event)
    (hs : s.slow_start = 1) (hes : all_acks es = true) :
    DatagrumpSender.init.slow_start = 0 ∧
    ∃ s1, run s es = .ok s1 ∧ s1.slow_start = 1 ∧
      (∀ (ts : Nat) (ack : ContestMessage), ack.is_ack = true →
        ∃ s2, got_ack s1 ts ack = .ok s2 ∧
          s2.slow_start = 1 ∧ s2.cur_window_size_ = ack_window s1 ts ack ∧
          (s2.cur_window_size_ =
              XFloat.add s1.cur_window_size_
                (window_delta s1.cur_window_size_ s1.v s1.epsilon) ∨
            s2.cur_window_size_ =
              XFloat.sub s1.cur_window_size_
                (window_delta s1.cur_window_size_ s1.v s1.epsilon) ∨
            s2.cur_window_size_ = s1.cur_window_size_)) ∧
      (∀ (t : Nat) (b : Bool), (send_datagram s1 t b).slow_start = 1 ∧
        (send_datagram s1 t b).cur_window_size_ = s1.cur_window_size_) := by
  obtain ⟨s1, h⟩ := run_total es s hes
  have h1 : s1.slow_start = 1 := slow_start_latch es s s1 hs h
  refine ⟨rfl, s1, h, h1, ?_, ?_⟩
  · intro ts ack hack
    obtain ⟨s2, h2⟩ := got_ack_total s1 ts ack hack
    have hw := got_ack_window_latched s1 ts ack s2 h1 h2
    refine ⟨s2, h2, slow_start_latch [Event.ack ts ack] s1 s2 h1 (by simp [run, step, h2]),
      hw, ?_⟩
    rw [hw]
    exact window_step_cases _ _ _ _
  · intro t b
    exact ⟨h1, rfl⟩

set_option maxRecDepth 100000 in
/-- The bracket after the first 9 acks of `negative_acks`: slow start is inactive. -/
theorem negative_bracket_9 :
    Bracket.run Bracket.init (negative_acks.take 9) =
      some { lo := 8027083, hi := 8027092, v := 1, srtt_hi := 30000, rtt_standing_ := 30000,
             tau_start_ := 900000, rtt_min_ := 10000, direction_ := -1, packet_count_ := 0,
             old_window_size_ := 8, slow_start := 1 } := by
  decide

/-- Claim C9 on the run `negative_acks`: slow start is inactive after the first 9 acks, and
the remaining 51 acks, the last of which ends an epoch with a window that does not fit
`old_window_size_`, return a state in which it is still inactive. -/
theorem c9_slow_start_latch_witness :
    ∃ s9 s60 : DatagrumpSender,
      run DatagrumpSender.init (negative_acks.take 9) = .ok s9 ∧ s9.slow_start = 1 ∧
      all_acks (negative_acks.drop 9) = true ∧
      run s9 (negative_acks.drop 9) = .ok s60 ∧ s60.slow_start = 1 ∧
      s60.old_window_size_ = 2 ^ 64 - 1 := by
  obtain ⟨s9, hrun9, hh9⟩ := run_sound _ _ _ _ init_holds negative_bracket_9
  have hss9 : s9.slow_start = 1 := by
    obtain ⟨_, _, _, _, _, _, _, _, _, _, _, _, _, h⟩ := hh9
    exact h
  have hall : all_acks (negative_acks.drop 9) = true := by decide
  obtain ⟨_, s60, hrun, hss60, _⟩ := c9_slow_start_latch s9 (negative_acks.drop 9) hss9 hall
  obtain ⟨_, t60, _, _, _, _, _, _, hold, hfull⟩ := negative_store_returns
  rw [run_take_drop 9 negative_acks _ s9 hrun9, hrun] at hfull
  simp only [Except.ok.injEq] at hfull
  subst hfull
  exact ⟨s9, s60, hrun9, hss9, hall, hrun, hss60, hold⟩

/-- Claim C10: every ack returns a state, and every sequence of acks and sends does. Along
a run from `direction_ = 0` and `v = 1` in which every epoch finds the window grown,
`direction_` counts the epochs and `v` is 1 after the first three and 2 after the fourth,
doubling at each further one. An ack that does not end an epoch leaves `direction_` and `v`
alone; one that ends a growing epoch adds 1 to a positive `direction_` and doubles `v` when
`direction_ >= 3`, and on a reversal (`direction_ <= 0`) sets `direction_ = 1`, `v = 1`; one
that ends an epoch without growth subtracts 1 from a negative `direction_` and doubles `v`
when `direction_ <= -3`, and on a reversal (`direction_ >= 0`) sets `direction_ = -1`,
`v = 1`, whatever `v` was. -/
theorem c10_velocity_hysteresis (s : DatagrumpSender) (ts : Nat) (ack : ContestMessage)
    (es : List Event) (hack : ack.is_ack = true) (hes : all_acks es = true) :
    (∃ s1, run s es = .ok s1 ∧
      (s.direction_ = 0 → s.v = 1 → always_grows s es →
        s1.direction_ = (epochs s es : Int) ∧ s1.v = velocity_after (epochs s es))) ∧
    (velocity_after 1 = 1 ∧ velocity_after 2 = 1 ∧ velocity_after 3 = 1 ∧
      velocity_after 4 = 2 ∧ ∀ k : Nat, 3 ≤ k → velocity_after (k + 1) = velocity_after k * 2) ∧
    (∃ s1, got_ack s ts ack = .ok s1 ∧
      (epoch_fires s ts ack = false → s1.direction_ = s.direction_ ∧ s1.v = s.v) ∧
      (epoch_fires s ts ack = true → epoch_grew s ts ack = true →
        (0 < s.direction_ → s1.direction_ = s.direction_ + 1 ∧
          s1.v = if 3 ≤ s.direction_ then s.v * 2 else s.v) ∧
        (s.direction_ ≤ 0 → s1.direction_ = 1 ∧ s1.v = 1)) ∧
      (epoch_fires s ts ack = true → epoch_grew s ts ack = false →
        (s.direction_ < 0 → s1.direction_ = s.direction_ - 1 ∧
          s1.v = if s.direction_ ≤ -3 then s.v * 2 else s.v) ∧
        (0 ≤ s.direction_ → s1.direction_ = -1 ∧ s1.v = 1))) := by
  refine ⟨?_, ?_, ?_⟩
  · obtain ⟨s1, h1⟩ := run_total es s hes
    refine ⟨s1, h1, ?_⟩
    intro hd hv hg
    obtain ⟨s2, h2, h3, h4⟩ := growing_run es s 0 hes hg (by simpa using hd)
      (by simpa [velocity_after] using hv)
    rw [h1] at h2
    simp only [Except.ok.injEq] at h2
    subst h2
    simp only [Nat.zero_add] at h3 h4
    exact ⟨h3, h4⟩
  · refine ⟨by simp [velocity_after], by simp [velocity_after], by simp [velocity_after],
      by norm_num [velocity_after], ?_⟩
    intro k hk
    have h := direction_update_growing k
    have h0 : (k : Int) > 0 := by omega
    have h3 : (k : Int) ≥ 3 := by omega
    simp only [direction_update, h0, h3, if_true, Prod.mk.injEq] at h
    exact h.2.symm
  · obtain ⟨s1, h1⟩ := got_ack_total s ts ack hack
    have hdir := got_ack_direction s ts ack s1 h1
    refine ⟨s1, h1, ?_, ?_, ?_⟩
    · intro hep
      simp only [hep, Bool.false_eq_true, if_false, Prod.mk.injEq] at hdir
      exact hdir
    · intro hep hg
      simp only [hep, hg, if_true, direction_update] at hdir
      constructor
      · intro hpos
        have hp : s.direction_ > 0 := hpos
        simp only [hp, if_true, Prod.mk.injEq] at hdir
        exact hdir
      · intro hle
        have hp : ¬ s.direction_ > 0 := not_lt.mpr hle
        simp only [hp, if_false, Prod.mk.injEq] at hdir
        exact hdir
    · intro hep hg
      simp only [hep, hg, if_true, direction_update, Bool.false_eq_true, if_false] at hdir
      constructor
      · intro hneg
        simp only [hneg, if_true, Prod.mk.injEq] at hdir
        exact hdir
      · intro hge
        have hp : ¬ s.direction_ < 0 := not_lt.mpr hge
        simp only [hp, if_false, Prod.mk.injEq] at hdir
        exact hdir

set_option maxRecDepth 1000000 in
/-- The bracket after the 210 acks of `growth_acks`: four epochs, each of which found the
window grown; the window lies between 226.6 and 226.7, `direction_` is 4 and the velocity
is 2. -/
theorem growth_bracket :
    Bracket.run_growing Bracket.init growth_acks =
      some ({ lo := 226610638, hi := 226611592, v := 2, srtt_hi := 10000,
              rtt_standing_ := 10000, tau_start_ := 21000000, rtt_min_ := 10000,
              direction_ := 4, packet_count_ := 0, old_window_size_ := 226,
              slow_start := 0 }, 4) := by
  decide

/-- Claim C10 on the run `growth_acks` from the constructor state (`direction_ = 0`,
`v = 1`): the 210 acks make four epochs, each of which finds the window grown, and the
state returned has `direction_ = 4` and `v = 2`. -/
theorem c10_velocity_hysteresis_witness :
    all_acks growth_acks = true ∧ always_grows DatagrumpSender.init growth_acks ∧
      epochs DatagrumpSender.init growth_acks = 4 ∧
      ∃ s1, run DatagrumpSender.init growth_acks = .ok s1 ∧
        s1.direction_ = 4 ∧ s1.v = 2 := by
  obtain ⟨_, _, _, hall, hgrow, hk⟩ :=
    run_growing_sound growth_acks _ _ _ _ init_holds growth_bracket
  obtain ⟨⟨s1, hrun, hfour⟩, ⟨_, _, _, hv4, _⟩, _⟩ :=
    c10_velocity_hysteresis DatagrumpSender.init 100000 ⟨true, 0, 70000, 70020⟩ growth_acks
      rfl hall
  obtain ⟨hd, hv⟩ := hfour rfl rfl hgrow
  rw [hk] at hd hv
  exact ⟨hall, hgrow, hk, s1, hrun, by simpa using hd, hv.trans hv4⟩

end Copa
